import Mathlib

/-!
# Plasma launcher (`plUruLauncher/winmain.cpp`): a shallow embedding

The launcher talks to Win32 all the time.  Every API call the source makes is
recorded, in program order, as an `Event` of a trace; everything the operating
system (or a collaborator that is not part of the sources) answers is read from
an explicit environment record.  A function of the source becomes a Lean
function from its arguments and the environment to its return value and the
trace of the calls it made.

Strings are sequences of characters without the terminating NUL.  Case
folding is the "C" locale one (only `A`..`Z` change), which on UTF-8 text
acts the same on bytes and on code points.

The second part embeds the console (`pfConsole/pfConsole.cpp`): the choice of
the screenshot index in `MsgReceive` and the line editor `IHandleKey`.  The
editor works on `char` arrays, which are lists of bytes here, so that the
bytes after a terminating NUL are part of the state; an access outside an
array has no result (`none`).  The command engine and Python are not among
the sources and answer through an environment record; the calls made to them
and to the display side are recorded in the state.
-/

namespace Plasma

/-! ## Constants -/

/-- The macro `#define PLASMA_PHAILURE 1`. -/
def PLASMA_PHAILURE : Nat := 1
/-- The macro `#define PLASMA_OK 0`. -/
def PLASMA_OK : Nat := 0

/-- winerror.h -/
def ERROR_ELEVATION_REQUIRED : Nat := 740
/-- winbase.h: `INFINITE` is `0xFFFFFFFF` -/
def INFINITE : Nat := 4294967295
/-- winbase.h -/
def WAIT_OBJECT_0 : Nat := 0
/-- winuser.h -/
def WM_DESTROY : Nat := 2
/-- winuser.h -/
def WM_QUIT : Nat := 18
/-- winuser.h -/
def WM_NCHITTEST : Nat := 132
/-- winuser.h -/
def WM_COMMAND : Nat := 273
/-- winuser.h -/
def BN_CLICKED : Nat := 0
/-- winuser.h: the numeric id of the cancel button -/
def IDCANCEL : Nat := 2
/-- commctrl.h: `PBM_SETMARQUEE` is `WM_USER + 10` -/
def PBM_SETMARQUEE : Nat := 1034

/-- A Win32 `HANDLE`; `0` is `nullptr`. -/
abbrev HANDLE := Nat

/-- The C++ conversion of an integer to `bool`. -/
def intToBool (n : Nat) : Bool := n != 0

/-! ## Strings -/

/-- Modelled from the spec: `plString::CompareI` (plString.h is not among the
sources) compares two strings "ignoring case" the way `stricmp` does: it walks
both strings, folds each character to lower case, and answers with the sign of
the first difference, `0` when there is none. -/
def stricmp : List Char → List Char → Int
  | [], [] => 0
  | [], _ :: _ => -1
  | _ :: _, [] => 1
  | a :: as, b :: bs =>
      if a.toLower = b.toLower then stricmp as bs
      else if a.toLower < b.toLower then -1 else 1

/-- Modelled from the spec: the comparison of `stricmp` over at most `n`
characters (`strnicmp`), used by the case-insensitive `plString::Find`. -/
def strnicmp : List Char → List Char → Nat → Int
  | _, _, 0 => 0
  | [], [], _ + 1 => 0
  | [], _ :: _, _ + 1 => -1
  | _ :: _, [], _ + 1 => 1
  | a :: as, b :: bs, n + 1 =>
      if a.toLower = b.toLower then strnicmp as bs n
      else if a.toLower < b.toLower then -1 else 1

/-- Modelled from the spec: the scan of the case-insensitive `plString::Find`
(plString.h is not among the sources): `cp` walks the string until its
end, `i` is the index of `cp`; the first position where the next
`strlen(str)` characters equal `str` ignoring case is returned, else `-1`. -/
def findScan (str : List Char) : List Char → Nat → Int
  | [], _ => -1
  | c :: cs, i =>
      if strnicmp (c :: cs) str str.length = 0 then (i : Int)
      else findScan str cs (i + 1)

namespace plString

/-- Modelled from the spec: `plString::CompareI(str)`, case-insensitive
three-way comparison; `== 0` means "equal ignoring case". -/
def CompareI (self str : String) : Int := stricmp self.data str.data

/-- Modelled from the spec: `plString::Find(str, plString::kCaseInsensitive)`,
the index of the first occurrence of `str` ignoring case, `-1` when there is
none (and for an empty `str`). -/
def FindI (self str : String) : Int :=
  if str.data = [] then -1 else findScan str.data self.data 0

/-- Modelled from the spec: `plString::IsEmpty` (plString.h is not among the
sources), whether the string has no character. -/
def IsEmpty (self : String) : Bool := self.data.isEmpty

end plString

/-! ## Windows, messages and the trace -/

/-- The controls of the patcher dialog named in the source (`resource.h`). -/
inductive DlgItem where
  | IDCANCEL | IDC_TEXT | IDC_MARQUEE | IDC_PROGRESS | IDC_DLSIZE | IDC_DLSPEED
  | IDC_STATUS_TEXT | IDC_PRODUCTSTRING
  deriving DecidableEq, Repr

/-- A window handle: null, the dialog `s_dialog`, one of its controls
(`GetDlgItem(s_dialog, id)`), or some other window of the thread. -/
inductive HWND where
  | null
  | dialog
  | item (id : DlgItem)
  | other (n : Nat)
  deriving DecidableEq, Repr

/-- The `MSG` structure, as far as the source reads it. -/
structure MSG where
  hwnd : HWND
  message : Nat
  wParam : Nat
  lParam : Nat
  deriving DecidableEq, Repr

/-- The `TBPFLAG` values used by the source. -/
inductive TBPFLAG where
  | TBPF_NOPROGRESS | TBPF_INDETERMINATE | TBPF_ERROR
  deriving DecidableEq, Repr

/-- The methods of `s_launcher` (`plClientLauncher`) that `winmain.cpp` calls. -/
inductive LauncherCall where
  | ParseArguments | SetErrorProc | SetInstallerProc | SetLaunchClientProc
  | SetPatcherFactory | SetShardProc | SetStatusProc
  | CompleteSelfPatch | LoadServerIni | InitializeNetCore | PumpNetCore
  | ShutdownNetCore
  /-- inside `CompleteSelfPatch`: the installed binary is replaced by the self-copy -/
  | ReplaceInstalledBinary
  /-- inside `CompleteSelfPatch`: the replaced binary is executed -/
  | ReExec
  deriving DecidableEq, Repr

/-- One call made by the launcher, with the arguments that matter. -/
inductive Event where
  | SetDlgItemTextW (item : DlgItem) (text : String)
  | SetWindowTextW (item : DlgItem) (text : String)
  | ShowWindow (item : DlgItem) (visible : Bool)
  | EnableWindow (item : DlgItem) (enable : Bool)
  | PostMessageW (hwnd : HWND) (msg wParam lParam : Nat)
  | PostQuitMessage (code : Nat)
  | DestroyWindow
  | DefWindowProcW (msg wParam lParam : Nat)
  | SetWindowLongW
  | CreateDialogW
  | PeekMessageW (retrieved : Bool)
  | IsDialogMessageW (msg : MSG)
  | TranslateMessage (msg : MSG)
  | DispatchMessageW (msg : MSG)
  | TaskbarRelease
  | CoCreateInstance
  | SetProgressState (flag : TBPFLAG)
  | SetProgressValue (cur total : Nat)
  | Sleep (ms : Nat)
  | CreateProcessW (file cmd : String)
  | ShellExecuteExW (file params : String)
  | FormatMessageW (err : Nat)
  | hsMessageBox (text caption : String)
  | ErrorAssert (msg : String)
  | CloseHandle (h : HANDLE)
  | WaitForSingleObject (h : HANDLE) (timeout : Nat)
  | GetExitCodeProcess (h : HANDLE)
  | CreateEventW (name : String)
  | WaitForInputIdle (h : HANDLE) (ms : Nat)
  | CreateMutexW (name : String)
  | ReleaseMutex (h : HANDLE)
  | launcher (call : LauncherCall)
  deriving DecidableEq, Repr

/-- The file-scope variables of `winmain.cpp` that the functions below read:
whether `s_taskbar` is non-null.  (`s_dialog` is `HWND.dialog`.) -/
structure Globals where
  s_taskbar : Bool
  deriving DecidableEq, Repr

/-- The header `HeadSpin.h` is not among the sources, so what the macro
`hsAssert(expr, msg)` expands to is a parameter: `assertEvaluates` tells
whether the expansion evaluates `expr` (and then reports `msg` through
`ErrorAssert` when it is false) or drops it. -/
structure HeadSpin where
  assertEvaluates : Bool
  deriving DecidableEq, Repr

/-- What a call returns, with the API calls it made.  `result = none` is a
call that never returns: it is stuck in a wait without timeout. -/
structure Run (α : Type) where
  trace : List Event
  result : Option α

/-! ## Spawning a process -/

/-- The answer of `CreateProcessW`. -/
inductive SpawnResult where
  /-- The case `result != FALSE`, with `pi.hProcess` and `pi.hThread`. -/
  | started (hProcess hThread : HANDLE)
  /-- The case `result == FALSE`, with the value of `GetLastError()`. -/
  | failed (lastError : Nat)
  deriving DecidableEq, Repr

/-- What the operating system answers around one spawn. -/
structure SpawnEnv where
  /-- the outcome of `CreateProcessW` -/
  createProcess : SpawnResult
  /-- the return value of `ShellExecuteExW` -/
  shellExecuteOk : Bool
  /-- the field `info.hProcess` after `ShellExecuteExW` -/
  shellProcess : HANDLE
  /-- the text `FormatMessageW` writes into `buf` for an error code -/
  formatMessage : Nat → String
  /-- whether the process ever terminates, so that
  `WaitForSingleObject(process, INFINITE)` returns -/
  exits : Bool
  /-- the answer of `GetExitCodeProcess`: `some c` stores `c` and returns TRUE, `none`
  returns FALSE and leaves `code` alone -/
  exitCode : Option Nat

/-- Embeds `IQuit(exitCode)`: posts `WM_QUIT` with the exit code to the dialog.
The default argument of the source, `PLASMA_OK`, is written out at each call. -/
def IQuit (exitCode : Nat) : List Event :=
  [Event.PostMessageW HWND.dialog WM_QUIT exitCode 0]

/-- Embeds `IShowMarquee(marquee)`; the default argument of the source is `true`. -/
def IShowMarquee (marquee : Bool) : List Event :=
  [Event.ShowWindow DlgItem.IDC_MARQUEE marquee,
   Event.ShowWindow DlgItem.IDC_PROGRESS (!marquee),
   Event.PostMessageW (HWND.item DlgItem.IDC_MARQUEE) PBM_SETMARQUEE (if marquee then 1 else 0) 0]

/-- Embeds `ISetDownloadStatus(status)` -/
def ISetDownloadStatus (g : Globals) (status : String) : List Event :=
  [Event.SetDlgItemTextW DlgItem.IDC_TEXT status]
    ++ IShowMarquee true
    ++ [Event.SetDlgItemTextW DlgItem.IDC_DLSIZE "",
        Event.SetDlgItemTextW DlgItem.IDC_DLSPEED ""]
    ++ (if g.s_taskbar then [Event.SetProgressState TBPFLAG.TBPF_INDETERMINATE] else [])

/-- Embeds `ICreateProcess(exe, args)`: the handle it returns (`0` for `nullptr`)
and the calls it made. -/
def ICreateProcess (hs : HeadSpin) (env : SpawnEnv) (exe args : String) :
    HANDLE × List Event :=
  let cmd := exe ++ " " ++ args
  let file := exe
  let params := cmd
  let t₀ := [Event.CreateProcessW file params]
  match env.createProcess with
  | SpawnResult.started hProcess hThread =>
      (hProcess, t₀ ++ [Event.CloseHandle hThread])
  | SpawnResult.failed lastError =>
      if lastError = ERROR_ELEVATION_REQUIRED then
        -- `info` is zeroed, then `hsAssert(ShellExecuteExW(&info), ...)`
        if hs.assertEvaluates then
          (env.shellProcess,
            t₀ ++ [Event.ShellExecuteExW file args]
               ++ (if env.shellExecuteOk then [] else [Event.ErrorAssert "ShellExecuteExW phailed"]))
        else
          (0, t₀)
      else
        (0, t₀ ++ [Event.FormatMessageW lastError,
                   Event.hsMessageBox (env.formatMessage lastError) "Error"])

/-- The argument guess of `IInstallRedist`: what `ss.GetString()` holds. -/
def redistArgs (exe : String) : String :=
  let ss := ""
  let ss := if plString.CompareI exe "oalinst.exe" = 0 then ss ++ "/s" else ss ++ "/q"
  let ss := if plString.FindI exe "vcredist" ≠ -1 then ss ++ " /norestart" else ss
  ss

/-- Embeds `IInstallRedist(exe)` -/
def IInstallRedist (hs : HeadSpin) (g : Globals) (env : SpawnEnv) (exe : String) : Run Bool :=
  let t₀ := ISetDownloadStatus g ("Installing... " ++ exe) ++ [Event.Sleep 2500]
  let spawn := ICreateProcess hs env exe (redistArgs exe)
  let process := spawn.1
  let t₁ := t₀ ++ spawn.2
  if process ≠ 0 then
    let t₂ := t₁ ++ [Event.WaitForSingleObject process INFINITE]
    if env.exits then
      let code := PLASMA_OK
      -- `hsAssert(GetExitCodeProcess(process, &code), ...)`
      let code := if hs.assertEvaluates then env.exitCode.getD code else code
      let t₃ := t₂
        ++ (if hs.assertEvaluates then
              [Event.GetExitCodeProcess process]
                ++ (if env.exitCode.isSome then [] else [Event.ErrorAssert "failed to get redist exit code"])
            else [])
        ++ [Event.CloseHandle process]
      { trace := t₃, result := some (code != PLASMA_PHAILURE) }
    else
      { trace := t₂, result := none }
  else
    { trace := t₁, result := some (intToBool PLASMA_PHAILURE) }


/-! ## Names that come from other parts of the repository -/

/-- Values of functions declared outside the sources (`plManifests.h`,
`plProduct.h`, the net error table), taken as parameters. -/
structure Externals where
  /-- the value of `plManifest::ClientExecutable().AsString()` -/
  ClientExecutable : String
  /-- the value of `plManifest::PatcherExecutable().AsString()` -/
  PatcherExecutable : String
  /-- the value of `plProduct::LongName()` -/
  LongName : String
  /-- the value of `plProduct::ProductString()` -/
  ProductString : String
  /-- the value of `NetErrorAsString(result)` -/
  NetErrorAsString : Nat → String

/-! ## The patcher mutex -/

/-- What the operating system answers to one `CreatePatcherMutex()` followed
by a wait on the handle. -/
structure MutexEnv where
  /-- the handle `CreateMutexW` returns -/
  handle : HANDLE
  /-- the value `WaitForSingleObject(mut, 0)` returns -/
  waitResult : Nat
  /-- whether `WaitForSingleObject(mut, INFINITE)` ever returns -/
  released : Bool

/-- Embeds `CreatePatcherMutex()` -/
def CreatePatcherMutex (x : Externals) (handle : HANDLE) : HANDLE × List Event :=
  (handle, [Event.CreateMutexW x.PatcherExecutable])

/-- Embeds `IsPatcherRunning()` -/
def IsPatcherRunning (x : Externals) (env : MutexEnv) : Bool × List Event :=
  let mut_ := CreatePatcherMutex x env.handle
  (env.waitResult != WAIT_OBJECT_0, mut_.2 ++ [Event.WaitForSingleObject mut_.1 0])

/-- Embeds `WaitForOldPatcher()` -/
def WaitForOldPatcher (x : Externals) (env : MutexEnv) : Run Unit :=
  let mut_ := CreatePatcherMutex x env.handle
  { trace := mut_.2 ++ [Event.WaitForSingleObject mut_.1 INFINITE],
    result := if env.released then some () else none }

/-! ## Launching the client, reporting an error -/

/-- What the operating system answers around one `ILaunchClientExecutable`. -/
structure LaunchEnv where
  /-- the handle `CreateEventW` returns -/
  hEvent : HANDLE
  /-- the spawn -/
  spawn : SpawnEnv
  /-- whether the event `UruPatcherEvent` is ever signalled, so that
  `WaitForSingleObject(hEvent, INFINITE)` returns -/
  eventSignalled : Bool

/-- Embeds `ILaunchClientExecutable(exe, args)` -/
def ILaunchClientExecutable (hs : HeadSpin) (x : Externals) (g : Globals) (env : LaunchEnv)
    (exe args : String) : Run Unit :=
  let t₀ := if g.s_taskbar then [Event.SetProgressState TBPFLAG.TBPF_NOPROGRESS] else []
  if !plString.IsEmpty exe then
    let hEvent := env.hEvent
    let t₁ := t₀ ++ [Event.CreateEventW "UruPatcherEvent"]
    let spawn := ICreateProcess hs env.spawn exe args
    let process := spawn.1
    let t₂ := t₁ ++ spawn.2
    let close := [Event.CloseHandle process, Event.CloseHandle hEvent]
    if plString.CompareI x.ClientExecutable exe = 0 then
      let t₃ := t₂ ++ [Event.WaitForInputIdle process 1000,
                       Event.WaitForSingleObject hEvent INFINITE]
      if env.eventSignalled then
        { trace := t₃ ++ close ++ IQuit PLASMA_OK, result := some () }
      else
        { trace := t₃, result := none }
    else
      { trace := t₂ ++ close ++ IQuit PLASMA_OK, result := some () }
  else
    { trace := t₀ ++ IQuit PLASMA_OK, result := some () }

/-- Embeds `IOnNetError(result, msg)` -/
def IOnNetError (x : Externals) (g : Globals) (result : Nat) (msg : String) : List Event :=
  let t₀ := if g.s_taskbar then [Event.SetProgressState TBPFLAG.TBPF_ERROR] else []
  let text := "Error: " ++ x.NetErrorAsString result ++ "\r\n" ++ msg
  t₀ ++ [Event.hsMessageBox text "Error"] ++ IQuit PLASMA_PHAILURE

/-- Embeds `ISetShardStatus(status)` -/
def ISetShardStatus (status : String) : List Event :=
  [Event.SetDlgItemTextW DlgItem.IDC_STATUS_TEXT status]

/-! ## The dialog procedure -/

/-- The macro `HIWORD`. -/
def HIWORD (w : Nat) : Nat := (w / 65536) % 65536
/-- The macro `LOWORD`. -/
def LOWORD (w : Nat) : Nat := w % 65536

/-- What the window system answers to the dialog procedure. -/
structure DialogEnv where
  /-- the message id `RegisterWindowMessageW(L"TaskbarButtonCreated")` gave -/
  s_taskbarCreated : Nat
  /-- whether `CoCreateInstance` succeeds -/
  coCreateOk : Bool
  /-- the value of `DefWindowProcW` -/
  defWindowProc : Nat → Nat → Nat → Bool

/-- Embeds `PatcherDialogProc(hwndDlg, uMsg, wParam, lParam)`: the new value of the
globals, the returned `BOOL`, and the calls made. -/
def PatcherDialogProc (env : DialogEnv) (g : Globals) (uMsg wParam lParam : Nat) :
    Globals × Bool × List Event :=
  -- NT6 Taskbar Majick
  let (g, t₀) :=
    if uMsg = env.s_taskbarCreated then
      ({ g with s_taskbar := env.coCreateOk },
        (if g.s_taskbar then [Event.TaskbarRelease] else []) ++ [Event.CoCreateInstance])
    else (g, [])
  if uMsg = WM_COMMAND then
    if HIWORD wParam = BN_CLICKED ∧ LOWORD wParam = IDCANCEL then
      (g, true, t₀ ++ [Event.EnableWindow DlgItem.IDCANCEL false,
                      Event.SetWindowTextW DlgItem.IDC_TEXT "Shutting Down..."]
                   ++ IQuit PLASMA_OK)
    else (g, true, t₀)
  else if uMsg = WM_DESTROY then
    (g, true, t₀ ++ (if g.s_taskbar then [Event.TaskbarRelease] else [])
                 ++ [Event.PostQuitMessage PLASMA_OK])
  else if uMsg = WM_NCHITTEST then
    (g, true, t₀ ++ [Event.SetWindowLongW])
  else if uMsg = WM_QUIT then
    (g, true, t₀ ++ [Event.launcher LauncherCall.ShutdownNetCore, Event.DestroyWindow])
  else
    (g, env.defWindowProc uMsg wParam lParam, t₀ ++ [Event.DefWindowProcW uMsg wParam lParam])

/-- Embeds `ShowPatcherDialog(hInstance)` -/
def ShowPatcherDialog (x : Externals) : List Event :=
  [Event.CreateDialogW,
   Event.SetDlgItemTextW DlgItem.IDC_TEXT "Connecting...",
   Event.SetDlgItemTextW DlgItem.IDC_PRODUCTSTRING x.ProductString,
   Event.SetDlgItemTextW DlgItem.IDC_DLSIZE "",
   Event.SetDlgItemTextW DlgItem.IDC_DLSPEED ""]
    ++ IShowMarquee true

/-! ## The message pump -/

/-- One message `PeekMessageW` hands out, with what the window system does
with it. -/
structure Peeked where
  /-- the message stored in `msg` -/
  msg : MSG
  /-- the return value of `IsDialogMessageW(s_dialog, &msg)` -/
  isDialogMessage : Bool
  /-- the calls of `PatcherDialogProc` (as `uMsg`, `wParam`, `lParam`) the
  window system makes while the message is handled -/
  delivered : List (Nat × Nat × Nat)

/-- A callback `s_launcher.PumpNetCore()` makes into `winmain.cpp`, through the
procedures registered at the top of `WinMain`. -/
inductive NetCall where
  /-- the error procedure: `IOnNetError(result, msg)` -/
  | error (result : Nat) (msg : String)
  /-- the installer procedure: `IInstallRedist(exe)` -/
  | install (exe : String) (env : SpawnEnv)
  /-- the launch procedure: `ILaunchClientExecutable(exe, args)` -/
  | launch (exe args : String) (env : LaunchEnv)
  /-- the status procedure: `ISetDownloadStatus(status)` -/
  | status (status : String)
  /-- the shard procedure: `ISetShardStatus(status)` -/
  | shard (status : String)

/-- One turn of the `do ... while` loop of `PumpMessages`, as the environment
sees it. -/
structure PumpIteration where
  /-- the messages `PeekMessageW` hands out before it answers "none left" -/
  peeked : List Peeked
  /-- the callbacks `PumpNetCore` makes in this turn -/
  netcore : List NetCall

/-- The calls of the dialog procedure for one message, in order. -/
def deliver (env : DialogEnv) (g : Globals) : List (Nat × Nat × Nat) → Globals × List Event
  | [] => (g, [])
  | (uMsg, wParam, lParam) :: rest =>
      let r := PatcherDialogProc env g uMsg wParam lParam
      let r' := deliver env r.1 rest
      (r'.1, r.2.2 ++ r'.2)

/-- The body of the inner `while` of `PumpMessages` for one message. -/
def dispatch (env : DialogEnv) (g : Globals) (p : Peeked) : Globals × List Event :=
  let d := deliver env g p.delivered
  if p.isDialogMessage then
    (d.1, [Event.IsDialogMessageW p.msg] ++ d.2)
  else
    (d.1, [Event.IsDialogMessageW p.msg, Event.TranslateMessage p.msg,
           Event.DispatchMessageW p.msg] ++ d.2)

/-- The inner `while (PeekMessageW(&msg, 0, 0, 0, PM_REMOVE))` of
`PumpMessages`: the globals and the content of `msg` afterwards. -/
def drain (env : DialogEnv) (g : Globals) (msg : MSG) : List Peeked → Globals × MSG × List Event
  | [] => (g, msg, [Event.PeekMessageW false])
  | p :: ps =>
      let d := dispatch env g p
      let r := drain env d.1 p.msg ps
      (r.1, r.2.1, [Event.PeekMessageW true] ++ d.2 ++ r.2.2)

/-- One callback of the net core. -/
def netCall (hs : HeadSpin) (x : Externals) (g : Globals) : NetCall → Run Unit
  | NetCall.error result msg => { trace := IOnNetError x g result msg, result := some () }
  | NetCall.install exe env =>
      let r := IInstallRedist hs g env exe
      { trace := r.trace, result := r.result.map (fun _ => ()) }
  | NetCall.launch exe args env => ILaunchClientExecutable hs x g env exe args
  | NetCall.status status => { trace := ISetDownloadStatus g status, result := some () }
  | NetCall.shard status => { trace := ISetShardStatus status, result := some () }

/-- Modelled from the spec: `plClientLauncher::PumpNetCore()`
(plClientLauncher.cpp is not among the sources).  The patch session is polled
once per turn of the pump and answers through the procedures registered at
the top of `WinMain`: the callbacks of one turn are made one after the other,
never overlapping, and a callback that never returns stops everything. -/
def PumpNetCore (hs : HeadSpin) (x : Externals) (g : Globals) : List NetCall → Run Unit
  | [] => { trace := [], result := some () }
  | c :: cs =>
      let r := netCall hs x g c
      match r.result with
      | none => { trace := r.trace, result := none }
      | some _ =>
          let rest := PumpNetCore hs x g cs
          { trace := r.trace ++ rest.trace, result := rest.result }

/-- Embeds `PumpMessages()`.  `msg` is the content of the local variable (not
initialised by the source before the first turn).  The environment describes
the turns one by one; when the description ends before the loop does, the
function has not returned (`result = none`). -/
def PumpMessages (hs : HeadSpin) (x : Externals) (env : DialogEnv) (g : Globals) (msg : MSG) :
    List PumpIteration → Run Globals
  | [] => { trace := [], result := none }
  | it :: its =>
      -- Pump all Win32 messages
      let d := drain env g msg it.peeked
      let g := d.1
      let msg := d.2.1
      -- Now we need to pump the netcore while we have some spare time...
      let net := PumpNetCore hs x g it.netcore
      let t := d.2.2 ++ [Event.launcher LauncherCall.PumpNetCore] ++ net.trace
      match net.result with
      | none => { trace := t, result := none }
      | some _ =>
          if msg.message ≠ WM_QUIT then
            let r := PumpMessages hs x env g msg its
            { trace := t ++ r.trace, result := r.result }
          else
            { trace := t, result := some g }

/-! ## WinMain -/

/-- Modelled from the spec: `plClientLauncher::CompleteSelfPatch(waitProc)`
(plClientLauncher.cpp is not among the sources).  It determines whether the
running binary is itself the stale artifact; if so it waits for the
predecessor to release its lock (`waitProc`), replaces the installed binary
with the self-copy, re-executes it and answers `true`; if no self-patch is
pending it answers `false` and does nothing else. -/
def CompleteSelfPatch (stale : Bool) (waitProc : Run Unit) : Run Bool :=
  let t₀ := [Event.launcher LauncherCall.CompleteSelfPatch]
  if stale then
    match waitProc.result with
    | none => { trace := t₀ ++ waitProc.trace, result := none }
    | some _ =>
        { trace := t₀ ++ waitProc.trace
            ++ [Event.launcher LauncherCall.ReplaceInstalledBinary,
                Event.launcher LauncherCall.ReExec],
          result := some true }
  else
    { trace := t₀, result := some false }

/-- What the environment answers during one run of `WinMain`. -/
structure WinMainEnv where
  /-- whether the running binary is a stale self-copy -/
  stale : Bool
  /-- the mutex as `WaitForOldPatcher` finds it -/
  oldPatcher : MutexEnv
  /-- the return value of `s_launcher.LoadServerIni()` -/
  loadServerIni : Bool
  /-- the mutex as `IsPatcherRunning` finds it -/
  probe : MutexEnv
  /-- the handle the second `CreatePatcherMutex()` returns (`_onePatcherMut`) -/
  onePatcherMut : HANDLE
  /-- the window system, for the dialog procedure -/
  dialog : DialogEnv
  /-- the content of the local `msg` of `PumpMessages` before the first turn -/
  msg₀ : MSG
  /-- the turns of the pump -/
  pump : List PumpIteration

/-- Embeds `WinMain`: the exit code and the calls made.  `s_taskbar` starts as
`nullptr`. -/
def WinMain (hs : HeadSpin) (x : Externals) (env : WinMainEnv) : Run Nat :=
  -- Let's initialize our plClientLauncher friend
  let t₀ := [Event.launcher LauncherCall.ParseArguments,
             Event.launcher LauncherCall.SetErrorProc,
             Event.launcher LauncherCall.SetInstallerProc,
             Event.launcher LauncherCall.SetLaunchClientProc,
             Event.launcher LauncherCall.SetPatcherFactory,
             Event.launcher LauncherCall.SetShardProc,
             Event.launcher LauncherCall.SetStatusProc]
  let selfPatch := CompleteSelfPatch env.stale (WaitForOldPatcher x env.oldPatcher)
  let t₁ := t₀ ++ selfPatch.trace
  match selfPatch.result with
  | none => { trace := t₁, result := none }
  | some true => { trace := t₁, result := some PLASMA_OK }
  | some false =>
      -- Load the doggone server.ini
      let t₂ := t₁ ++ [Event.launcher LauncherCall.LoadServerIni]
      if !env.loadServerIni then
        { trace := t₂ ++ [Event.hsMessageBox
              "No server.ini file found.  Please check your URU installation." "Error"],
          result := some PLASMA_PHAILURE }
      else
        -- Ensure there is only ever one patcher running...
        let running := IsPatcherRunning x env.probe
        let t₃ := t₂ ++ running.2
        if running.1 then
          { trace := t₃ ++ [Event.hsMessageBox (x.LongName ++ " is already running") "Error"],
            result := some PLASMA_OK }
        else
          let _onePatcherMut := CreatePatcherMutex x env.onePatcherMut
          let t₄ := t₃ ++ _onePatcherMut.2
            -- Initialize the network core
            ++ [Event.launcher LauncherCall.InitializeNetCore]
            ++ ShowPatcherDialog x
          let pump := PumpMessages hs x env.dialog { s_taskbar := false } env.msg₀ env.pump
          match pump.result with
          | none => { trace := t₄ ++ pump.trace, result := none }
          | some _ =>
              { trace := t₄ ++ pump.trace
                  ++ [Event.ReleaseMutex _onePatcherMut.1, Event.CloseHandle _onePatcherMut.1],
                result := some PLASMA_OK }

/-! ## Reading a trace -/

/-- A spawn attempt of either kind. -/
def Event.isSpawn : Event → Bool
  | Event.CreateProcessW _ _ => true
  | Event.ShellExecuteExW _ _ => true
  | _ => false

/-- The elevation-capable spawn. -/
def Event.isElevation : Event → Bool
  | Event.ShellExecuteExW _ _ => true
  | _ => false

/-- A message box shown to the user. -/
def Event.isMessageBox : Event → Bool
  | Event.hsMessageBox _ _ => true
  | _ => false

/-- A wait of any kind. -/
def Event.isWait : Event → Bool
  | Event.WaitForSingleObject _ _ => true
  | Event.WaitForInputIdle _ _ => true
  | _ => false

/-- The creation of a mutex or of an event object. -/
def Event.isCreateObject : Event → Bool
  | Event.CreateMutexW _ => true
  | Event.CreateEventW _ => true
  | _ => false

/-- The sample environment of the examples: the direct spawn starts a process
that ends with the given exit code. -/
def sampleSpawn (exitCode : Nat) : SpawnEnv :=
  { createProcess := SpawnResult.started 100 101, shellExecuteOk := true, shellProcess := 0,
    formatMessage := fun _ => "The system cannot find the file specified.",
    exits := true, exitCode := some exitCode }

/-- The sample environment of the examples: the direct spawn fails with the
given error code, and an elevated spawn would start process 200. -/
def sampleFailure (lastError : Nat) : SpawnEnv :=
  { createProcess := SpawnResult.failed lastError, shellExecuteOk := true, shellProcess := 200,
    formatMessage := fun _ => "The system cannot find the file specified.",
    exits := true, exitCode := some 0 }

/-! ## The words of the specification -/

/-- The words "equals `oalinst.exe` ignoring case": folded to lower case, the name is
`oalinst.exe`. -/
def IsLegacyInstaller (n : String) : Prop :=
  n.data.map Char.toLower = "oalinst.exe".data

/-- The words "contains `vcredist` ignoring case": folded to lower case, the name has
`vcredist` as a contiguous part. -/
def HasRuntimeMarker (n : String) : Prop :=
  "vcredist".data <:+: n.data.map Char.toLower

instance (n : String) : Decidable (IsLegacyInstaller n) := by
  unfold IsLegacyInstaller; infer_instance

instance (n : String) : Decidable (HasRuntimeMarker n) := by
  unfold HasRuntimeMarker; infer_instance

/-! ## Sample environments -/

/-- Sample values for the names taken from other parts of the repository. -/
def sampleExternals : Externals :=
  { ClientExecutable := "UruExplorer.exe", PatcherExecutable := "UruLauncher.exe",
    LongName := "Uru Live", ProductString := "UruLive.1.0",
    NetErrorAsString := fun _ => "kNetErrDisconnected" }

/-- A sample window system. -/
def sampleDialog : DialogEnv :=
  { s_taskbarCreated := 49152, coCreateOk := true, defWindowProc := fun _ _ _ => false }

/-- A run in which the configuration loads, no other patcher runs, and the
net core reports an error in the first turn of the pump.  The second turn
retrieves the `WM_QUIT` posted by `IOnNetError` (wParam 1), which the dialog
procedure answers by destroying the window, and then the `WM_QUIT` of
`PostQuitMessage`. -/
def netErrorRun : WinMainEnv :=
  { stale := false,
    oldPatcher := { handle := 300, waitResult := 0, released := true },
    loadServerIni := true,
    probe := { handle := 301, waitResult := WAIT_OBJECT_0, released := true },
    onePatcherMut := 302,
    dialog := sampleDialog,
    msg₀ := { hwnd := HWND.null, message := 0, wParam := 0, lParam := 0 },
    pump :=
      [ { peeked := [], netcore := [NetCall.error 5 "connection lost"] },
        { peeked :=
            [ { msg := { hwnd := HWND.dialog, message := WM_QUIT, wParam := PLASMA_PHAILURE,
                         lParam := 0 },
                isDialogMessage := true,
                delivered := [(WM_QUIT, PLASMA_PHAILURE, 0), (WM_DESTROY, 0, 0)] },
              { msg := { hwnd := HWND.null, message := WM_QUIT, wParam := PLASMA_OK, lParam := 0 },
                isDialogMessage := false,
                delivered := [] } ],
          netcore := [] } ] }

/-- A run in which `server.ini` is missing. -/
def configMissingRun : WinMainEnv :=
  { netErrorRun with loadServerIni := false }

/-- A run in which another patcher holds the mutex: the probe times out
(`WAIT_TIMEOUT`, 258). -/
def alreadyRunningRun : WinMainEnv :=
  { netErrorRun with probe := { handle := 301, waitResult := 258, released := false } }

/-- The calls at the top of `WinMain`, up to and including `CompleteSelfPatch`
when no self-patch is pending. -/
def startupCalls : List Event :=
  [Event.launcher LauncherCall.ParseArguments,
   Event.launcher LauncherCall.SetErrorProc,
   Event.launcher LauncherCall.SetInstallerProc,
   Event.launcher LauncherCall.SetLaunchClientProc,
   Event.launcher LauncherCall.SetPatcherFactory,
   Event.launcher LauncherCall.SetShardProc,
   Event.launcher LauncherCall.SetStatusProc,
   Event.launcher LauncherCall.CompleteSelfPatch]

/-- A launch environment for the examples: the given spawn, event handle 400,
and whether the event `UruPatcherEvent` is ever signalled. -/
def sampleLaunch (spawn : SpawnEnv) (eventSignalled : Bool) : LaunchEnv :=
  { hEvent := 400, spawn := spawn, eventSignalled := eventSignalled }

/-- The words "equals `plManifest::ClientExecutable()` ignoring case". -/
def IsClientExecutable (x : Externals) (exe : String) : Prop :=
  x.ClientExecutable.data.map Char.toLower = exe.data.map Char.toLower

instance (x : Externals) (exe : String) : Decidable (IsClientExecutable x exe) := by
  unfold IsClientExecutable; infer_instance

/-- A quit request: `WM_QUIT` posted to a window, with its exit code. -/
def Event.quitCode : Event → Option Nat
  | Event.PostMessageW _ msg wParam _ => if msg = WM_QUIT then some wParam else none
  | _ => none

/-- A run in which the running binary is a stale self-copy: the old patcher
releases the mutex, the binary is replaced and executed again. -/
def selfPatchRun : WinMainEnv :=
  { netErrorRun with stale := true }

/-! ## Reading the pump -/

/-- The content of `msg` after the inner loop of `PumpMessages`: the last
message `PeekMessageW` handed out, or the old content when it handed out
none. -/
def lastMessage (msg : MSG) (peeked : List Peeked) : MSG :=
  match peeked.getLast? with
  | some p => p.msg
  | none => msg

/-- The content of `msg` at the end of the last of the given turns. -/
def msgAfter (msg : MSG) : List PumpIteration → MSG
  | [] => msg
  | it :: its => msgAfter (lastMessage msg it.peeked) its

/-- The messages retrieved from the queue during the given turns, in order. -/
def retrieved : List PumpIteration → List MSG
  | [] => []
  | it :: its => it.peeked.map (fun p => p.msg) ++ retrieved its

/-- The words "the last message retrieved from the queue was the quit
message", at the end of the given turns. -/
def QuitIsLast (its : List PumpIteration) : Prop :=
  ∃ m, (retrieved its).getLast? = some m ∧ m.message = WM_QUIT

/-- A message that is not `WM_QUIT`, handed to nobody (a timer tick). -/
def otherMessage : Peeked :=
  { msg := { hwnd := HWND.null, message := 275, wParam := 0, lParam := 0 },
    isDialogMessage := false, delivered := [] }

/-- The `WM_QUIT` that `PostQuitMessage` makes `PeekMessageW` hand out. -/
def quitMessage : Peeked :=
  { msg := { hwnd := HWND.null, message := WM_QUIT, wParam := PLASMA_OK, lParam := 0 },
    isDialogMessage := false, delivered := [] }

/-- The click on the cancel button: `WM_COMMAND` with `BN_CLICKED` and
`IDCANCEL`, delivered to the dialog procedure. -/
def cancelClick : Peeked :=
  { msg := { hwnd := HWND.dialog, message := WM_COMMAND, wParam := IDCANCEL, lParam := 0 },
    isDialogMessage := true, delivered := [(WM_COMMAND, IDCANCEL, 0)] }

/-- A run in which the user clicks cancel in the second turn of the pump; the
third turn retrieves the posted `WM_QUIT`, delivered to the dialog procedure,
and then the `WM_QUIT` of `PostQuitMessage`. -/
def cancelRun : WinMainEnv :=
  { netErrorRun with
    pump :=
      [ { peeked := [otherMessage], netcore := [NetCall.status "Checking for updates..."] },
        { peeked := [cancelClick], netcore := [] },
        { peeked :=
            [ { msg := { hwnd := HWND.dialog, message := WM_QUIT, wParam := PLASMA_OK,
                         lParam := 0 },
                isDialogMessage := true,
                delivered := [(WM_QUIT, PLASMA_OK, 0), (WM_DESTROY, 0, 0)] },
              quitMessage ],
          netcore := [] },
        { peeked := [otherMessage], netcore := [] } ] }

/-! ## The named mutex, as the operating system keeps it

The functions of this section are not code of the launcher: they state what
Win32 does with a mutex object, so that the answers the launcher gets can be
tied to who owns the mutex.  A caller (a thread of some process) is a number. -/

/-- winbase.h -/
def WAIT_ABANDONED : Nat := 128
/-- winbase.h -/
def WAIT_TIMEOUT : Nat := 258
/-- winbase.h: `WAIT_FAILED` is `0xFFFFFFFF` -/
def WAIT_FAILED : Nat := 4294967295

/-- The state of the named patcher mutex: free, owned by a caller (with the
number of times it acquired it), or abandoned (the owner ended without
releasing it). -/
inductive MutexState where
  | free
  | owned (owner : Nat) (count : Nat)
  | abandoned
  deriving DecidableEq, Repr

namespace MutexState

/-- Whether the caller owns the mutex. -/
def heldBy (caller : Nat) : MutexState → Bool
  | owned o _ => o = caller
  | _ => false

/-- Whether a caller other than this one owns the mutex. -/
def heldByOther (caller : Nat) : MutexState → Bool
  | owned o _ => o ≠ caller
  | _ => false

/-- The state once a wait of the caller has returned with ownership. -/
def acquire (caller : Nat) : MutexState → MutexState
  | owned o n => if o = caller then owned o (n + 1) else owned caller 1
  | _ => owned caller 1

/-- Win32, `WaitForSingleObject(mutex, 0)` by the caller: the value returned
and the state afterwards.  A free mutex is acquired, an owned one is acquired
again by its owner and times out for everybody else, an abandoned one is
acquired with `WAIT_ABANDONED`. -/
def tryWait (caller : Nat) : MutexState → Nat × MutexState
  | free => (WAIT_OBJECT_0, owned caller 1)
  | owned o n => if o = caller then (WAIT_OBJECT_0, owned o (n + 1)) else (WAIT_TIMEOUT, owned o n)
  | abandoned => (WAIT_ABANDONED, owned caller 1)

/-- Win32, `WaitForSingleObject(mutex, INFINITE)` by the caller: whether the
wait ever returns.  It returns when the caller gets the mutex; while another
caller owns it, that is once the owner has released it or has ended, which
`holderLetsGo` tells. -/
def waitReturns (caller : Nat) (holderLetsGo : Bool) (m : MutexState) : Bool :=
  !m.heldByOther caller || holderLetsGo

/-- Win32, `ReleaseMutex` by the caller: one acquisition less; nothing
happens when the caller is not the owner. -/
def release (caller : Nat) : MutexState → MutexState
  | owned o n => if o = caller then (if n ≤ 1 then free else owned o (n - 1)) else owned o n
  | m => m

end MutexState

/-- What `IsPatcherRunning` is answered by the operating system when the
mutex is in state `m`: a null handle makes the wait fail, a valid one gives
the answer of the mutex. -/
def probeEnv (handle : HANDLE) (caller : Nat) (m : MutexState) : MutexEnv :=
  { handle := handle,
    waitResult := if handle = 0 then WAIT_FAILED else (m.tryWait caller).1,
    released := true }

/-- The state of the mutex after the wait of `IsPatcherRunning`. -/
def probeState (handle : HANDLE) (caller : Nat) (m : MutexState) : MutexState :=
  if handle = 0 then m else (m.tryWait caller).2

/-- The lines of `WinMain` that arbitrate the single instance, run by one
caller on the mutex in state `m`: `IsPatcherRunning()`, and when it answers
"not running", `CreatePatcherMutex()`.  The result is the answer of
`IsPatcherRunning`, the calls made, and the state of the mutex afterwards
(`CreateMutexW` is called with `bInitialOwner` `FALSE` and leaves it alone). -/
def probeAndAcquire (x : Externals) (probeHandle lockHandle : HANDLE) (caller : Nat)
    (m : MutexState) : Bool × List Event × MutexState :=
  let running := IsPatcherRunning x (probeEnv probeHandle caller m)
  if running.1 then
    (true, running.2, probeState probeHandle caller m)
  else
    let _onePatcherMut := CreatePatcherMutex x lockHandle
    (false, running.2 ++ _onePatcherMut.2, probeState probeHandle caller m)

/-- What `WaitForOldPatcher` is answered by the operating system when the
mutex is in state `m`: with a null handle the wait fails at once. -/
def oldPatcherEnv (handle : HANDLE) (caller : Nat) (holderLetsGo : Bool) (m : MutexState) :
    MutexEnv :=
  { handle := handle,
    waitResult := WAIT_OBJECT_0,
    released := if handle = 0 then true else m.waitReturns caller holderLetsGo }

/-- Whether the event is a call that changes who owns the patcher mutex: a
wait on, or a release of, a handle of the mutex (`isMutex` tells which
handles are handles of the patcher mutex). -/
def Event.onMutex (isMutex : HANDLE → Bool) : Event → Bool
  | Event.WaitForSingleObject h _ => isMutex h
  | Event.ReleaseMutex h => isMutex h
  | _ => false

/-- A release of a mutex. -/
def Event.isRelease : Event → Bool
  | Event.ReleaseMutex _ => true
  | _ => false

/-- What one call of a finished run of the caller `self` does to the mutex: a
wait with timeout 0 on a handle of the mutex is `tryWait`; a wait without
timeout has returned, with ownership; `ReleaseMutex` releases; no other call
touches the mutex. -/
def mutexStep (self : Nat) (isMutex : HANDLE → Bool) (m : MutexState) : Event → MutexState
  | Event.WaitForSingleObject h t =>
      if isMutex h then (if t = 0 then (m.tryWait self).2 else m.acquire self) else m
  | Event.ReleaseMutex h => if isMutex h then m.release self else m
  | _ => m

/-- The state of the mutex after the calls of a run of the caller `self`
that started with the mutex in state `m`. -/
def replayMutex (self : Nat) (isMutex : HANDLE → Bool) (trace : List Event) (m : MutexState) :
    MutexState :=
  trace.foldl (mutexStep self isMutex) m

/-- The handles a callback of the net core waits on with
`WaitForSingleObject`: the process of an installer, the event of the client
handoff. -/
def NetCall.waited (hs : HeadSpin) : NetCall → List HANDLE
  | NetCall.install exe env => [(ICreateProcess hs env exe (redistArgs exe)).1]
  | NetCall.launch _ _ env => [env.hEvent]
  | _ => []

/-- The handles of the patcher mutex in the sample runs. -/
def sampleIsMutex (h : HANDLE) : Bool := h == 300 || h == 301 || h == 302

/-- The sample self-patch run, answered by the operating system from a mutex
that the old patcher (caller 7) owns and then lets go of. -/
def selfPatchRunOnMutex : WinMainEnv :=
  { selfPatchRun with oldPatcher := oldPatcherEnv 300 1 true (MutexState.owned 7 1) }

/-- The sample cancel run, answered by the operating system from a free
mutex. -/
def cancelRunOnMutex : WinMainEnv :=
  { cancelRun with probe := probeEnv 301 1 MutexState.free }

/-- A run in which the probe of the mutex finds it abandoned (its owner ended
without releasing it): the wait answers `WAIT_ABANDONED` (128). -/
def abandonedRun : WinMainEnv :=
  { netErrorRun with probe := probeEnv 301 1 MutexState.abandoned }

/-! ## The progress bar (`IOnProgressTick`) -/

/-- stdint.h: `INT32_MAX` -/
def INT32_MAX : Nat := 2147483647

/-- commctrl.h: `PBM_SETRANGE32` is `WM_USER + 6` -/
def PBM_SETRANGE32 : Nat := 1030

/-- commctrl.h: `PBM_SETPOS` is `WM_USER + 2` -/
def PBM_SETPOS : Nat := 1026

/-- The conversion `static_cast<int32_t>(x)` of a `uint64_t`: the low 32 bits,
read as a two's complement number. -/
def castInt32 (x : Nat) : Int :=
  if x % 2 ^ 32 < 2 ^ 31 then ((x % 2 ^ 32 : Nat) : Int) else ((x % 2 ^ 32 : Nat) : Int) - 2 ^ 32

/-- An `int32_t` passed as `WPARAM` or `LPARAM` (64-bit): sign-extended, and
recorded in the trace as the unsigned value of the 64 bits. -/
def asParam (i : Int) : Nat := (i % 2 ^ 64).toNat

/-- Embeds the loop `while (totalBytes > INT32_MAX) { totalBytes /= 1024;
curBytes /= 1024; }` of `IOnProgressTick`: the pair `(totalBytes, curBytes)`
when the loop is left.  Each turn uses one unit of `fuel`; `none` is a loop
still running when the fuel is spent. -/
def scaleLoop : Nat → Nat → Nat → Option (Nat × Nat)
  | 0, _, _ => none
  | fuel + 1, totalBytes, curBytes =>
    if totalBytes > INT32_MAX then scaleLoop fuel (totalBytes / 1024) (curBytes / 1024)
    else some (totalBytes, curBytes)

/-- The turns the model grants the scaling loop: one per bit of a `uint64_t`. -/
def scaleFuel : Nat := 64

/-- Embeds `IOnProgressTick`: the calls made.  `ConvertFileSize` stands for
`plFileSystem::ConvertFileSize`, which is not among the sources. -/
def IOnProgressTick (g : Globals) (ConvertFileSize : Nat → String)
    (curBytes totalBytes : Nat) (status : String) : Option (List Event) :=
  let t₀ := IShowMarquee false
    ++ [Event.SetDlgItemTextW DlgItem.IDC_DLSIZE
          (ConvertFileSize curBytes ++ " / " ++ ConvertFileSize totalBytes),
        Event.SetDlgItemTextW DlgItem.IDC_DLSPEED status]
    ++ (if g.s_taskbar then [Event.SetProgressValue curBytes totalBytes] else [])
  match scaleLoop scaleFuel totalBytes curBytes with
  | none => none
  | some (total, cur) =>
    some (t₀ ++ [Event.PostMessageW (HWND.item DlgItem.IDC_PROGRESS) PBM_SETRANGE32 0
                    (asParam (castInt32 total)),
                 Event.PostMessageW (HWND.item DlgItem.IDC_PROGRESS) PBM_SETPOS
                    (asParam (castInt32 cur)) 0])

/-! ## The console (`pfConsole.cpp`): the screenshot index -/

/-- The container `std::set<uint32_t>` as the list of its elements in
iteration order (ascending, no element twice): `insert`. -/
def setInsert (x : Nat) : List Nat → List Nat
  | [] => [x]
  | y :: ys =>
    if x < y then x :: y :: ys
    else if x = y then y :: ys
    else y :: setInsert x ys

/-- Embeds the `std::for_each` of `MsgReceive` that fills `indices`: every
index parsed from a file name is inserted into the set, which starts empty. -/
def collectIndices (parsed : List Nat) : List Nat :=
  parsed.foldl (fun indices idx => setInsert idx indices) []

/-- Embeds the loop `for (it = indices.begin(); it != indices.end(); ++it,
++num) if (*it != num) break;` of `MsgReceive`, from the position `it` (the
elements not yet visited) and the current `num`; `++num` is on `uint32_t`. -/
def scanIndices : List Nat → Nat → Nat
  | [], num => num
  | i :: rest, num => if i ≠ num then num else scanIndices rest ((num + 1) % 2 ^ 32)

/-- Embeds the choice of `num` in `MsgReceive`: the scan starts at the first
element of the set with `num = 0`.  `parsed` are the values of
`idx.to_uint(10)`, one per listed file. -/
def screenshotIndex (parsed : List Nat) : Nat := scanIndices (collectIndices parsed) 0

/-! ## The console line editor: char arrays

A `char` array of the console is the list of its bytes, each a number below
256; the C string it holds are the bytes before the first NUL.  An access
outside an array is undefined behaviour in the source; here the operation
then has no result (`none`). -/

/-- The three sizes the console takes from the enum of `pfConsole.h`, which is
not among the sources: they are parameters. -/
structure Konstants where
  kNumHistoryItems : Nat
  kMaxCharsWide : Nat
  kWorkingLineSize : Nat
  deriving DecidableEq, Repr

/-- The bytes of an ASCII string literal. -/
def ascii (s : String) : List Nat := s.data.map Char.toNat

/-- The C string at the start of a char array: the bytes before the first
NUL. -/
def cstr (buf : List Nat) : List Nat := buf.takeWhile (fun b => b != 0)

/-- The call `strlen(buf)`: the length of the C string held; no result when
the array holds no NUL, since the scan then leaves the array. -/
def strlen (buf : List Nat) : Option Nat :=
  if 0 ∈ buf then some (cstr buf).length else none

/-- Writes the C string `text` and its NUL at the start of the array `dst`;
no result when they do not fit. -/
def putText (dst text : List Nat) : Option (List Nat) :=
  if text.length < dst.length then some (text ++ 0 :: dst.drop (text.length + 1)) else none

/-- The call `strcpy(dst, src)` between two char arrays: the C string of
`src` and its NUL are written at the start of `dst`. -/
def strcpy (dst src : List Nat) : Option (List Nat) :=
  if 0 ∈ src then putText dst (cstr src) else none

/-- The call `strcat(&buf[off], text)` for a literal `text`: the C string that
starts at `buf[off]` is extended by `text` and a NUL. -/
def strcatAt (buf : List Nat) (off : Nat) (text : List Nat) : Option (List Nat) :=
  match strlen (buf.drop off) with
  | none => none
  | some n =>
    if off + n + text.length < buf.length then
      some (buf.take (off + n) ++ text ++ 0 :: buf.drop (off + n + text.length + 1))
    else none

/-- The assignment `buf[i] = v`. -/
def setAt (buf : List Nat) (i v : Nat) : Option (List Nat) :=
  if i < buf.length then some (buf.set i v) else none

/-- Embeds the loop `do { *c = *(c + 1); c++; } while (*c != 0);` of the
Backspace and Delete branches, on the part of the array that starts at `c`:
each turn copies the next byte down, and the loop goes on while the byte at
the new `c` (not yet overwritten) is not NUL. -/
def shiftLeft : List Nat → Option (List Nat)
  | [] => none
  | [_] => none
  | _ :: b :: rest =>
    if b ≠ 0 then (shiftLeft (b :: rest)).map (fun r => b :: r)
    else some (b :: b :: rest)

/-- The loop of `shiftLeft` started at `c = &buf[cursor]`. -/
def shiftLeftAt (buf : List Nat) (cursor : Nat) : Option (List Nat) :=
  (shiftLeft (buf.drop cursor)).map (fun r => buf.take cursor ++ r)

/-- Embeds the loop `for (i = strlen(fWorkingLine) + 1; i > fWorkingCursor;
i--) fWorkingLine[i] = fWorkingLine[i - 1];` of the character branch: `k` is
the number of turns left, so that `i = cursor + k`. -/
def shiftRight (cursor : Nat) : Nat → List Nat → Option (List Nat)
  | 0, line => some line
  | k + 1, line =>
    if cursor + k + 1 < line.length then
      shiftRight cursor k (line.set (cursor + k + 1) (line.getD (cursor + k) 0))
    else none

/-- Embeds the loop `for (c = fWorkingLine; *c == ' ' || *c == '\t'; c++);`
of the Enter branch: the part of the array from the final `c` on (empty when
`c` has left the array). -/
def skipBlanks : List Nat → List Nat
  | [] => []
  | b :: rest => if b = 32 ∨ b = 9 then skipBlanks rest else b :: rest

/-- Embeds the loop `for (i = 0; *c != 0; i++, c++) fWorkingLine[i] = *c;
fWorkingLine[i] = 0; eol = i;` of the Enter branch: `src` are the bytes from
`c` on (`i` never passes `c`, so the bytes still to be read are never
overwritten); the result is the array and `eol`. -/
def copyDown : List Nat → List Nat → Nat → Option (List Nat × Nat)
  | _, [], _ => none
  | line, b :: src, i =>
    if b ≠ 0 then copyDown (line.set i b) src (i + 1) else some (line.set i 0, i)

/-! ## The console line editor: state and collaborators -/

/-- The key codes `IHandleKey` tests (`plKeyDef.h`), and any other key. -/
inductive plKeyDef where
  | KEY_ESCAPE | KEY_TAB | KEY_UP | KEY_DOWN | KEY_LEFT | KEY_RIGHT
  | KEY_BACKSPACE | KEY_DELETE | KEY_ENTER | KEY_END | KEY_HOME
  | other (code : Nat)
  deriving DecidableEq, Repr

/-- What `IHandleKey` reads of a `plKeyEventMsg`: `GetKeyDown()`,
`GetKeyChar()` (a `wchar_t`) and `GetKeyCode()`. -/
structure plKeyEventMsg where
  keyDown : Bool
  keyChar : Nat
  keyCode : plKeyDef
  deriving DecidableEq, Repr

/-- One element of `fHistory`: the ring `fData` of `kNumHistoryItems` char
arrays, each `kMaxCharsWide` wide, with `fCursor` and `fRecallCursor`. -/
structure History where
  fData : List (List Nat)
  fCursor : Nat
  fRecallCursor : Nat
  deriving DecidableEq, Repr

/-- A call from the line editor to the display side of the console, to the
command engine or to Python, with the text passed. -/
inductive ConsoleCall where
  | IAddLine (text : List Nat)
  | AddLine (text : List Nat)
  | AddLineF (format : String) (arg : List Nat)
  | IPrintSomeHelp
  | IUpdateTooltip (line : List Nat)
  | FindPartialCmd (search : List Nat) (findAgain : Bool)
  | FindNestedPartialCmd (search : List Nat) (findCounter : Nat)
  | PrintCmdHelp (name : List Nat)
  | RunCommand (line : List Nat)
  | GetErrorMsg
  | RunStringInteractive (code : List Nat)
  deriving DecidableEq, Repr

/-- The state `IHandleKey` works on: the members of `pfConsole` it reads or
writes, its function-static variables `findAgain`, `findCounter` and
`lastSearch`, and the list `calls` of the calls made so far.  `fHistory₀` is
`fHistory[false]` (commands), `fHistory₁` is `fHistory[true]` (Python). -/
structure pfConsole where
  fWorkingLine : List Nat
  fWorkingCursor : Nat
  fHistory₀ : History
  fHistory₁ : History
  fHelpMode : Bool
  fPythonMode : Bool
  fPythonFirstTime : Bool
  fPythonMultiLines : Nat
  findAgain : Bool
  findCounter : Nat
  lastSearch : List Nat
  calls : List ConsoleCall
  deriving DecidableEq, Repr

/-- The element `fHistory[py]`. -/
def pfConsole.fHistory (s : pfConsole) (py : Bool) : History :=
  if py then s.fHistory₁ else s.fHistory₀

/-- The state with `fHistory[py]` replaced. -/
def pfConsole.setHistory (s : pfConsole) (py : Bool) (h : History) : pfConsole :=
  if py then { s with fHistory₁ := h } else { s with fHistory₀ := h }

/-- The state with one more call recorded. -/
def pfConsole.call (s : pfConsole) (c : ConsoleCall) : pfConsole :=
  { s with calls := s.calls ++ [c] }

/-- The collaborators of the line editor, none of them among the sources:
what the command engine (`pfConsoleEngine`) and `PythonInterface` answer.
The searches get the C string of `search` and answer whether they found a
command and the C string `search` holds afterwards; `PrintCmdHelp` and
`RunCommand` get the working line and answer their result and the bytes the
array holds afterwards (they may cut the line into tokens in place). -/
structure ConsoleEnv where
  FindPartialCmd : List Nat → Bool → Bool × List Nat
  FindNestedPartialCmd : List Nat → Nat → Bool × List Nat
  PrintCmdHelp : List Nat → Bool × List Nat
  RunCommand : List Nat → Bool × List Nat
  GetErrorMsg : List Nat
  pythonOutput : List Nat → List Nat

/-- Embeds `IUpdateTooltip` as far as the line editor is concerned: the
working line is copied into `tmpStr` (`kWorkingLineSize` wide) and looked up;
the tooltip text and timer are display state and not part of the model. -/
def IUpdateTooltip (K : Konstants) (s : pfConsole) : Option pfConsole :=
  match strcpy (List.replicate K.kWorkingLineSize 0) s.fWorkingLine with
  | none => none
  | some _ => some (s.call (ConsoleCall.IUpdateTooltip (cstr s.fWorkingLine)))

/-- The statement `fWorkingLine[ fWorkingCursor = 0 ] = 0;`. -/
def clearLine (s : pfConsole) : Option pfConsole :=
  match setAt s.fWorkingLine 0 0 with
  | none => none
  | some line => some { s with fWorkingLine := line, fWorkingCursor := 0 }

/-- The statements `findAgain = false; findCounter = 0;`. -/
def pfConsole.resetFind (s : pfConsole) : pfConsole :=
  { s with findAgain := false, findCounter := 0 }

/-! ## The console line editor: the branches of `IHandleKey` -/

/-- The `KEY_ESCAPE` branch. -/
def onEscape (K : Konstants) (s : pfConsole) : Option pfConsole :=
  match clearLine s with
  | none => none
  | some s₁ =>
    IUpdateTooltip K { s₁ with findAgain := false, findCounter := 0, fHelpMode := false,
                               fPythonMode := false, fPythonMultiLines := 0 }

/-- A found command is written to `search` (`kMaxCharsWide` wide) by the
engine and copied from there to the working line. -/
def takeSearch (K : Konstants) (s : pfConsole) (found : List Nat) : Option pfConsole :=
  if (cstr found).length < K.kMaxCharsWide then
    match putText s.fWorkingLine (cstr found) with
    | none => none
    | some line => some { s with fWorkingLine := line }
  else none

/-- The call `fEngine->FindNestedPartialCmd(search, findCounter, true)` with
what the branch does when it answers true: `strcpy(fWorkingLine, search);
findCounter++;`. -/
def tryNested (K : Konstants) (E : ConsoleEnv) (s : pfConsole) (search : List Nat) :
    Option pfConsole :=
  let s₁ := s.call (ConsoleCall.FindNestedPartialCmd search s.findCounter)
  let r := E.FindNestedPartialCmd search s.findCounter
  if r.1 then
    match takeSearch K s₁ r.2 with
    | none => none
    | some s₂ => some { s₂ with findCounter := s₂.findCounter + 1 }
  else if (cstr r.2).length < K.kMaxCharsWide then some s₁ else none

/-- The `KEY_TAB` branch. -/
def onTab (K : Konstants) (E : ConsoleEnv) (s : pfConsole) : Option pfConsole :=
  if s.fPythonMode then
    match strlen s.fWorkingLine with
    | none => none
    | some n =>
      if n < K.kWorkingLineSize + 2 then
        match strcatAt s.fWorkingLine s.fWorkingCursor [32, 32] with
        | none => none
        | some line => some { s with fWorkingLine := line, fWorkingCursor := s.fWorkingCursor + 2 }
      else some s
  else
    -- if( !findAgain && findCounter == 0 ) strcpy( lastSearch, fWorkingLine );
    match (if !s.findAgain && s.findCounter == 0 then strcpy s.lastSearch s.fWorkingLine
           else some s.lastSearch) with
    | none => none
    | some lastSearch =>
      -- strcpy( search, lastSearch );
      match strcpy (List.replicate K.kMaxCharsWide 0) lastSearch with
      | none => none
      | some _ =>
        let search := cstr lastSearch
        let s₁ := { s with lastSearch := lastSearch }
        let searched : Option pfConsole :=
          if s₁.findCounter > 0 then
            let r := E.FindNestedPartialCmd search s₁.findCounter
            if r.1 then tryNested K E s₁ search
            else if (cstr r.2).length < K.kMaxCharsWide then
              tryNested K E
                { (s₁.call (ConsoleCall.FindNestedPartialCmd search s₁.findCounter)) with
                  findCounter := 0 } (cstr r.2)
            else none
          else
            let s₂ := s₁.call (ConsoleCall.FindPartialCmd search s₁.findAgain)
            let r := E.FindPartialCmd search s₁.findAgain
            if r.1 then
              match takeSearch K s₂ r.2 with
              | none => none
              | some s₃ => some { s₃ with findAgain := true }
            else if (cstr r.2).length < K.kMaxCharsWide then
              if s₁.findAgain then
                -- strcpy( search, lastSearch ); FindPartialCmd( search, findAgain = false, true )
                let s₃ := { (s₂.call (ConsoleCall.FindPartialCmd search false)) with
                            findAgain := false }
                let r₂ := E.FindPartialCmd search false
                if r₂.1 then
                  match takeSearch K s₃ r₂.2 with
                  | none => none
                  | some s₄ => some { s₄ with findAgain := true }
                else if (cstr r₂.2).length < K.kMaxCharsWide then some s₃ else none
              else tryNested K E s₂ (cstr r.2)
            else none
        match searched with
        | none => none
        | some s₅ =>
          match strlen s₅.fWorkingLine with
          | none => none
          | some n => IUpdateTooltip K { s₅ with fWorkingCursor := n }

/-- The `KEY_UP` branch. -/
def onUp (K : Konstants) (s : pfConsole) : Option pfConsole :=
  let h := s.fHistory s.fPythonMode
  let i := if h.fRecallCursor > 0 then h.fRecallCursor - 1 else K.kNumHistoryItems - 1
  match h.fData.get? i with
  | none => none
  | some row =>
    match row.head? with
    | none => none
    | some c =>
      if c ≠ 0 then
        match strcpy s.fWorkingLine row with
        | none => none
        | some line =>
          match strlen line with
          | none => none
          | some n =>
            IUpdateTooltip K
              { ((s.setHistory s.fPythonMode { h with fRecallCursor := i }).resetFind) with
                fWorkingLine := line, fWorkingCursor := n }
      else some s

/-- The `KEY_DOWN` branch. -/
def onDown (K : Konstants) (s : pfConsole) : Option pfConsole :=
  let h := s.fHistory s.fPythonMode
  if h.fRecallCursor ≠ h.fCursor then
    let i := if h.fRecallCursor < K.kNumHistoryItems - 1 then h.fRecallCursor + 1 else 0
    let moved : Option (History × List Nat) :=
      if i ≠ h.fCursor then
        match h.fData.get? i with
        | none => none
        | some row =>
          match strcpy s.fWorkingLine row with
          | none => none
          | some line => some ({ h with fRecallCursor := i }, line)
      else
        -- memset( fWorkingLine, 0, sizeof( fWorkingLine ) );
        some ({ h with fRecallCursor := h.fCursor }, List.replicate s.fWorkingLine.length 0)
    match moved with
    | none => none
    | some (h₁, line) =>
      match strlen line with
      | none => none
      | some n =>
        IUpdateTooltip K
          { ((s.setHistory s.fPythonMode h₁).resetFind) with
            fWorkingLine := line, fWorkingCursor := n }
  else some s

/-- The `KEY_LEFT` branch. -/
def onLeft (s : pfConsole) : Option pfConsole :=
  if s.fWorkingCursor > 0 then some { s with fWorkingCursor := s.fWorkingCursor - 1 }
  else some s

/-- The `KEY_RIGHT` branch. -/
def onRight (s : pfConsole) : Option pfConsole :=
  match strlen s.fWorkingLine with
  | none => none
  | some n =>
    if s.fWorkingCursor < n then some { s with fWorkingCursor := s.fWorkingCursor + 1 }
    else some s

/-- The `KEY_BACKSPACE` branch. -/
def onBackspace (K : Konstants) (s : pfConsole) : Option pfConsole :=
  if s.fWorkingCursor > 0 then
    match shiftLeftAt s.fWorkingLine (s.fWorkingCursor - 1) with
    | none => none
    | some line =>
      IUpdateTooltip K
        { s.resetFind with fWorkingLine := line, fWorkingCursor := s.fWorkingCursor - 1 }
  else if s.fHelpMode then IUpdateTooltip K { s with fHelpMode := false }
  else IUpdateTooltip K s

/-- The `KEY_DELETE` branch. -/
def onDelete (K : Konstants) (s : pfConsole) : Option pfConsole :=
  match shiftLeftAt s.fWorkingLine s.fWorkingCursor with
  | none => none
  | some line => IUpdateTooltip K { s.resetFind with fWorkingLine := line }

/-- The text `biglines` of the Enter branch in Python multi-line mode: for
`i` from `fPythonMultiLines` down to 1 the history line `fCursor - i` (plus
`kNumHistoryItems` when negative), each followed by a newline. -/
def bigLines (K : Konstants) (h : History) : Nat → Option (List Nat)
  | 0 => some []
  | i + 1 =>
    let recall₀ : Int := (h.fCursor : Int) - ((i + 1 : Nat) : Int)
    let recall₁ : Int := if recall₀ < 0 then recall₀ + (K.kNumHistoryItems : Int) else recall₀
    if recall₁ < 0 then none
    else
      match h.fData.get? recall₁.toNat with
      | none => none
      | some row =>
        match strlen row, bigLines K h i with
        | some _, some rest => some (cstr row ++ 10 :: rest)
        | _, _ => none

/-- The call `PythonInterface::RunStringInteractive(code, mymod)` followed by
`getOutputAndReset(&output); AddLine(output.c_str());`. -/
def runPython (E : ConsoleEnv) (s : pfConsole) (code : List Nat) : pfConsole :=
  (s.call (ConsoleCall.RunStringInteractive code)).call (ConsoleCall.AddLine (E.pythonOutput code))

/-- The help-mode part of `EXECUTE!!!` in the Enter branch; `c₀` is
`fWorkingLine[0]`. -/
def executeHelp (E : ConsoleEnv) (s : pfConsole) (c₀ : Nat) : Option pfConsole :=
  if c₀ = 0 then some { (s.call ConsoleCall.IPrintSomeHelp) with fHelpMode := false }
  else
    match strlen s.fWorkingLine with
    | none => none
    | some _ =>
      if stricmp ((cstr s.fWorkingLine).map Char.ofNat) "commands".data = 0 then
        some { (s.call (ConsoleCall.PrintCmdHelp [])) with fHelpMode := false }
      else if (E.PrintCmdHelp s.fWorkingLine).2.length = s.fWorkingLine.length then
        if (E.PrintCmdHelp s.fWorkingLine).1 then
          some { (s.call (ConsoleCall.PrintCmdHelp (cstr s.fWorkingLine))) with
                 fWorkingLine := (E.PrintCmdHelp s.fWorkingLine).2, fHelpMode := false }
        else
          some { (((s.call (ConsoleCall.PrintCmdHelp (cstr s.fWorkingLine))).call
                    ConsoleCall.GetErrorMsg).call (ConsoleCall.AddLine E.GetErrorMsg)) with
                 fWorkingLine := (E.PrintCmdHelp s.fWorkingLine).2, fHelpMode := false }
      else none

/-- The evaluation of the saved lines in Python multi-line mode: `biglines`
is built (it is `kNumHistoryItems*(kMaxCharsWide+1)` wide), run, and the mode
is left. -/
def evalMultiLines (K : Konstants) (E : ConsoleEnv) (s : pfConsole) : Option pfConsole :=
  match bigLines K (s.fHistory s.fPythonMode) s.fPythonMultiLines with
  | none => none
  | some big =>
    if big.length < K.kNumHistoryItems * (K.kMaxCharsWide + 1) then
      some { (runPython E s big) with fPythonMultiLines := 0 }
    else none

/-- The Python part of `EXECUTE!!!` when `fPythonMultiLines > 0`. -/
def executeMultiLine (K : Konstants) (E : ConsoleEnv) (s : pfConsole) (c₀ : Nat) :
    Option pfConsole :=
  if c₀ ≠ 0 then
    -- if there was a line then bump num lines
    if s.fPythonMultiLines + 1 ≥ K.kNumHistoryItems then
      evalMultiLines K E
        (({ (s.call (ConsoleCall.AddLineF "... %s" (cstr s.fWorkingLine))) with
            fPythonMultiLines := s.fPythonMultiLines + 1 } : pfConsole).call
          (ConsoleCall.AddLine (ascii "Python Multi-line buffer full!")))
    else
      some { (s.call (ConsoleCall.AddLineF "... %s" (cstr s.fWorkingLine))) with
             fPythonMultiLines := s.fPythonMultiLines + 1 }
  else if s.fPythonMultiLines ≥ K.kNumHistoryItems then
    evalMultiLines K E (s.call (ConsoleCall.AddLine (ascii "Python Multi-line buffer full!")))
  else evalMultiLines K E s

/-- The Python part of `EXECUTE!!!` when `fPythonMultiLines` is 0. -/
def executeSingleLine (E : ConsoleEnv) (s : pfConsole) (c₀ eol : Nat) : Option pfConsole :=
  if c₀ ≠ 0 then
    match s.fWorkingLine.get? (eol - 1) with
    | none => none
    | some last =>
      -- a ':' at the end starts multi-line mode
      if last = 58 then
        some { (s.call (ConsoleCall.AddLineF ">>> %s" (cstr s.fWorkingLine))) with
               fPythonMultiLines := 1 }
      else
        some (runPython E (s.call (ConsoleCall.AddLineF ">>> %s" (cstr s.fWorkingLine)))
                (cstr s.fWorkingLine))
  else some (s.call (ConsoleCall.AddLine (ascii ">>> ")))

/-- The command part of `EXECUTE!!!`: `fEngine->RunCommand`, and the error
message when it fails and has one. -/
def executeCommand (E : ConsoleEnv) (s : pfConsole) : Option pfConsole :=
  if (E.RunCommand s.fWorkingLine).2.length = s.fWorkingLine.length then
    if (E.RunCommand s.fWorkingLine).1 then
      some { (s.call (ConsoleCall.RunCommand (cstr s.fWorkingLine))) with
             fWorkingLine := (E.RunCommand s.fWorkingLine).2 }
    else if E.GetErrorMsg.head?.getD 0 ≠ 0 then
      some { (((s.call (ConsoleCall.RunCommand (cstr s.fWorkingLine))).call
                ConsoleCall.GetErrorMsg).call (ConsoleCall.AddLine E.GetErrorMsg)) with
             fWorkingLine := (E.RunCommand s.fWorkingLine).2 }
    else
      some { ((s.call (ConsoleCall.RunCommand (cstr s.fWorkingLine))).call
                ConsoleCall.GetErrorMsg) with
             fWorkingLine := (E.RunCommand s.fWorkingLine).2 }
  else none

/-- The part of the Enter branch under `EXECUTE!!!`, up to the comment
`Clear`; `eol` is the value the variable has when the part is entered. -/
def execute (K : Konstants) (E : ConsoleEnv) (s : pfConsole) (eol : Nat) : Option pfConsole :=
  match s.fWorkingLine.head? with
  | none => none
  | some c₀ =>
    if s.fHelpMode then executeHelp E s c₀
    else if s.fPythonMode then
      match (if s.fPythonMultiLines > 0 then executeMultiLine K E s c₀
             else executeSingleLine E s c₀ eol) with
      | none => none
      | some s₁ =>
        -- for( c = fWorkingLine, eol = 0; *c != 0; eol++, c++ );
        match strlen s₁.fWorkingLine with
        | none => none
        | some _ => some s₁
    else executeCommand E s

/-- The statements under `Save to history` in the Enter branch: the working
line is copied to the line `fCursor` of the history of the current mode, and
`fCursor` moves on, back to 0 after the last line; `fRecallCursor` follows. -/
def saveHistory (K : Konstants) (s : pfConsole) : Option pfConsole :=
  match (s.fHistory s.fPythonMode).fData.get? (s.fHistory s.fPythonMode).fCursor with
  | none => none
  | some row =>
    match strcpy row s.fWorkingLine with
    | none => none
    | some row₁ =>
      some (s.setHistory s.fPythonMode
        { fData := (s.fHistory s.fPythonMode).fData.set (s.fHistory s.fPythonMode).fCursor row₁,
          fCursor :=
            if (s.fHistory s.fPythonMode).fCursor < K.kNumHistoryItems - 1
            then (s.fHistory s.fPythonMode).fCursor + 1 else 0,
          fRecallCursor :=
            if (s.fHistory s.fPythonMode).fCursor < K.kNumHistoryItems - 1
            then (s.fHistory s.fPythonMode).fCursor + 1 else 0 })

/-- The `KEY_ENTER` branch. -/
def onEnter (K : Konstants) (E : ConsoleEnv) (s : pfConsole) : Option pfConsole :=
  -- leave leading space for Python multi lines; `eol` is set only otherwise
  match (if s.fPythonMultiLines = 0 then copyDown s.fWorkingLine (skipBlanks s.fWorkingLine) 0
         else some (s.fWorkingLine, 0)) with
  | none => none
  | some (line, eol) =>
    match line.head? with
    | none => none
    | some c₀ =>
      if c₀ = 0 ∧ !s.fHelpMode ∧ !s.fPythonMode then
        -- Blank line: IAddLine( "" ); return;
        some (({ s with fWorkingLine := line } : pfConsole).call (ConsoleCall.IAddLine []))
      else
        -- only save history line if there is something there
        match (if c₀ ≠ 0 then saveHistory K { s with fWorkingLine := line }
               else some { s with fWorkingLine := line }) with
        | none => none
        | some s₁ =>
          match execute K E s₁ eol with
          | none => none
          | some s₂ =>
            -- Clear
            match clearLine s₂ with
            | none => none
            | some s₃ => IUpdateTooltip K s₃.resetFind

/-- The `KEY_END` branch. -/
def onEnd (s : pfConsole) : Option pfConsole :=
  match strlen s.fWorkingLine with
  | none => none
  | some n => some { s with fWorkingCursor := n }

/-- The `KEY_HOME` branch. -/
def onHome (s : pfConsole) : Option pfConsole := some { s with fWorkingCursor := 0 }

/-- The last branch, `else if (msg->GetKeyChar())`, for the character `key`. -/
def onChar (K : Konstants) (E : ConsoleEnv) (s : pfConsole) (key : Nat) : Option pfConsole :=
  if !s.fPythonMode ∧ key = 63 ∧ s.fWorkingCursor = 0 then
    -- Go into help mode
    some { s with fHelpMode := true }
  else if !s.fHelpMode ∧ key = 92 ∧ s.fWorkingCursor = 0 then
    -- toggle Python mode
    let s₁ := { s with fPythonMode := !s.fPythonMode }
    if s₁.fPythonMode ∧ s₁.fPythonFirstTime then
      some { (runPython E (s₁.call (ConsoleCall.IAddLine []))
                (ascii "import sys;print(f'Python {sys.version}')")) with
             fPythonFirstTime := false }
    else some s₁
  else
    match strlen s.fWorkingLine with
    | none => none
    | some n =>
      -- the comparison with kMaxCharsWide - 2 is unsigned
      if (n + 2 < K.kMaxCharsWide ∨ K.kMaxCharsWide < 2) ∧ key ≠ 0 then
        match shiftRight s.fWorkingCursor (n + 1 - s.fWorkingCursor) s.fWorkingLine with
        | none => none
        | some shifted =>
          -- fWorkingLine[fWorkingCursor++] = char(key);
          match setAt shifted s.fWorkingCursor (key % 256) with
          | none => none
          | some line =>
            IUpdateTooltip K
              { s.resetFind with fWorkingLine := line, fWorkingCursor := s.fWorkingCursor + 1 }
      else some s

/-- Embeds `pfConsole::IHandleKey`: the state after the key event, `none` when
the source would leave one of its arrays. -/
def IHandleKey (K : Konstants) (E : ConsoleEnv) (s : pfConsole) (msg : plKeyEventMsg) :
    Option pfConsole :=
  -- filter out keyUps and ascii control characters
  if !msg.keyDown ∨ (msg.keyChar > 0 ∧ msg.keyChar < 32) then some s
  else
    match msg.keyCode with
    | plKeyDef.KEY_ESCAPE => onEscape K s
    | plKeyDef.KEY_TAB => onTab K E s
    | plKeyDef.KEY_UP => onUp K s
    | plKeyDef.KEY_DOWN => onDown K s
    | plKeyDef.KEY_LEFT => onLeft s
    | plKeyDef.KEY_RIGHT => onRight s
    | plKeyDef.KEY_BACKSPACE => onBackspace K s
    | plKeyDef.KEY_DELETE => onDelete K s
    | plKeyDef.KEY_ENTER => onEnter K E s
    | plKeyDef.KEY_END => onEnd s
    | plKeyDef.KEY_HOME => onHome s
    | plKeyDef.other _ => if msg.keyChar ≠ 0 then onChar K E s msg.keyChar else some s

/-! ## The console line editor: sample states -/

/-- Sample sizes for the console: 16 history lines of 80 chars, a working
line of 256 chars. -/
def sampleKonstants : Konstants :=
  { kNumHistoryItems := 16, kMaxCharsWide := 80, kWorkingLineSize := 256 }

/-- Small sizes, for states that are written out: 3 history lines of 8 chars,
a working line of 12 chars. -/
def smallKonstants : Konstants :=
  { kNumHistoryItems := 3, kMaxCharsWide := 8, kWorkingLineSize := 12 }

/-- A sample engine that knows no command and leaves the line as it is. -/
def sampleConsoleEnv : ConsoleEnv :=
  { FindPartialCmd := fun search _ => (false, search),
    FindNestedPartialCmd := fun search _ => (false, search),
    PrintCmdHelp := fun line => (true, line),
    RunCommand := fun line => (true, line),
    GetErrorMsg := [],
    pythonOutput := fun _ => [] }

/-- The history `memset( fHistory, 0, sizeof( fHistory ) )` leaves. -/
def emptyHistory (K : Konstants) : History :=
  { fData := List.replicate K.kNumHistoryItems (List.replicate K.kMaxCharsWide 0),
    fCursor := 0, fRecallCursor := 0 }

/-- The state of the line editor after `pfConsole::Init`, with the
function-static variables of `IHandleKey` at their initial values. -/
def Init (K : Konstants) : pfConsole :=
  { fWorkingLine := List.replicate K.kWorkingLineSize 0, fWorkingCursor := 0,
    fHistory₀ := emptyHistory K, fHistory₁ := emptyHistory K,
    fHelpMode := false, fPythonMode := false, fPythonFirstTime := true,
    fPythonMultiLines := 0, findAgain := false, findCounter := 0,
    lastSearch := List.replicate K.kMaxCharsWide 0, calls := [] }

/-- The key-down event of a key that has a key code and no character. -/
def keyPress (code : plKeyDef) : plKeyEventMsg :=
  { keyDown := true, keyChar := 0, keyCode := code }

/-- The event of a typed character. -/
def charPress (c : Nat) : plKeyEventMsg :=
  { keyDown := true, keyChar := c, keyCode := plKeyDef.other 0 }

/-- The events of typing an ASCII text. -/
def typed (text : String) : List plKeyEventMsg := (ascii text).map charPress

/-- The key events handled one after the other. -/
def handleKeys (K : Konstants) (E : ConsoleEnv) :
    pfConsole → List plKeyEventMsg → Option pfConsole
  | s, [] => some s
  | s, msg :: rest =>
    match IHandleKey K E s msg with
    | none => none
    | some s₁ => handleKeys K E s₁ rest

/-- What the user sees of the working line: its text and the cursor. -/
def pfConsole.view (s : pfConsole) : List Nat × Nat := (cstr s.fWorkingLine, s.fWorkingCursor)

/-- The invariant of the line editor: the cursor is within the text,
`fWorkingCursor <= strlen(fWorkingLine)`. -/
def CursorInLine (s : pfConsole) : Prop :=
  ∃ n, strlen s.fWorkingLine = some n ∧ s.fWorkingCursor ≤ n

instance (s : pfConsole) : Decidable (CursorInLine s) :=
  match h : strlen s.fWorkingLine with
  | none => isFalse (fun ⟨n, hn, _⟩ => by rw [h] at hn; exact Option.noConfusion hn)
  | some n =>
    if hc : s.fWorkingCursor ≤ n then isTrue ⟨n, h, hc⟩
    else isFalse (fun ⟨m, hm, hle⟩ => by
      rw [h] at hm; exact hc (by rw [Option.some.inj hm]; exact hle))

/-! ## The console line editor: well-formed states -/

/-- A history ring of the sizes `K`: `kNumHistoryItems` lines of
`kMaxCharsWide` bytes, each holding a NUL, and `fCursor` within the ring. -/
def History.WellFormed (K : Konstants) (h : History) : Prop :=
  h.fData.length = K.kNumHistoryItems
    ∧ (∀ row ∈ h.fData, row.length = K.kMaxCharsWide ∧ 0 ∈ row)
    ∧ h.fCursor < K.kNumHistoryItems

instance (K : Konstants) (h : History) : Decidable (h.WellFormed K) := by
  unfold History.WellFormed; infer_instance

/-- An engine that stays inside the working line: after `PrintCmdHelp` and
`RunCommand` the array is as long as before. -/
def ConsoleEnv.InBounds (E : ConsoleEnv) : Prop :=
  ∀ line, (E.PrintCmdHelp line).2.length = line.length
    ∧ (E.RunCommand line).2.length = line.length

/-- The line Enter saves to the history: the text of the working line, without
its leading spaces and tabs unless Python multi-line mode is on. -/
def savedLine (s : pfConsole) : List Nat :=
  if s.fPythonMultiLines = 0 then (cstr s.fWorkingLine).dropWhile (fun b => b = 32 ∨ b = 9)
  else cstr s.fWorkingLine

/-- A sample state: the text `ac` with the cursor after `a`. -/
def sampleEdit : pfConsole :=
  { Init smallKonstants with
    fWorkingLine := ascii "ac" ++ List.replicate 10 0, fWorkingCursor := 1 }

/-- A sample state in Python multi-line mode, the working line `  x` (two
leading spaces) with the cursor at its end. -/
def sampleIndented : pfConsole :=
  { Init smallKonstants with
    fWorkingLine := ascii "  x" ++ List.replicate 9 0, fWorkingCursor := 3,
    fPythonMode := true, fPythonFirstTime := false, fPythonMultiLines := 1 }

/-- What the execution of a line leaves alone: both histories, the Python
mode flag and the size of the working line. -/
def KeepsEditor (s s' : pfConsole) : Prop :=
  s'.fHistory₀ = s.fHistory₀ ∧ s'.fHistory₁ = s.fHistory₁
    ∧ s'.fPythonMode = s.fPythonMode ∧ s'.fWorkingLine.length = s.fWorkingLine.length

/-- The keys that bring the console into Python multi-line mode and type an
indented line: a backslash, `if x:`, Enter, then two spaces and `y`. -/
def indentedKeys : List plKeyEventMsg :=
  typed "\\" ++ typed "if x:" ++ [keyPress plKeyDef.KEY_ENTER] ++ typed "  y"

/-! ## Runs for the exit of the pump -/

/-- The seven calls at the top of `WinMain`, before `CompleteSelfPatch`. -/
def setupCalls : List Event :=
  [Event.launcher LauncherCall.ParseArguments,
   Event.launcher LauncherCall.SetErrorProc,
   Event.launcher LauncherCall.SetInstallerProc,
   Event.launcher LauncherCall.SetLaunchClientProc,
   Event.launcher LauncherCall.SetPatcherFactory,
   Event.launcher LauncherCall.SetShardProc,
   Event.launcher LauncherCall.SetStatusProc]

/-- The run `cancelRun` with one more message in the queue: the user clicks
cancel in the second turn; the third turn retrieves the posted `WM_QUIT`
(delivered to the dialog procedure), the `WM_QUIT` of `PostQuitMessage`, and
after it a timer tick; from then on the queue is empty. -/
def cancelLostRun : WinMainEnv :=
  { netErrorRun with
    pump :=
      [ { peeked := [otherMessage], netcore := [NetCall.status "Checking for updates..."] },
        { peeked := [cancelClick], netcore := [] },
        { peeked :=
            [ { msg := { hwnd := HWND.dialog, message := WM_QUIT, wParam := PLASMA_OK,
                         lParam := 0 },
                isDialogMessage := true,
                delivered := [(WM_QUIT, PLASMA_OK, 0), (WM_DESTROY, 0, 0)] },
              quitMessage,
              otherMessage ],
          netcore := [] },
        { peeked := [], netcore := [] },
        { peeked := [], netcore := [] } ] }

theorem stricmp_eq_zero_iff (a b : List Char) :
    stricmp a b = 0 ↔ a.map Char.toLower = b.map Char.toLower := by
  induction a generalizing b with
  | nil => cases b <;> simp [stricmp]
  | cons x xs ih =>
    cases b with
    | nil => simp [stricmp]
    | cons y ys =>
      by_cases h : x.toLower = y.toLower
      · simp [stricmp, h, ih]
      · by_cases h2 : x.toLower < y.toLower <;> simp [stricmp, h, h2]

theorem strnicmp_length_eq_zero_iff (str cp : List Char) :
    strnicmp cp str str.length = 0 ↔ str.map Char.toLower <+: cp.map Char.toLower := by
  induction str generalizing cp with
  | nil => simp [strnicmp]
  | cons y ys ih =>
    cases cp with
    | nil => simp [strnicmp]
    | cons x xs =>
      by_cases h : x.toLower = y.toLower
      · simp [strnicmp, h, ih]
      · have h3 : ¬ y.toLower = x.toLower := fun e => h e.symm
        by_cases h2 : x.toLower < y.toLower <;> simp [strnicmp, h, h2, h3]

theorem findScan_ne_iff (str cp : List Char) (i : Nat) (hstr : str ≠ []) :
    findScan str cp i ≠ -1 ↔ str.map Char.toLower <:+: cp.map Char.toLower := by
  induction cp generalizing i with
  | nil => simp [findScan, hstr]
  | cons x xs ih =>
    unfold findScan
    rw [List.map_cons, List.infix_cons_iff, ← List.map_cons, ← strnicmp_length_eq_zero_iff]
    split
    · rename_i h
      simp [h]
    · rename_i h
      simp [h, ih]

/-- The method `CompareI` answers `0` exactly for strings equal ignoring case. -/
theorem CompareI_eq_zero_iff (s t : String) :
    plString.CompareI s t = 0 ↔ s.data.map Char.toLower = t.data.map Char.toLower :=
  stricmp_eq_zero_iff _ _

/-- The method `Find` (case-insensitive) finds a non-empty `str` exactly when the string
contains it ignoring case. -/
theorem FindI_ne_iff (s str : String) (hstr : str.data ≠ []) :
    plString.FindI s str ≠ -1 ↔ str.data.map Char.toLower <:+: s.data.map Char.toLower := by
  unfold plString.FindI
  rw [if_neg hstr]
  exact findScan_ne_iff _ _ _ hstr

/-! ### ICreateProcess -/

theorem ICreateProcess_started (hs : HeadSpin) (env : SpawnEnv) (exe args : String)
    (hProcess hThread : HANDLE) (h : env.createProcess = SpawnResult.started hProcess hThread) :
    ICreateProcess hs env exe args
      = (hProcess, [Event.CreateProcessW exe (exe ++ " " ++ args), Event.CloseHandle hThread]) := by
  simp [ICreateProcess, h]

theorem ICreateProcess_elevation (hs : HeadSpin) (env : SpawnEnv) (exe args : String)
    (h : env.createProcess = SpawnResult.failed ERROR_ELEVATION_REQUIRED)
    (ha : hs.assertEvaluates = true) :
    ICreateProcess hs env exe args
      = (env.shellProcess,
          [Event.CreateProcessW exe (exe ++ " " ++ args), Event.ShellExecuteExW exe args]
            ++ (if env.shellExecuteOk then [] else [Event.ErrorAssert "ShellExecuteExW phailed"])) := by
  simp [ICreateProcess, h, ha]

theorem ICreateProcess_other (hs : HeadSpin) (env : SpawnEnv) (exe args : String)
    (lastError : Nat) (h : env.createProcess = SpawnResult.failed lastError)
    (hne : lastError ≠ ERROR_ELEVATION_REQUIRED) :
    ICreateProcess hs env exe args
      = (0, [Event.CreateProcessW exe (exe ++ " " ++ args), Event.FormatMessageW lastError,
             Event.hsMessageBox (env.formatMessage lastError) "Error"]) := by
  simp [ICreateProcess, h, hne]

/-! ### IInstallRedist -/

/-- C1: when the installer process was spawned (`ICreateProcess` returned a
handle), ended, and its exit code `c` was read, `IInstallRedist` returns
`false` if `c` is `PLASMA_PHAILURE` (1) and `true` for every other exit code.
The exit code is read inside `hsAssert(...)`, so this is for an `hsAssert`
that evaluates its argument. -/
theorem IInstallRedist_exit_code (hs : HeadSpin) (g : Globals) (env : SpawnEnv) (exe : String)
    (c : Nat) (ha : hs.assertEvaluates = true)
    (hspawn : (ICreateProcess hs env exe (redistArgs exe)).1 ≠ 0)
    (hexit : env.exits = true) (hcode : env.exitCode = some c) :
    (IInstallRedist hs g env exe).result
      = some (if c = PLASMA_PHAILURE then false else true) := by
  unfold IInstallRedist
  simp only [hspawn, hexit, ha, hcode, ne_eq, not_false_eq_true, if_true, Option.getD_some]
  by_cases h : c = PLASMA_PHAILURE <;> simp [h]

/-- C1, at an installer that ends with exit code 1 and at one that ends with
exit code 3010. -/
theorem IInstallRedist_exit_code_witness :
    (IInstallRedist ⟨true⟩ ⟨false⟩ (sampleSpawn 1) "dxwebsetup.exe").result = some false
    ∧ (IInstallRedist ⟨true⟩ ⟨false⟩ (sampleSpawn 3010) "dxwebsetup.exe").result = some true :=
  ⟨IInstallRedist_exit_code ⟨true⟩ ⟨false⟩ (sampleSpawn 1) "dxwebsetup.exe" 1 rfl
      (by decide) rfl rfl,
   IInstallRedist_exit_code ⟨true⟩ ⟨false⟩ (sampleSpawn 3010) "dxwebsetup.exe" 3010 rfl
      (by decide) rfl rfl⟩

/-- When `hsAssert` drops its argument, `GetExitCodeProcess` is never called
and `IInstallRedist` answers `true` whatever the exit code is. -/
theorem IInstallRedist_assert_dropped (hs : HeadSpin) (g : Globals) (env : SpawnEnv)
    (exe : String) (ha : hs.assertEvaluates = false)
    (hspawn : (ICreateProcess hs env exe (redistArgs exe)).1 ≠ 0)
    (hexit : env.exits = true) :
    (IInstallRedist hs g env exe).result = some true := by
  unfold IInstallRedist
  simp [hspawn, hexit, ha, PLASMA_OK, PLASMA_PHAILURE]

/-- When `ICreateProcess` returns no handle, `IInstallRedist` returns
`PLASMA_PHAILURE` converted to `bool`, which is `true`. -/
theorem IInstallRedist_no_handle (hs : HeadSpin) (g : Globals) (env : SpawnEnv) (exe : String)
    (hspawn : (ICreateProcess hs env exe (redistArgs exe)).1 = 0) :
    (IInstallRedist hs g env exe).result = some true := by
  unfold IInstallRedist
  simp [hspawn, intToBool, PLASMA_PHAILURE]

/-- C2 fails on the code: the direct spawn of `setup.exe` fails with
`ERROR_FILE_NOT_FOUND` (2), `ICreateProcess` returns no handle, and
`IInstallRedist` returns `true`. -/
theorem IInstallRedist_spawn_failure_returns_true :
    (ICreateProcess ⟨true⟩ (sampleFailure 2) "setup.exe" (redistArgs "setup.exe")).1 = 0
    ∧ (IInstallRedist ⟨true⟩ ⟨false⟩ (sampleFailure 2) "setup.exe").result = some true := by
  refine ⟨by decide, ?_⟩
  exact IInstallRedist_no_handle _ _ _ _ (by decide)

/-! ### Elevation -/

/-- C3: with an `hsAssert` that evaluates its argument, the trace of
`ICreateProcess` holds a `ShellExecuteExW` call if and only if the direct spawn
failed with exactly `ERROR_ELEVATION_REQUIRED`; and it never holds more than
one. -/
theorem ICreateProcess_elevation_iff (hs : HeadSpin) (env : SpawnEnv) (exe args : String)
    (ha : hs.assertEvaluates = true) :
    ((∃ e ∈ (ICreateProcess hs env exe args).2, e.isElevation = true)
        ↔ env.createProcess = SpawnResult.failed ERROR_ELEVATION_REQUIRED)
    ∧ (ICreateProcess hs env exe args).2.countP Event.isElevation
        = if env.createProcess = SpawnResult.failed ERROR_ELEVATION_REQUIRED then 1 else 0 := by
  cases hc : env.createProcess with
  | started hProcess hThread =>
    rw [ICreateProcess_started hs env exe args hProcess hThread hc]
    simp [Event.isElevation, List.countP_cons]
  | failed lastError =>
    by_cases he : lastError = ERROR_ELEVATION_REQUIRED
    · subst he
      rw [ICreateProcess_elevation hs env exe args hc ha]
      cases env.shellExecuteOk <;> simp [Event.isElevation, List.countP_cons]
    · rw [ICreateProcess_other hs env exe args lastError hc he]
      simp [Event.isElevation, List.countP_cons, he]

/-- C3, at a direct spawn refused with `ERROR_ELEVATION_REQUIRED`. -/
theorem ICreateProcess_elevation_iff_witness :
    (∃ e ∈ (ICreateProcess ⟨true⟩ (sampleFailure 740) "vcredist_x86.exe" "/q /norestart").2,
        e.isElevation = true) :=
  ((ICreateProcess_elevation_iff ⟨true⟩ (sampleFailure 740) "vcredist_x86.exe" "/q /norestart"
      rfl).1).2 rfl

/-- When `hsAssert` drops its argument, `ICreateProcess` never calls
`ShellExecuteExW`. -/
theorem ICreateProcess_assert_dropped (hs : HeadSpin) (env : SpawnEnv) (exe args : String)
    (ha : hs.assertEvaluates = false) :
    (ICreateProcess hs env exe args).2.countP Event.isElevation = 0 := by
  unfold ICreateProcess
  cases env.createProcess with
  | started hProcess hThread => simp [Event.isElevation, List.countP_cons]
  | failed lastError =>
    by_cases he : lastError = ERROR_ELEVATION_REQUIRED <;>
      simp [Event.isElevation, List.countP_cons, he, ha]

/-- C4: when the direct spawn fails for a reason other than
`ERROR_ELEVATION_REQUIRED`, `ICreateProcess` formats the error, shows the text
in one message box, makes no spawn attempt besides the direct one and returns
`nullptr`. -/
theorem ICreateProcess_other_failure (hs : HeadSpin) (env : SpawnEnv) (exe args : String)
    (lastError : Nat) (h : env.createProcess = SpawnResult.failed lastError)
    (hne : lastError ≠ ERROR_ELEVATION_REQUIRED) :
    (ICreateProcess hs env exe args).1 = 0
    ∧ (ICreateProcess hs env exe args).2
        = [Event.CreateProcessW exe (exe ++ " " ++ args), Event.FormatMessageW lastError,
           Event.hsMessageBox (env.formatMessage lastError) "Error"]
    ∧ (ICreateProcess hs env exe args).2.countP Event.isMessageBox = 1
    ∧ (ICreateProcess hs env exe args).2.countP Event.isSpawn = 1
    ∧ (ICreateProcess hs env exe args).2.countP Event.isElevation = 0 := by
  rw [ICreateProcess_other hs env exe args lastError h hne]
  simp [Event.isMessageBox, Event.isSpawn, Event.isElevation, List.countP_cons]

/-- C4, at a direct spawn that fails with `ERROR_FILE_NOT_FOUND` (2). -/
theorem ICreateProcess_other_failure_witness :
    (ICreateProcess ⟨true⟩ (sampleFailure 2) "UruExplorer.exe" "-Renderer=DX9").1 = 0
    ∧ (ICreateProcess ⟨true⟩ (sampleFailure 2) "UruExplorer.exe" "-Renderer=DX9").2.countP
        Event.isMessageBox = 1 :=
  have h := ICreateProcess_other_failure ⟨true⟩ (sampleFailure 2) "UruExplorer.exe"
    "-Renderer=DX9" 2 rfl (by decide)
  ⟨h.1, h.2.2.1⟩

/-! ### The argument guess -/

theorem CompareI_oalinst_iff (n : String) :
    plString.CompareI n "oalinst.exe" = 0 ↔ IsLegacyInstaller n := by
  rw [CompareI_eq_zero_iff]
  exact Iff.rfl

theorem FindI_vcredist_iff (n : String) :
    plString.FindI n "vcredist" ≠ -1 ↔ HasRuntimeMarker n := by
  rw [FindI_ne_iff n "vcredist" (by decide)]
  exact Iff.rfl

theorem not_legacy_of_marker (n : String) (h : HasRuntimeMarker n) : ¬ IsLegacyInstaller n := by
  intro hl
  unfold HasRuntimeMarker at h
  unfold IsLegacyInstaller at hl
  rw [hl] at h
  exact absurd h (by decide)

theorem redistArgs_cases (n : String) :
    redistArgs n
      = (if IsLegacyInstaller n then "/s" else "/q")
          ++ (if HasRuntimeMarker n then " /norestart" else "") := by
  unfold redistArgs
  by_cases h1 : IsLegacyInstaller n <;> by_cases h2 : HasRuntimeMarker n <;>
    simp [CompareI_oalinst_iff, FindI_vcredist_iff, h1, h2]

theorem ICreateProcess_direct_spawn (hs : HeadSpin) (env : SpawnEnv) (exe args : String) :
    Event.CreateProcessW exe (exe ++ " " ++ args) ∈ (ICreateProcess hs env exe args).2 := by
  unfold ICreateProcess
  cases env.createProcess with
  | started hProcess hThread => simp
  | failed lastError =>
    by_cases he : lastError = ERROR_ELEVATION_REQUIRED <;>
      cases hs.assertEvaluates <;> simp [he]

/-- C9: for every installer name `n`, the argument string `IInstallRedist`
derives is `/s` if `n` equals `oalinst.exe` ignoring case and `/q` otherwise,
followed by ` /norestart` exactly when `n` contains `vcredist` ignoring case;
and this is the string handed to `ICreateProcess` (the command line of the
direct spawn is the name, a blank, and that string). -/
theorem redistArgs_eq (n : String) :
    redistArgs n
      = (if IsLegacyInstaller n then "/s" else "/q")
          ++ (if HasRuntimeMarker n then " /norestart" else "")
    ∧ ∀ (hs : HeadSpin) (g : Globals) (env : SpawnEnv),
        Event.CreateProcessW n (n ++ " " ++ redistArgs n) ∈ (IInstallRedist hs g env n).trace := by
  refine ⟨redistArgs_cases n, ?_⟩
  intro hs g env
  have hmem := ICreateProcess_direct_spawn hs env n (redistArgs n)
  unfold IInstallRedist
  by_cases hp : (ICreateProcess hs env n (redistArgs n)).1 = 0
  · simp [hp, hmem]
  · cases env.exits <;> simp [hp, hmem]

/-- C10: for every path that contains `vcredist` ignoring case, the derived
arguments are `/q /norestart`: the generic silent flag and the no-restart
flag, and not the legacy `/s`. -/
theorem redistArgs_of_marker (n : String) (h : HasRuntimeMarker n) :
    redistArgs n = "/q /norestart" := by
  rw [redistArgs_cases n, if_neg (not_legacy_of_marker n h), if_pos h]
  rfl

/-- C10, at `VCRedist_x86.exe`. -/
theorem redistArgs_of_marker_witness :
    HasRuntimeMarker "VCRedist_x86.exe" ∧ redistArgs "VCRedist_x86.exe" = "/q /norestart" :=
  ⟨by decide, redistArgs_of_marker "VCRedist_x86.exe" (by decide)⟩

/-! ### WinMain -/

theorem WinMain_not_stale (x : Externals) (env : WinMainEnv)
    (hstale : env.stale = false) :
    CompleteSelfPatch env.stale (WaitForOldPatcher x env.oldPatcher)
      = { trace := [Event.launcher LauncherCall.CompleteSelfPatch], result := some false } := by
  simp [CompleteSelfPatch, hstale]

/-- C6: when no self-patch is pending and `LoadServerIni` fails, `WinMain`
shows the configuration error, returns 1, and its calls are the start-up
calls, `LoadServerIni` and the message box: no mutex is created, nothing is
waited for, the net core is not initialised. -/
theorem WinMain_config_missing (hs : HeadSpin) (x : Externals) (env : WinMainEnv)
    (hstale : env.stale = false) (hini : env.loadServerIni = false) :
    (WinMain hs x env).result = some 1
    ∧ (WinMain hs x env).trace
        = startupCalls ++ [Event.launcher LauncherCall.LoadServerIni,
            Event.hsMessageBox "No server.ini file found.  Please check your URU installation."
              "Error"]
    ∧ (∀ e ∈ (WinMain hs x env).trace, e.isCreateObject = false ∧ e.isWait = false)
    ∧ Event.launcher LauncherCall.InitializeNetCore ∉ (WinMain hs x env).trace := by
  have htrace : WinMain hs x env
      = { trace := startupCalls ++ [Event.launcher LauncherCall.LoadServerIni,
            Event.hsMessageBox "No server.ini file found.  Please check your URU installation."
              "Error"],
          result := some PLASMA_PHAILURE } := by
    unfold WinMain
    simp [WinMain_not_stale x env hstale, hini, startupCalls]
  rw [htrace]
  refine ⟨rfl, rfl, ?_, ?_⟩
  · intro e he
    simp [startupCalls] at he
    rcases he with h | h | h | h | h | h | h | h | h | h <;> subst h <;>
      simp [Event.isCreateObject, Event.isWait]
  · simp [startupCalls]

/-- C6, at a run without `server.ini`. -/
theorem WinMain_config_missing_witness :
    (WinMain ⟨true⟩ sampleExternals configMissingRun).result = some 1 :=
  (WinMain_config_missing ⟨true⟩ sampleExternals configMissingRun rfl rfl).1

/-- C7: when no self-patch is pending, the configuration loads and
`IsPatcherRunning` answers `true`, `WinMain` tells the user that the product
is already running and returns 0; its calls end there: the net core is not
initialised, the dialog is not created, the pump is not entered. -/
theorem WinMain_already_running (hs : HeadSpin) (x : Externals) (env : WinMainEnv)
    (hstale : env.stale = false) (hini : env.loadServerIni = true)
    (hrun : (IsPatcherRunning x env.probe).1 = true) :
    (WinMain hs x env).result = some 0
    ∧ (WinMain hs x env).trace
        = startupCalls ++ [Event.launcher LauncherCall.LoadServerIni,
            Event.CreateMutexW x.PatcherExecutable,
            Event.WaitForSingleObject env.probe.handle 0,
            Event.hsMessageBox (x.LongName ++ " is already running") "Error"]
    ∧ Event.launcher LauncherCall.InitializeNetCore ∉ (WinMain hs x env).trace
    ∧ Event.CreateDialogW ∉ (WinMain hs x env).trace
    ∧ Event.launcher LauncherCall.PumpNetCore ∉ (WinMain hs x env).trace
    ∧ ∀ b, Event.PeekMessageW b ∉ (WinMain hs x env).trace := by
  have htrace : WinMain hs x env
      = { trace := startupCalls ++ [Event.launcher LauncherCall.LoadServerIni,
            Event.CreateMutexW x.PatcherExecutable,
            Event.WaitForSingleObject env.probe.handle 0,
            Event.hsMessageBox (x.LongName ++ " is already running") "Error"],
          result := some PLASMA_OK } := by
    unfold WinMain
    simp only [WinMain_not_stale x env hstale, hini, hrun]
    simp [startupCalls, IsPatcherRunning, CreatePatcherMutex]
  rw [htrace]
  refine ⟨rfl, rfl, ?_, ?_, ?_, ?_⟩ <;> simp [startupCalls]

/-- C7, at a run in which the probe of the mutex times out. -/
theorem WinMain_already_running_witness :
    (WinMain ⟨true⟩ sampleExternals alreadyRunningRun).result = some 0 :=
  (WinMain_already_running ⟨true⟩ sampleExternals alreadyRunningRun rfl rfl (by decide)).1

/-- Every run of `WinMain` that returns gives `PLASMA_OK`, except the one
that finds no `server.ini`. -/
theorem WinMain_exit_code (hs : HeadSpin) (x : Externals) (env : WinMainEnv) (c : Nat)
    (h : (WinMain hs x env).result = some c) :
    c = PLASMA_OK ∨ (c = PLASMA_PHAILURE ∧ env.stale = false ∧ env.loadServerIni = false) := by
  unfold WinMain at h
  cases hstale : env.stale with
  | true =>
    cases hrel : env.oldPatcher.released <;>
      simp [CompleteSelfPatch, WaitForOldPatcher, hstale, hrel] at h
    exact Or.inl h.symm
  | false =>
    simp only [WinMain_not_stale x env hstale] at h
    cases hini : env.loadServerIni with
    | false =>
      simp [hini] at h
      exact Or.inr ⟨h.symm, rfl, rfl⟩
    | true =>
      simp only [hini] at h
      cases hrun : (IsPatcherRunning x env.probe).1 with
      | true =>
        simp [hrun] at h
        exact Or.inl h.symm
      | false =>
        simp only [hrun] at h
        cases hp : (PumpMessages hs x env.dialog { s_taskbar := false } env.msg₀ env.pump).result with
        | none => simp [hp] at h
        | some g' =>
          simp [hp] at h
          exact Or.inl h.symm

/-- C5 fails on the code: in this run the pump is entered, the net core calls
`IOnNetError` (message box, then `IQuit(PLASMA_PHAILURE)`: a `WM_QUIT` with
wParam 1 is posted), the pump ends on `WM_QUIT`, and `WinMain` returns 0. -/
theorem WinMain_net_error_returns_ok :
    Event.launcher LauncherCall.PumpNetCore ∈ (WinMain ⟨true⟩ sampleExternals netErrorRun).trace
    ∧ Event.hsMessageBox "Error: kNetErrDisconnected\r\nconnection lost" "Error"
        ∈ (WinMain ⟨true⟩ sampleExternals netErrorRun).trace
    ∧ Event.PostMessageW HWND.dialog WM_QUIT PLASMA_PHAILURE 0
        ∈ (WinMain ⟨true⟩ sampleExternals netErrorRun).trace
    ∧ (WinMain ⟨true⟩ sampleExternals netErrorRun).result = some 0 := by
  refine ⟨?_, ?_, ?_, ?_⟩ <;> decide

/-! ### ILaunchClientExecutable -/

/-- C8: for every argument string, with an empty target executable
`ILaunchClientExecutable` only clears the taskbar state (when there is a
taskbar) and posts `WM_QUIT` with exit code 0: no spawn of either kind, no
event or mutex is created, nothing is waited for. -/
theorem ILaunchClientExecutable_empty (hs : HeadSpin) (x : Externals) (g : Globals)
    (env : LaunchEnv) (args : String) :
    (ILaunchClientExecutable hs x g env "" args).result = some ()
    ∧ (ILaunchClientExecutable hs x g env "" args).trace
        = (if g.s_taskbar then [Event.SetProgressState TBPFLAG.TBPF_NOPROGRESS] else [])
            ++ [Event.PostMessageW HWND.dialog WM_QUIT 0 0]
    ∧ ∀ e ∈ (ILaunchClientExecutable hs x g env "" args).trace,
        e.isSpawn = false ∧ e.isCreateObject = false ∧ e.isWait = false := by
  have h : ILaunchClientExecutable hs x g env "" args
      = { trace := (if g.s_taskbar then [Event.SetProgressState TBPFLAG.TBPF_NOPROGRESS] else [])
            ++ [Event.PostMessageW HWND.dialog WM_QUIT 0 0],
          result := some () } := by
    simp [ILaunchClientExecutable, plString.IsEmpty, IQuit, PLASMA_OK]
  rw [h]
  refine ⟨rfl, rfl, ?_⟩
  intro e he
  cases hg : g.s_taskbar <;> simp [hg] at he
  · subst he
    simp [Event.isSpawn, Event.isCreateObject, Event.isWait]
  · rcases he with he | he <;> subst he <;>
      simp [Event.isSpawn, Event.isCreateObject, Event.isWait]

/-! ### The handoff to the client -/

theorem ICreateProcess_no_wait (hs : HeadSpin) (env : SpawnEnv) (exe args : String) :
    ∀ e ∈ (ICreateProcess hs env exe args).2, e.isWait = false ∧ e.quitCode = none := by
  intro e he
  unfold ICreateProcess at he
  cases hc : env.createProcess with
  | started hProcess hThread =>
    simp [hc] at he
    rcases he with he | he <;> subst he <;> simp [Event.isWait, Event.quitCode]
  | failed lastError =>
    by_cases hl : lastError = ERROR_ELEVATION_REQUIRED
    · cases ha : hs.assertEvaluates <;> cases hok : env.shellExecuteOk <;>
        simp [hc, hl, ha, hok] at he
      · subst he; simp [Event.isWait, Event.quitCode]
      · subst he; simp [Event.isWait, Event.quitCode]
      · rcases he with he | he | he <;> subst he <;> simp [Event.isWait, Event.quitCode]
      · rcases he with he | he <;> subst he <;> simp [Event.isWait, Event.quitCode]
    · simp [hc, hl] at he
      rcases he with he | he | he <;> subst he <;> simp [Event.isWait, Event.quitCode]

theorem CompareI_client_iff (x : Externals) (exe : String) :
    plString.CompareI x.ClientExecutable exe = 0 ↔ IsClientExecutable x exe :=
  CompareI_eq_zero_iff _ _

/-- The run of `ILaunchClientExecutable` for an executable that is not the
client: spawn, close both handles, quit. -/
theorem ILaunchClientExecutable_other (hs : HeadSpin) (x : Externals) (g : Globals)
    (env : LaunchEnv) (exe args : String) (hne : plString.IsEmpty exe = false)
    (hc : ¬ IsClientExecutable x exe) :
    ILaunchClientExecutable hs x g env exe args
      = { trace := (if g.s_taskbar then [Event.SetProgressState TBPFLAG.TBPF_NOPROGRESS] else [])
            ++ [Event.CreateEventW "UruPatcherEvent"]
            ++ (ICreateProcess hs env.spawn exe args).2
            ++ [Event.CloseHandle (ICreateProcess hs env.spawn exe args).1,
                Event.CloseHandle env.hEvent]
            ++ [Event.PostMessageW HWND.dialog WM_QUIT 0 0],
          result := some () } := by
  have hc' : ¬ plString.CompareI x.ClientExecutable exe = 0 :=
    fun h => hc ((CompareI_client_iff x exe).1 h)
  simp [ILaunchClientExecutable, hne, hc', IQuit, PLASMA_OK]

/-- The run of `ILaunchClientExecutable` for the client executable: spawn,
then the two waits; the calls after them are made only when the event wait
returns. -/
theorem ILaunchClientExecutable_client (hs : HeadSpin) (x : Externals) (g : Globals)
    (env : LaunchEnv) (exe args : String) (hne : plString.IsEmpty exe = false)
    (hc : IsClientExecutable x exe) :
    ILaunchClientExecutable hs x g env exe args
      = { trace := (if g.s_taskbar then [Event.SetProgressState TBPFLAG.TBPF_NOPROGRESS] else [])
            ++ [Event.CreateEventW "UruPatcherEvent"]
            ++ (ICreateProcess hs env.spawn exe args).2
            ++ [Event.WaitForInputIdle (ICreateProcess hs env.spawn exe args).1 1000,
                Event.WaitForSingleObject env.hEvent INFINITE]
            ++ (if env.eventSignalled then
                  [Event.CloseHandle (ICreateProcess hs env.spawn exe args).1,
                   Event.CloseHandle env.hEvent,
                   Event.PostMessageW HWND.dialog WM_QUIT 0 0]
                else []),
          result := if env.eventSignalled then some () else none } := by
  have hc' : plString.CompareI x.ClientExecutable exe = 0 := (CompareI_client_iff x exe).2 hc
  cases hsig : env.eventSignalled <;>
    simp [ILaunchClientExecutable, hne, hc', hsig, IQuit, PLASMA_OK]

/-- C11 fails on the code: the direct spawn fails with `ERROR_FILE_NOT_FOUND`
(2) and `ICreateProcess` returns no handle.  For `UruSetup.exe` the last call
is the quit request with exit code 0, not a non-zero one; for the client
executable `UruExplorer.exe` the wait on the event is made all the same, and
with an event that is never signalled the function does not return. -/
theorem ILaunchClientExecutable_spawn_failure_quits_ok :
    (ICreateProcess ⟨true⟩ (sampleFailure 2) "UruSetup.exe" "-Repair").1 = 0
    ∧ (ILaunchClientExecutable ⟨true⟩ sampleExternals ⟨false⟩
          (sampleLaunch (sampleFailure 2) false) "UruSetup.exe" "-Repair").trace.getLast?
        = some (Event.PostMessageW HWND.dialog WM_QUIT 0 0)
    ∧ (ICreateProcess ⟨true⟩ (sampleFailure 2) "UruExplorer.exe" "").1 = 0
    ∧ Event.WaitForSingleObject 400 INFINITE
        ∈ (ILaunchClientExecutable ⟨true⟩ sampleExternals ⟨false⟩
            (sampleLaunch (sampleFailure 2) false) "UruExplorer.exe" "").trace
    ∧ (ILaunchClientExecutable ⟨true⟩ sampleExternals ⟨false⟩
          (sampleLaunch (sampleFailure 2) false) "UruExplorer.exe" "").result = none := by
  refine ⟨?_, ?_, ?_, ?_, ?_⟩ <;> decide

/-- C11 as amended: when `ICreateProcess` returns no handle, every quit
request `ILaunchClientExecutable` makes carries exit code 0; and when the
executable is not the client executable, the function returns without any
wait, its last call being that quit request. -/
theorem ILaunchClientExecutable_no_handle (hs : HeadSpin) (x : Externals) (g : Globals)
    (env : LaunchEnv) (exe args : String) (hne : plString.IsEmpty exe = false)
    (_hnull : (ICreateProcess hs env.spawn exe args).1 = 0) :
    (∀ e ∈ (ILaunchClientExecutable hs x g env exe args).trace,
        ∀ c, e.quitCode = some c → c = 0)
    ∧ (¬ IsClientExecutable x exe →
        (ILaunchClientExecutable hs x g env exe args).result = some ()
        ∧ (∀ e ∈ (ILaunchClientExecutable hs x g env exe args).trace, e.isWait = false)
        ∧ (ILaunchClientExecutable hs x g env exe args).trace.getLast?
            = some (Event.PostMessageW HWND.dialog WM_QUIT 0 0)) := by
  constructor
  · intro e he c hq
    by_cases hc : IsClientExecutable x exe
    · rw [ILaunchClientExecutable_client hs x g env exe args hne hc] at he
      simp only [List.mem_append] at he
      rcases he with (((he | he) | he) | he) | he
      · cases hg : g.s_taskbar <;> simp [hg] at he
        subst he; simp [Event.quitCode] at hq
      · simp at he; subst he; simp [Event.quitCode] at hq
      · have := (ICreateProcess_no_wait hs env.spawn exe args e he).2
        rw [this] at hq; cases hq
      · simp at he
        rcases he with he | he <;> subst he <;> simp [Event.quitCode] at hq
      · cases hsig : env.eventSignalled <;> simp [hsig] at he
        rcases he with he | he | he <;> subst he <;> simp [Event.quitCode] at hq
        exact hq.symm
    · rw [ILaunchClientExecutable_other hs x g env exe args hne hc] at he
      simp only [List.mem_append] at he
      rcases he with (((he | he) | he) | he) | he
      · cases hg : g.s_taskbar <;> simp [hg] at he
        subst he; simp [Event.quitCode] at hq
      · simp at he; subst he; simp [Event.quitCode] at hq
      · have := (ICreateProcess_no_wait hs env.spawn exe args e he).2
        rw [this] at hq; cases hq
      · simp at he
        rcases he with he | he <;> subst he <;> simp [Event.quitCode] at hq
      · simp at he; subst he; simp [Event.quitCode] at hq
        exact hq.symm
  · intro hc
    rw [ILaunchClientExecutable_other hs x g env exe args hne hc]
    refine ⟨rfl, ?_, ?_⟩
    · intro e he
      simp only [List.mem_append] at he
      rcases he with (((he | he) | he) | he) | he
      · cases hg : g.s_taskbar <;> simp [hg] at he
        subst he; simp [Event.isWait]
      · simp at he; subst he; simp [Event.isWait]
      · exact (ICreateProcess_no_wait hs env.spawn exe args e he).1
      · simp at he
        rcases he with he | he <;> subst he <;> simp [Event.isWait]
      · simp at he; subst he; simp [Event.isWait]
    · exact List.getLast?_concat _

/-- C11 as amended, at `UruSetup.exe` whose spawn fails with
`ERROR_FILE_NOT_FOUND` (2). -/
theorem ILaunchClientExecutable_no_handle_witness :
    (ILaunchClientExecutable ⟨true⟩ sampleExternals ⟨false⟩
        (sampleLaunch (sampleFailure 2) false) "UruSetup.exe" "-Repair").result = some () :=
  ((ILaunchClientExecutable_no_handle ⟨true⟩ sampleExternals ⟨false⟩
      (sampleLaunch (sampleFailure 2) false) "UruSetup.exe" "-Repair" (by decide)
      (by decide)).2 (by decide)).1

/-- C12 fails on the code: the client `UruExplorer.exe` is started, its
process ends (`exits`), the event is never signalled: the function does not
return and no quit request is made. -/
theorem ILaunchClientExecutable_child_exit_does_not_end_wait :
    (sampleLaunch (sampleSpawn 0) false).spawn.exits = true
    ∧ (ILaunchClientExecutable ⟨true⟩ sampleExternals ⟨false⟩
        (sampleLaunch (sampleSpawn 0) false) "UruExplorer.exe" "").result = none
    ∧ (ILaunchClientExecutable ⟨true⟩ sampleExternals ⟨false⟩
        (sampleLaunch (sampleSpawn 0) false) "UruExplorer.exe" "").trace.getLast?
        = some (Event.WaitForSingleObject 400 INFINITE)
    ∧ ∀ e ∈ (ILaunchClientExecutable ⟨true⟩ sampleExternals ⟨false⟩
        (sampleLaunch (sampleSpawn 0) false) "UruExplorer.exe" "").trace, e.quitCode = none := by
  refine ⟨rfl, ?_, ?_, ?_⟩ <;> decide

/-- C12 as amended: when the client executable is launched, the handoff is one
wait on the event `UruPatcherEvent` without timeout; the function returns (and
then has closed the handles and requested quit) exactly when that event is
signalled; no `WaitForSingleObject` is made on the process, and whether the
child process ends changes nothing. -/
theorem ILaunchClientExecutable_handoff (hs : HeadSpin) (x : Externals) (g : Globals)
    (env : LaunchEnv) (exe args : String) (hne : plString.IsEmpty exe = false)
    (hc : IsClientExecutable x exe) :
    ((ILaunchClientExecutable hs x g env exe args).result = some ()
        ↔ env.eventSignalled = true)
    ∧ (∀ h t, Event.WaitForSingleObject h t ∈ (ILaunchClientExecutable hs x g env exe args).trace
        ↔ (h = env.hEvent ∧ t = INFINITE))
    ∧ (env.eventSignalled = true →
        (ILaunchClientExecutable hs x g env exe args).trace.getLast?
          = some (Event.PostMessageW HWND.dialog WM_QUIT 0 0))
    ∧ ∀ b, ILaunchClientExecutable hs x g
            { env with spawn := { env.spawn with exits := b } } exe args
          = ILaunchClientExecutable hs x g env exe args := by
  refine ⟨?_, ?_, ?_, ?_⟩
  · rw [ILaunchClientExecutable_client hs x g env exe args hne hc]
    cases env.eventSignalled <;> simp
  · intro h t
    rw [ILaunchClientExecutable_client hs x g env exe args hne hc]
    constructor
    · intro he
      simp only [List.mem_append] at he
      rcases he with (((he | he) | he) | he) | he
      · cases hg : g.s_taskbar <;> simp [hg] at he
      · simp at he
      · have := (ICreateProcess_no_wait hs env.spawn exe args _ he).1
        simp [Event.isWait] at this
      · simp at he
        exact ⟨he.1, he.2⟩
      · cases hsig : env.eventSignalled <;> simp [hsig] at he
    · rintro ⟨rfl, rfl⟩
      simp
  · intro hsig
    rw [ILaunchClientExecutable_client hs x g env exe args hne hc]
    simp only [hsig, if_true]
    rw [List.getLast?_append]
    rfl
  · intro b
    rfl

/-- C12 as amended, at a client whose event is signalled. -/
theorem ILaunchClientExecutable_handoff_witness :
    (ILaunchClientExecutable ⟨true⟩ sampleExternals ⟨false⟩
        (sampleLaunch (sampleSpawn 0) true) "uruexplorer.EXE" "").result = some () :=
  ((ILaunchClientExecutable_handoff ⟨true⟩ sampleExternals ⟨false⟩
      (sampleLaunch (sampleSpawn 0) true) "uruexplorer.EXE" "" (by decide) (by decide)).1).2 rfl

/-- C19: for every non-empty target executable, `ILaunchClientExecutable`
waits (`WaitForInputIdle`, then the event without timeout) if and only if the
name equals `plManifest::ClientExecutable()` ignoring case; for every other
non-empty name it spawns the process, closes the handles and requests quit
with no wait at all. -/
theorem ILaunchClientExecutable_wait_iff (hs : HeadSpin) (x : Externals) (g : Globals)
    (env : LaunchEnv) (exe args : String) (hne : plString.IsEmpty exe = false) :
    (Event.WaitForSingleObject env.hEvent INFINITE
        ∈ (ILaunchClientExecutable hs x g env exe args).trace ↔ IsClientExecutable x exe)
    ∧ ((∃ e ∈ (ILaunchClientExecutable hs x g env exe args).trace, e.isWait = true)
        ↔ IsClientExecutable x exe)
    ∧ (¬ IsClientExecutable x exe →
        ILaunchClientExecutable hs x g env exe args
          = { trace := (if g.s_taskbar then [Event.SetProgressState TBPFLAG.TBPF_NOPROGRESS]
                        else [])
                ++ [Event.CreateEventW "UruPatcherEvent"]
                ++ (ICreateProcess hs env.spawn exe args).2
                ++ [Event.CloseHandle (ICreateProcess hs env.spawn exe args).1,
                    Event.CloseHandle env.hEvent]
                ++ [Event.PostMessageW HWND.dialog WM_QUIT 0 0],
              result := some () }) := by
  have hnowait : ¬ IsClientExecutable x exe →
      ∀ e ∈ (ILaunchClientExecutable hs x g env exe args).trace, e.isWait = false := by
    intro hc e he
    rw [ILaunchClientExecutable_other hs x g env exe args hne hc] at he
    simp only [List.mem_append] at he
    rcases he with (((he | he) | he) | he) | he
    · cases hg : g.s_taskbar <;> simp [hg] at he
      subst he; simp [Event.isWait]
    · simp at he; subst he; simp [Event.isWait]
    · exact (ICreateProcess_no_wait hs env.spawn exe args e he).1
    · simp at he
      rcases he with he | he <;> subst he <;> simp [Event.isWait]
    · simp at he; subst he; simp [Event.isWait]
  have hwait : IsClientExecutable x exe →
      Event.WaitForSingleObject env.hEvent INFINITE
        ∈ (ILaunchClientExecutable hs x g env exe args).trace := by
    intro hc
    rw [ILaunchClientExecutable_client hs x g env exe args hne hc]
    simp
  refine ⟨?_, ?_, ?_⟩
  · constructor
    · intro he
      by_contra hc
      have := hnowait hc _ he
      simp [Event.isWait] at this
    · exact hwait
  · constructor
    · rintro ⟨e, he, hw⟩
      by_contra hc
      rw [hnowait hc e he] at hw
      cases hw
    · intro hc
      exact ⟨_, hwait hc, rfl⟩
  · intro hc
    exact ILaunchClientExecutable_other hs x g env exe args hne hc

/-- C19, at the client executable written in another letter case and at
another executable. -/
theorem ILaunchClientExecutable_wait_iff_witness :
    Event.WaitForSingleObject 400 INFINITE
        ∈ (ILaunchClientExecutable ⟨true⟩ sampleExternals ⟨false⟩
            (sampleLaunch (sampleSpawn 0) true) "URUEXPLORER.exe" "").trace
    ∧ ¬ (∃ e ∈ (ILaunchClientExecutable ⟨true⟩ sampleExternals ⟨false⟩
            (sampleLaunch (sampleSpawn 0) true) "UruSetup.exe" "").trace, e.isWait = true) :=
  ⟨((ILaunchClientExecutable_wait_iff ⟨true⟩ sampleExternals ⟨false⟩
      (sampleLaunch (sampleSpawn 0) true) "URUEXPLORER.exe" "" (by decide)).1).2 (by decide),
   fun h => absurd (((ILaunchClientExecutable_wait_iff ⟨true⟩ sampleExternals ⟨false⟩
      (sampleLaunch (sampleSpawn 0) true) "UruSetup.exe" "" (by decide)).2.1).1 h) (by decide)⟩

/-! ### One installer after the other -/

theorem ICreateProcess_spawn_only (hs : HeadSpin) (env : SpawnEnv) (exe args : String) :
    ∀ h t, Event.WaitForSingleObject h t ∉ (ICreateProcess hs env exe args).2 := by
  intro h t he
  have := (ICreateProcess_no_wait hs env exe args _ he).1
  simp [Event.isWait] at this

/-- The run of `IInstallRedist` when `ICreateProcess` gave a handle: the
status, the pause, the spawn, the wait without timeout on the handle, and
what follows the wait only when the wait returns. -/
theorem IInstallRedist_spawned (hs : HeadSpin) (g : Globals) (env : SpawnEnv) (exe : String)
    (hspawn : (ICreateProcess hs env exe (redistArgs exe)).1 ≠ 0) :
    ∃ post : List Event, (∀ e ∈ post, e.isSpawn = false) ∧
      (IInstallRedist hs g env exe).trace
        = ISetDownloadStatus g ("Installing... " ++ exe) ++ [Event.Sleep 2500]
            ++ (ICreateProcess hs env exe (redistArgs exe)).2
            ++ [Event.WaitForSingleObject (ICreateProcess hs env exe (redistArgs exe)).1 INFINITE]
            ++ (if env.exits then post else [])
      ∧ (IInstallRedist hs g env exe).result.isSome = env.exits := by
  refine ⟨(if hs.assertEvaluates then
              [Event.GetExitCodeProcess (ICreateProcess hs env exe (redistArgs exe)).1]
                ++ (if env.exitCode.isSome then []
                    else [Event.ErrorAssert "failed to get redist exit code"])
            else [])
          ++ [Event.CloseHandle (ICreateProcess hs env exe (redistArgs exe)).1], ?_, ?_, ?_⟩
  · intro e he
    cases ha : hs.assertEvaluates <;> cases hc : env.exitCode.isSome <;>
      simp [ha, hc] at he
    · subst he; rfl
    · subst he; rfl
    · rcases he with he | he | he <;> subst he <;> rfl
    · rcases he with he | he <;> subst he <;> rfl
  · unfold IInstallRedist
    cases hx : env.exits <;> simp [hspawn, hx]
  · unfold IInstallRedist
    cases hx : env.exits <;> simp [hspawn, hx]

theorem PumpNetCore_install (hs : HeadSpin) (x : Externals) (g : Globals) (exe : String)
    (env : SpawnEnv) (rest : List NetCall) :
    (PumpNetCore hs x g (NetCall.install exe env :: rest)).trace
      = (IInstallRedist hs g env exe).trace
          ++ (if (IInstallRedist hs g env exe).result.isSome then (PumpNetCore hs x g rest).trace
              else []) := by
  cases hr : (IInstallRedist hs g env exe).result <;>
    simp [PumpNetCore, netCall, hr]

/-- C15: when the spawn of an install job gave a process handle, the calls of
`IInstallRedist` are the status, the pause and the spawn, then
`WaitForSingleObject(process, INFINITE)` on that same handle, and everything
else (no spawn among it) only if that wait returns; the function returns only
then.  In a sequence of jobs, the calls of every later job come after that
wait, and none is made when the wait does not return. -/
theorem IInstallRedist_waits_before_next (hs : HeadSpin) (x : Externals) (g : Globals)
    (exe : String) (env : SpawnEnv) (rest : List NetCall)
    (hspawn : (ICreateProcess hs env exe (redistArgs exe)).1 ≠ 0) :
    ∃ post : List Event, (∀ e ∈ post, e.isSpawn = false) ∧
      (IInstallRedist hs g env exe).trace
        = ISetDownloadStatus g ("Installing... " ++ exe) ++ [Event.Sleep 2500]
            ++ (ICreateProcess hs env exe (redistArgs exe)).2
            ++ [Event.WaitForSingleObject (ICreateProcess hs env exe (redistArgs exe)).1 INFINITE]
            ++ (if env.exits then post else [])
      ∧ (IInstallRedist hs g env exe).result.isSome = env.exits
      ∧ (PumpNetCore hs x g (NetCall.install exe env :: rest)).trace
        = ISetDownloadStatus g ("Installing... " ++ exe) ++ [Event.Sleep 2500]
            ++ (ICreateProcess hs env exe (redistArgs exe)).2
            ++ [Event.WaitForSingleObject (ICreateProcess hs env exe (redistArgs exe)).1 INFINITE]
            ++ (if env.exits then post ++ (PumpNetCore hs x g rest).trace else []) := by
  obtain ⟨post, hpost, htrace, hres⟩ := IInstallRedist_spawned hs g env exe hspawn
  refine ⟨post, hpost, htrace, hres, ?_⟩
  rw [PumpNetCore_install, hres, htrace]
  cases env.exits <;> simp

/-- C15, at two jobs of which the first never ends: the calls stop at the
wait on the first process (handle 100), the second job is not spawned. -/
theorem IInstallRedist_waits_before_next_witness :
    (PumpNetCore ⟨true⟩ sampleExternals ⟨false⟩
        [NetCall.install "vcredist_x86.exe" { sampleSpawn 0 with exits := false },
         NetCall.install "dxwebsetup.exe" (sampleSpawn 0)]).trace.getLast?
      = some (Event.WaitForSingleObject 100 INFINITE) := by
  obtain ⟨post, _, _, _, h⟩ := IInstallRedist_waits_before_next ⟨true⟩ sampleExternals ⟨false⟩
    "vcredist_x86.exe" { sampleSpawn 0 with exits := false }
    [NetCall.install "dxwebsetup.exe" (sampleSpawn 0)] (by decide)
  rw [h]
  rfl

/-! ### The self-patch exit -/

theorem WinMain_self_patched (hs : HeadSpin) (x : Externals) (env : WinMainEnv)
    (h : (CompleteSelfPatch env.stale (WaitForOldPatcher x env.oldPatcher)).result = some true) :
    WinMain hs x env
      = { trace := [Event.launcher LauncherCall.ParseArguments,
                    Event.launcher LauncherCall.SetErrorProc,
                    Event.launcher LauncherCall.SetInstallerProc,
                    Event.launcher LauncherCall.SetLaunchClientProc,
                    Event.launcher LauncherCall.SetPatcherFactory,
                    Event.launcher LauncherCall.SetShardProc,
                    Event.launcher LauncherCall.SetStatusProc,
                    Event.launcher LauncherCall.CompleteSelfPatch,
                    Event.CreateMutexW x.PatcherExecutable,
                    Event.WaitForSingleObject env.oldPatcher.handle INFINITE,
                    Event.launcher LauncherCall.ReplaceInstalledBinary,
                    Event.launcher LauncherCall.ReExec],
          result := some PLASMA_OK } := by
  cases hstale : env.stale with
  | false => simp [CompleteSelfPatch, hstale] at h
  | true =>
    cases hrel : env.oldPatcher.released with
    | false => simp [CompleteSelfPatch, WaitForOldPatcher, hstale, hrel] at h
    | true =>
      unfold WinMain
      simp [CompleteSelfPatch, WaitForOldPatcher, CreatePatcherMutex, hstale, hrel]

/-- The one mutex creation of a self-patch run is not a call of `WinMain`
after `CompleteSelfPatch`: it is made while `CompleteSelfPatch` runs, by
`WaitForOldPatcher`, the wait procedure `WinMain` hands to it. -/
theorem WinMain_self_patch_creates_mutex :
    (CompleteSelfPatch selfPatchRun.stale
        (WaitForOldPatcher sampleExternals selfPatchRun.oldPatcher)).result = some true
    ∧ (WinMain ⟨true⟩ sampleExternals selfPatchRun).result = some 0
    ∧ Event.CreateMutexW "UruLauncher.exe" ∈ (WinMain ⟨true⟩ sampleExternals selfPatchRun).trace
    ∧ (CreatePatcherMutex sampleExternals 300).2 = [Event.CreateMutexW "UruLauncher.exe"] := by
  refine ⟨?_, ?_, ?_, ?_⟩ <;> decide

/-- C16: if `CompleteSelfPatch` reports that the running binary was a stale
self-copy and has been replaced, `WinMain` returns 0 at once, with no further
transition: the calls of the run are the seven set-up calls and what
`CompleteSelfPatch` itself does until it reports (its wait procedure
`WaitForOldPatcher` with the one mutex creation and wait, the replacement, the
re-execution), and `WinMain` makes no call after that: no `LoadServerIni`, no
probe of `IsPatcherRunning` (no wait with timeout 0), no `CreatePatcherMutex`,
no `InitializeNetCore`, no dialog, no pump. -/
theorem WinMain_self_patch (hs : HeadSpin) (x : Externals) (env : WinMainEnv)
    (h : (CompleteSelfPatch env.stale (WaitForOldPatcher x env.oldPatcher)).result = some true) :
    (WinMain hs x env).result = some 0
    ∧ (WinMain hs x env).trace
        = setupCalls ++ (CompleteSelfPatch env.stale (WaitForOldPatcher x env.oldPatcher)).trace
    ∧ (WinMain hs x env).trace
        = startupCalls
            ++ (WaitForOldPatcher x env.oldPatcher).trace
            ++ [Event.launcher LauncherCall.ReplaceInstalledBinary,
                Event.launcher LauncherCall.ReExec]
    ∧ (WinMain hs x env).trace.count (Event.CreateMutexW x.PatcherExecutable) = 1
    ∧ Event.launcher LauncherCall.LoadServerIni ∉ (WinMain hs x env).trace
    ∧ (∀ hd, Event.WaitForSingleObject hd 0 ∉ (WinMain hs x env).trace)
    ∧ Event.launcher LauncherCall.InitializeNetCore ∉ (WinMain hs x env).trace
    ∧ Event.CreateDialogW ∉ (WinMain hs x env).trace
    ∧ Event.launcher LauncherCall.PumpNetCore ∉ (WinMain hs x env).trace
    ∧ ∀ b, Event.PeekMessageW b ∉ (WinMain hs x env).trace := by
  have hrun : (WinMain hs x env).trace
      = setupCalls ++ (CompleteSelfPatch env.stale (WaitForOldPatcher x env.oldPatcher)).trace := by
    unfold WinMain
    simp only [h]
    rfl
  refine ⟨?_, hrun, ?_⟩
  · rw [WinMain_self_patched hs x env h]
    rfl
  rw [WinMain_self_patched hs x env h]
  refine ⟨?_, ?_, ?_, ?_, ?_, ?_, ?_, ?_⟩
  · simp [startupCalls, WaitForOldPatcher, CreatePatcherMutex]
  · simp [List.count_cons]
  · simp
  · intro hd
    simp [INFINITE]
  · simp
  · simp
  · simp
  · simp

/-- C16 at the self-patch run: the old patcher lets go of the mutex, the
binary is replaced and executed again, and `WinMain` returns 0. -/
theorem WinMain_self_patch_witness :
    (CompleteSelfPatch selfPatchRun.stale
        (WaitForOldPatcher sampleExternals selfPatchRun.oldPatcher)).result = some true
    ∧ (WinMain ⟨true⟩ sampleExternals selfPatchRun).result = some 0
    ∧ (WinMain ⟨true⟩ sampleExternals selfPatchRun).trace
        = setupCalls
            ++ (CompleteSelfPatch selfPatchRun.stale
                  (WaitForOldPatcher sampleExternals selfPatchRun.oldPatcher)).trace :=
  ⟨by decide,
    (WinMain_self_patch ⟨true⟩ sampleExternals selfPatchRun (by decide)).1,
    (WinMain_self_patch ⟨true⟩ sampleExternals selfPatchRun (by decide)).2.1⟩

/-! ### The message pump -/

theorem lastMessage_cons (msg : MSG) (p : Peeked) (ps : List Peeked) :
    lastMessage msg (p :: ps) = lastMessage p.msg ps := by
  cases ps with
  | nil => rfl
  | cons q qs =>
    simp only [lastMessage, List.getLast?_cons_cons]
    cases h : (q :: qs).getLast? with
    | none => simp at h
    | some r => rfl

theorem drain_msg (env : DialogEnv) (g : Globals) (msg : MSG) (ps : List Peeked) :
    (drain env g msg ps).2.1 = lastMessage msg ps := by
  induction ps generalizing g msg with
  | nil => rfl
  | cons p ps ih =>
    rw [lastMessage_cons]
    simp only [drain]
    exact ih _ _

theorem PumpMessages_cons (hs : HeadSpin) (x : Externals) (env : DialogEnv) (g : Globals)
    (msg : MSG) (it : PumpIteration) (its : List PumpIteration) :
    PumpMessages hs x env g msg (it :: its)
      = match (PumpNetCore hs x (drain env g msg it.peeked).1 it.netcore).result with
        | none =>
            { trace := (drain env g msg it.peeked).2.2
                ++ [Event.launcher LauncherCall.PumpNetCore]
                ++ (PumpNetCore hs x (drain env g msg it.peeked).1 it.netcore).trace,
              result := none }
        | some _ =>
            if (lastMessage msg it.peeked).message ≠ WM_QUIT then
              { trace := (drain env g msg it.peeked).2.2
                  ++ [Event.launcher LauncherCall.PumpNetCore]
                  ++ (PumpNetCore hs x (drain env g msg it.peeked).1 it.netcore).trace
                  ++ (PumpMessages hs x env (drain env g msg it.peeked).1
                        (lastMessage msg it.peeked) its).trace,
                result := (PumpMessages hs x env (drain env g msg it.peeked).1
                        (lastMessage msg it.peeked) its).result }
            else
              { trace := (drain env g msg it.peeked).2.2
                  ++ [Event.launcher LauncherCall.PumpNetCore]
                  ++ (PumpNetCore hs x (drain env g msg it.peeked).1 it.netcore).trace,
                result := some (drain env g msg it.peeked).1 } := by
  rw [← drain_msg env g msg it.peeked]
  rfl

theorem msgAfter_eq (msg : MSG) (its : List PumpIteration) :
    msgAfter msg its = ((retrieved its).getLast?).getD msg := by
  induction its generalizing msg with
  | nil => rfl
  | cons it its ih =>
    simp only [msgAfter, retrieved, ih, List.getLast?_append, List.getLast?_map, lastMessage]
    cases (retrieved its).getLast? <;> cases it.peeked.getLast? <;> rfl

theorem quit_after_iff (msg : MSG) (its : List PumpIteration) (h : msg.message ≠ WM_QUIT) :
    (msgAfter msg its).message = WM_QUIT ↔ QuitIsLast its := by
  rw [msgAfter_eq]
  unfold QuitIsLast
  cases (retrieved its).getLast? with
  | none => simp [h]
  | some m => simp

/-- The loop of `PumpMessages`, turn by turn: it is still running after every
turn at whose end `msg` is not `WM_QUIT`, and when it returns it does so at
the end of the first turn at whose end `msg` is `WM_QUIT`. -/
theorem PumpMessages_turns (hs : HeadSpin) (x : Externals) (env : DialogEnv)
    (its : List PumpIteration) :
    ∀ (g : Globals) (msg : MSG),
      ((∀ j, j < its.length → (msgAfter msg (its.take (j + 1))).message ≠ WM_QUIT) →
          (PumpMessages hs x env g msg its).result = none)
      ∧ ∀ g', (PumpMessages hs x env g msg its).result = some g' →
          ∃ k, k < its.length
            ∧ (msgAfter msg (its.take (k + 1))).message = WM_QUIT
            ∧ (∀ j, j < k → (msgAfter msg (its.take (j + 1))).message ≠ WM_QUIT)
            ∧ PumpMessages hs x env g msg (its.take (k + 1)) = PumpMessages hs x env g msg its
            ∧ (PumpMessages hs x env g msg (its.take k)).result = none := by
  induction its with
  | nil =>
    intro g msg
    exact ⟨fun _ => rfl, fun g' h => by simp [PumpMessages] at h⟩
  | cons it its ih =>
    intro g msg
    have ih' := ih (drain env g msg it.peeked).1 (lastMessage msg it.peeked)
    constructor
    · intro hall
      rw [PumpMessages_cons]
      cases hnet : (PumpNetCore hs x (drain env g msg it.peeked).1 it.netcore).result with
      | none => rfl
      | some u =>
        have h0 : (lastMessage msg it.peeked).message ≠ WM_QUIT := by
          have := hall 0 (by simp)
          simpa [msgAfter] using this
        simp only [h0, ne_eq, not_false_eq_true, if_true]
        apply ih'.1
        intro j hj
        have := hall (j + 1) (by simpa using hj)
        simpa [msgAfter] using this
    · intro g' hret
      rw [PumpMessages_cons] at hret
      cases hnet : (PumpNetCore hs x (drain env g msg it.peeked).1 it.netcore).result with
      | none => simp [hnet] at hret
      | some u =>
        simp only [hnet] at hret
        by_cases h0 : (lastMessage msg it.peeked).message = WM_QUIT
        · refine ⟨0, by simp, by simpa [msgAfter] using h0, fun j hj => absurd hj (by omega),
            ?_, rfl⟩
          simp only [List.take_succ_cons, List.take_zero]
          rw [PumpMessages_cons, PumpMessages_cons]
          simp [hnet, h0]
        · simp only [h0, ne_eq, not_false_eq_true, if_true] at hret
          obtain ⟨k, hk, hq, hbefore, heq, hnone⟩ := ih'.2 g' hret
          refine ⟨k + 1, by simpa using hk, by simpa [msgAfter] using hq, ?_, ?_, ?_⟩
          · intro j hj
            cases j with
            | zero => simpa [msgAfter] using h0
            | succ j =>
              have := hbefore j (by omega)
              simpa [msgAfter] using this
          · simp only [List.take_succ_cons]
            rw [PumpMessages_cons, PumpMessages_cons]
            simp only [hnet, h0, ne_eq, not_false_eq_true, if_true]
            rw [heq]
          · simp only [List.take_succ_cons]
            rw [PumpMessages_cons]
            simp only [hnet, h0, ne_eq, not_false_eq_true, if_true]
            exact hnone

/-- When the last message of a turn is `WM_QUIT` and the poll of the net core
returns, `PumpMessages` returns at the end of that turn, after the poll. -/
theorem PumpMessages_quit_turn (hs : HeadSpin) (x : Externals) (env : DialogEnv) (g : Globals)
    (msg : MSG) (it : PumpIteration) (post : List PumpIteration) (p : Peeked)
    (hlast : it.peeked.getLast? = some p) (hquit : p.msg.message = WM_QUIT)
    (hpoll : (PumpNetCore hs x (drain env g msg it.peeked).1 it.netcore).result = some ()) :
    PumpMessages hs x env g msg (it :: post)
      = { trace := (drain env g msg it.peeked).2.2
            ++ [Event.launcher LauncherCall.PumpNetCore]
            ++ (PumpNetCore hs x (drain env g msg it.peeked).1 it.netcore).trace,
          result := some (drain env g msg it.peeked).1 } := by
  have h0 : (lastMessage msg it.peeked).message = WM_QUIT := by
    simp [lastMessage, hlast, hquit]
  rw [PumpMessages_cons]
  simp [hpoll, h0]

/-- The loop has left by the end of a turn whose last message is `WM_QUIT`,
when the polls of the net core up to that turn return. -/
theorem PumpMessages_exits_by (hs : HeadSpin) (x : Externals) (env : DialogEnv)
    (pre : List PumpIteration) (it : PumpIteration) (post : List PumpIteration) (p : Peeked)
    (hlast : it.peeked.getLast? = some p) (hquit : p.msg.message = WM_QUIT)
    (hpolls : ∀ t ∈ pre ++ [it], ∀ g, (PumpNetCore hs x g t.netcore).result = some ()) :
    ∀ (g : Globals) (msg : MSG),
      ∃ j g', j ≤ pre.length
        ∧ (PumpMessages hs x env g msg (pre ++ it :: post)).result = some g'
        ∧ PumpMessages hs x env g msg ((pre ++ it :: post).take (j + 1))
            = PumpMessages hs x env g msg (pre ++ it :: post) := by
  induction pre with
  | nil =>
    intro g msg
    have hp := hpolls it (by simp) (drain env g msg it.peeked).1
    refine ⟨0, (drain env g msg it.peeked).1, le_refl _, ?_, ?_⟩
    · rw [List.nil_append, PumpMessages_quit_turn hs x env g msg it post p hlast hquit hp]
    · simp only [List.nil_append, List.take_succ_cons, List.take_zero]
      rw [PumpMessages_quit_turn hs x env g msg it post p hlast hquit hp,
        PumpMessages_quit_turn hs x env g msg it [] p hlast hquit hp]
  | cons a pre ih =>
    intro g msg
    have hp := hpolls a (by simp) (drain env g msg a.peeked).1
    have ih' := ih (fun t ht => hpolls t (by
      simp only [List.cons_append, List.mem_cons]
      exact Or.inr ht))
      (drain env g msg a.peeked).1 (lastMessage msg a.peeked)
    by_cases h0 : (lastMessage msg a.peeked).message = WM_QUIT
    · refine ⟨0, (drain env g msg a.peeked).1, by simp, ?_, ?_⟩
      · rw [List.cons_append, PumpMessages_cons]
        simp [hp, h0]
      · simp only [List.cons_append, List.take_succ_cons, List.take_zero]
        rw [PumpMessages_cons, PumpMessages_cons]
        simp [hp, h0]
    · obtain ⟨j, g', hj, hres, heq⟩ := ih'
      refine ⟨j + 1, g', by simpa using hj, ?_, ?_⟩
      · rw [List.cons_append, PumpMessages_cons]
        simp only [hp, h0, ne_eq, not_false_eq_true, if_true]
        exact hres
      · simp only [List.cons_append, List.take_succ_cons]
        rw [PumpMessages_cons, PumpMessages_cons]
        simp only [hp, h0, ne_eq, not_false_eq_true, if_true]
        rw [heq]

/-- The run of `WinMain` once the configuration is loaded and no other
patcher runs: mutex, net core, dialog, pump, and after the pump the release
of the mutex. -/
theorem WinMain_pumping (hs : HeadSpin) (x : Externals) (env : WinMainEnv)
    (hstale : env.stale = false) (hini : env.loadServerIni = true)
    (hrun : (IsPatcherRunning x env.probe).1 = false) :
    WinMain hs x env
      = { trace := startupCalls
            ++ [Event.launcher LauncherCall.LoadServerIni,
                Event.CreateMutexW x.PatcherExecutable,
                Event.WaitForSingleObject env.probe.handle 0,
                Event.CreateMutexW x.PatcherExecutable,
                Event.launcher LauncherCall.InitializeNetCore]
            ++ ShowPatcherDialog x
            ++ (PumpMessages hs x env.dialog { s_taskbar := false } env.msg₀ env.pump).trace
            ++ (if (PumpMessages hs x env.dialog { s_taskbar := false } env.msg₀
                      env.pump).result.isSome
                then [Event.ReleaseMutex env.onePatcherMut, Event.CloseHandle env.onePatcherMut]
                else []),
          result := (PumpMessages hs x env.dialog { s_taskbar := false } env.msg₀
                      env.pump).result.map (fun _ => PLASMA_OK) } := by
  unfold WinMain
  simp only [WinMain_not_stale x env hstale, hini, hrun]
  cases hp : (PumpMessages hs x env.dialog { s_taskbar := false } env.msg₀ env.pump).result <;>
    simp [startupCalls, IsPatcherRunning, CreatePatcherMutex, hp]

/-- The cancel click in the dialog procedure: the button is disabled, the
text changed, and `WM_QUIT` with exit code 0 posted. -/
theorem PatcherDialogProc_cancel (env : DialogEnv) (g : Globals) (w l : Nat)
    (hclick : HIWORD w = BN_CLICKED ∧ LOWORD w = IDCANCEL) :
    ∃ t, (PatcherDialogProc env g WM_COMMAND w l).2.2
      = t ++ [Event.EnableWindow DlgItem.IDCANCEL false,
              Event.SetWindowTextW DlgItem.IDC_TEXT "Shutting Down...",
              Event.PostMessageW HWND.dialog WM_QUIT 0 0] := by
  unfold PatcherDialogProc
  by_cases ht : WM_COMMAND = env.s_taskbarCreated
  · refine ⟨(if g.s_taskbar then [Event.TaskbarRelease] else []) ++ [Event.CoCreateInstance], ?_⟩
    simp [ht, hclick, IQuit, PLASMA_OK]
  · refine ⟨[], ?_⟩
    simp [ht, hclick, IQuit, PLASMA_OK]

/-- The exit after a cancel click when the quit message is the last message
of its turn: a cancel click handed to `PatcherDialogProc` posts `WM_QUIT` with
exit code 0 (after disabling the button and changing the text); at the turn
of the pump whose last retrieved message is `WM_QUIT`, `PumpMessages` returns
at the end of that turn, after the one poll of the net core that follows the
drain, whatever the state at the start of the turn; in a whole run it has
returned by then; and `WinMain` returns 0.  The polls of the net core up to
that turn are taken to return. -/
theorem cancel_click_leads_to_exit (hs : HeadSpin) (x : Externals) (env : WinMainEnv)
    (pre : List PumpIteration) (it : PumpIteration) (post : List PumpIteration) (p : Peeked)
    (w l : Nat) (hclick : HIWORD w = BN_CLICKED ∧ LOWORD w = IDCANCEL)
    (hstale : env.stale = false) (hini : env.loadServerIni = true)
    (hrun : (IsPatcherRunning x env.probe).1 = false)
    (hpump : env.pump = pre ++ it :: post)
    (hlast : it.peeked.getLast? = some p) (hquit : p.msg.message = WM_QUIT)
    (hpolls : ∀ t ∈ pre ++ [it], ∀ g, (PumpNetCore hs x g t.netcore).result = some ()) :
    (∀ g, ∃ t, (PatcherDialogProc env.dialog g WM_COMMAND w l).2.2
        = t ++ [Event.EnableWindow DlgItem.IDCANCEL false,
                Event.SetWindowTextW DlgItem.IDC_TEXT "Shutting Down...",
                Event.PostMessageW HWND.dialog WM_QUIT 0 0])
    ∧ (∀ g msg, PumpMessages hs x env.dialog g msg (it :: post)
        = { trace := (drain env.dialog g msg it.peeked).2.2
              ++ [Event.launcher LauncherCall.PumpNetCore]
              ++ (PumpNetCore hs x (drain env.dialog g msg it.peeked).1 it.netcore).trace,
            result := some (drain env.dialog g msg it.peeked).1 })
    ∧ (∃ j g', j ≤ pre.length
        ∧ (PumpMessages hs x env.dialog { s_taskbar := false } env.msg₀ env.pump).result = some g'
        ∧ PumpMessages hs x env.dialog { s_taskbar := false } env.msg₀ (env.pump.take (j + 1))
            = PumpMessages hs x env.dialog { s_taskbar := false } env.msg₀ env.pump)
    ∧ (WinMain hs x env).result = some 0 := by
  have hexit := PumpMessages_exits_by hs x env.dialog pre it post p hlast hquit hpolls
    { s_taskbar := false } env.msg₀
  rw [← hpump] at hexit
  refine ⟨fun g => PatcherDialogProc_cancel env.dialog g w l hclick, ?_, hexit, ?_⟩
  · intro g msg
    exact PumpMessages_quit_turn hs x env.dialog g msg it post p hlast hquit
      (hpolls it (by simp) _)
  · obtain ⟨j, g', _, hres, _⟩ := hexit
    rw [WinMain_pumping hs x env hstale hini hrun]
    simp [hres, PLASMA_OK]

/-- The exit after a cancel click, at a run in which cancel is clicked in the
second turn and the third turn ends with `WM_QUIT`. -/
theorem cancel_click_leads_to_exit_witness :
    (WinMain ⟨true⟩ sampleExternals cancelRun).result = some 0 :=
  (cancel_click_leads_to_exit ⟨true⟩ sampleExternals cancelRun
    [ { peeked := [otherMessage], netcore := [NetCall.status "Checking for updates..."] },
      { peeked := [cancelClick], netcore := [] } ]
    { peeked :=
        [ { msg := { hwnd := HWND.dialog, message := WM_QUIT, wParam := PLASMA_OK, lParam := 0 },
            isDialogMessage := true,
            delivered := [(WM_QUIT, PLASMA_OK, 0), (WM_DESTROY, 0, 0)] },
          quitMessage ],
      netcore := [] }
    [ { peeked := [otherMessage], netcore := [] } ]
    quitMessage IDCANCEL 0 (by decide) rfl rfl (by decide) rfl rfl rfl
    (by
      intro t ht g
      simp only [List.cons_append, List.nil_append, List.mem_cons, List.mem_singleton,
        List.not_mem_nil, or_false] at ht
      rcases ht with rfl | rfl | rfl <;> rfl)).2.2.2

/-- The exits of the pump when `msg` does not hold `WM_QUIT` before the first
turn: `PumpMessages` is still running after every turn at whose end the last
message retrieved from the queue is not `WM_QUIT`; and when it returns, it
returns at the end of the first turn at whose end the last message retrieved
is `WM_QUIT`: the later turns are not run, and it has not returned before. -/
theorem PumpMessages_returns_only_on_quit (hs : HeadSpin) (x : Externals) (env : DialogEnv)
    (g : Globals) (msg₀ : MSG) (its : List PumpIteration) (h₀ : msg₀.message ≠ WM_QUIT) :
    ((∀ j, j < its.length → ¬ QuitIsLast (its.take (j + 1))) →
        (PumpMessages hs x env g msg₀ its).result = none)
    ∧ ∀ g', (PumpMessages hs x env g msg₀ its).result = some g' →
        ∃ k, k < its.length
          ∧ QuitIsLast (its.take (k + 1))
          ∧ (∀ j, j < k → ¬ QuitIsLast (its.take (j + 1)))
          ∧ PumpMessages hs x env g msg₀ (its.take (k + 1)) = PumpMessages hs x env g msg₀ its
          ∧ (PumpMessages hs x env g msg₀ (its.take k)).result = none := by
  have h := PumpMessages_turns hs x env its g msg₀
  constructor
  · intro hall
    apply h.1
    intro j hj hq
    exact hall j hj ((quit_after_iff msg₀ _ h₀).1 hq)
  · intro g' hret
    obtain ⟨k, hk, hq, hbefore, heq, hnone⟩ := h.2 g' hret
    refine ⟨k, hk, (quit_after_iff msg₀ _ h₀).1 hq, ?_, heq, hnone⟩
    intro j hj hq'
    exact hbefore j hj ((quit_after_iff msg₀ _ h₀).2 hq')

/-- The pump of the cancel run returns, so some turn of it ends with `WM_QUIT`
as the last message retrieved. -/
theorem PumpMessages_returns_only_on_quit_witness :
    ∃ k, k < 4 ∧ QuitIsLast (cancelRun.pump.take (k + 1)) := by
  obtain ⟨k, hk, hq, _⟩ := (PumpMessages_returns_only_on_quit ⟨true⟩ sampleExternals sampleDialog
    ⟨false⟩ cancelRun.msg₀ cancelRun.pump (by decide)).2 ⟨false⟩ (by decide)
  exact ⟨k, hk, hq⟩

/-- The local `msg` is read by the loop test even when no message was ever
retrieved: if its content before the first turn happens to hold `WM_QUIT` and
the first drain finds the queue empty, `PumpMessages` returns after the first
turn. -/
theorem PumpMessages_stale_msg (hs : HeadSpin) (x : Externals) (env : DialogEnv) (g : Globals)
    (msg₀ : MSG) (it : PumpIteration) (post : List PumpIteration)
    (h₀ : msg₀.message = WM_QUIT) (hempty : it.peeked = [])
    (hpoll : (PumpNetCore hs x g it.netcore).result = some ()) :
    (PumpMessages hs x env g msg₀ (it :: post)).result = some g := by
  rw [PumpMessages_cons]
  simp [hempty, drain, lastMessage, h₀, hpoll]

/-! ### The single-instance mutex -/

/-- C17: two different callers, neither of which owns the mutex beforehand,
each with a valid handle of it, run the probe and the acquisition one after
the other with no release in between.  The second caller always observes
"already running"; the first observes "not running" exactly when the mutex
was free, and then it owns the mutex, also after the probe of the second.  So
at most one of the two observes "not running". -/
theorem second_caller_sees_running (x : Externals) (m : MutexState) (a b : Nat)
    (h₁ l₁ h₂ l₂ : HANDLE) (hab : a ≠ b) (ha : m.heldBy a = false) (hb : m.heldBy b = false)
    (hh₁ : h₁ ≠ 0) (hh₂ : h₂ ≠ 0) :
    (probeAndAcquire x h₂ l₂ b (probeAndAcquire x h₁ l₁ a m).2.2).1 = true
    ∧ ((probeAndAcquire x h₁ l₁ a m).1 = false ↔ m = MutexState.free)
    ∧ ((probeAndAcquire x h₁ l₁ a m).1 = false →
        (probeAndAcquire x h₁ l₁ a m).2.2.heldBy a = true
        ∧ (probeAndAcquire x h₂ l₂ b (probeAndAcquire x h₁ l₁ a m).2.2).2.2.heldBy a = true) := by
  have hba : ¬ b = a := fun h => hab h.symm
  cases m with
  | free =>
    simp [probeAndAcquire, IsPatcherRunning, CreatePatcherMutex, probeEnv, probeState,
      MutexState.tryWait, MutexState.heldBy, WAIT_OBJECT_0, WAIT_FAILED, WAIT_TIMEOUT,
      WAIT_ABANDONED, hh₁, hh₂, hab, hba]
  | abandoned =>
    simp [probeAndAcquire, IsPatcherRunning, CreatePatcherMutex, probeEnv, probeState,
      MutexState.tryWait, MutexState.heldBy, WAIT_OBJECT_0, WAIT_FAILED, WAIT_TIMEOUT,
      WAIT_ABANDONED, hh₁, hh₂, hab, hba]
  | owned o n =>
    have hoa : ¬ o = a := by simpa [MutexState.heldBy] using ha
    have hob : ¬ o = b := by simpa [MutexState.heldBy] using hb
    simp [probeAndAcquire, IsPatcherRunning, CreatePatcherMutex, probeEnv, probeState,
      MutexState.tryWait, MutexState.heldBy, WAIT_OBJECT_0, WAIT_FAILED, WAIT_TIMEOUT,
      WAIT_ABANDONED, hh₁, hh₂, hab, hba, hoa, hob]

/-- C17, at a free mutex and the callers 1 and 2. -/
theorem second_caller_sees_running_witness :
    (probeAndAcquire sampleExternals 301 302 1 MutexState.free).1 = false
    ∧ (probeAndAcquire sampleExternals 311 312 2
        (probeAndAcquire sampleExternals 301 302 1 MutexState.free).2.2).1 = true :=
  have h := second_caller_sees_running sampleExternals MutexState.free 1 2 301 302 311 312
    (by decide) rfl rfl (by decide) (by decide)
  ⟨h.2.1.2 rfl, h.1⟩

/-- C18: `WaitForOldPatcher` creates the mutex handle and makes exactly one
wait, on that handle, without timeout: no loop, no other call.  With a valid
handle it returns exactly when that wait returns: at once when no other
caller owns the mutex, and, while another caller owns it, only if that owner
lets go of it; as long as the owner holds on, it does not return. -/
theorem WaitForOldPatcher_blocks (x : Externals) (handle : HANDLE) (caller : Nat)
    (holderLetsGo : Bool) (m : MutexState) (hvalid : handle ≠ 0) :
    (WaitForOldPatcher x (oldPatcherEnv handle caller holderLetsGo m)).trace
        = [Event.CreateMutexW x.PatcherExecutable, Event.WaitForSingleObject handle INFINITE]
    ∧ (WaitForOldPatcher x (oldPatcherEnv handle caller holderLetsGo m)).trace.countP Event.isWait
        = 1
    ∧ ((WaitForOldPatcher x (oldPatcherEnv handle caller holderLetsGo m)).result = some ()
        ↔ (m.heldByOther caller = false ∨ holderLetsGo = true))
    ∧ (m.heldByOther caller = true → holderLetsGo = false →
        (WaitForOldPatcher x (oldPatcherEnv handle caller holderLetsGo m)).result = none) := by
  refine ⟨rfl, ?_, ?_, ?_⟩
  · simp [WaitForOldPatcher, CreatePatcherMutex, oldPatcherEnv, Event.isWait, List.countP_cons]
  · cases hm : m.heldByOther caller <;> cases holderLetsGo <;>
      simp [WaitForOldPatcher, oldPatcherEnv, MutexState.waitReturns, hvalid, hm]
  · intro hm hl
    simp [WaitForOldPatcher, oldPatcherEnv, MutexState.waitReturns, hvalid, hm, hl]

/-- C18, at a mutex owned by the old patcher (caller 7), which never lets go:
the new patcher (caller 1) does not return. -/
theorem WaitForOldPatcher_blocks_witness :
    (WaitForOldPatcher sampleExternals
        (oldPatcherEnv 300 1 false (MutexState.owned 7 1))).result = none :=
  (WaitForOldPatcher_blocks sampleExternals 300 1 false (MutexState.owned 7 1) (by decide)).2.2.2
    rfl rfl

/-! ### Who owns the mutex when `WinMain` returns -/

theorem replayMutex_append (self : Nat) (isMutex : HANDLE → Bool) (t₁ t₂ : List Event)
    (m : MutexState) :
    replayMutex self isMutex (t₁ ++ t₂) m
      = replayMutex self isMutex t₂ (replayMutex self isMutex t₁ m) := by
  simp [replayMutex, List.foldl_append]

theorem mutexStep_off (self : Nat) (isMutex : HANDLE → Bool) (m : MutexState) (e : Event)
    (h : e.onMutex isMutex = false) : mutexStep self isMutex m e = m := by
  cases e <;> simp_all [mutexStep, Event.onMutex]

theorem replayMutex_off (self : Nat) (isMutex : HANDLE → Bool) (t : List Event)
    (m : MutexState) (h : ∀ e ∈ t, e.onMutex isMutex = false) :
    replayMutex self isMutex t m = m := by
  induction t generalizing m with
  | nil => rfl
  | cons e es ih =>
    simp only [replayMutex, List.foldl_cons]
    rw [mutexStep_off self isMutex m e (h e (by simp))]
    exact ih m (fun e' he' => h e' (by simp [he']))

theorem ICreateProcess_off (isMutex : HANDLE → Bool) (hs : HeadSpin) (env : SpawnEnv)
    (exe args : String) : ∀ e ∈ (ICreateProcess hs env exe args).2, e.onMutex isMutex = false := by
  unfold ICreateProcess
  cases hc : env.createProcess with
  | started hProcess hThread => simp [Event.onMutex]
  | failed lastError =>
    by_cases hl : lastError = ERROR_ELEVATION_REQUIRED
    · cases ha : hs.assertEvaluates <;> cases hok : env.shellExecuteOk <;>
        simp [hl, Event.onMutex]
    · simp [hl, Event.onMutex]

theorem ISetDownloadStatus_off (isMutex : HANDLE → Bool) (g : Globals) (status : String) :
    ∀ e ∈ ISetDownloadStatus g status, e.onMutex isMutex = false := by
  cases hg : g.s_taskbar <;> simp [ISetDownloadStatus, IShowMarquee, hg, Event.onMutex]

theorem IInstallRedist_off (isMutex : HANDLE → Bool) (hs : HeadSpin) (g : Globals)
    (env : SpawnEnv) (exe : String)
    (hp : isMutex (ICreateProcess hs env exe (redistArgs exe)).1 = false) :
    ∀ e ∈ (IInstallRedist hs g env exe).trace, e.onMutex isMutex = false := by
  have h1 := ISetDownloadStatus_off isMutex g ("Installing... " ++ exe)
  have h2 := ICreateProcess_off isMutex hs env exe (redistArgs exe)
  unfold IInstallRedist
  by_cases hz : (ICreateProcess hs env exe (redistArgs exe)).1 = 0
  · simp only [hz, ne_eq, not_true_eq_false, if_false, List.forall_mem_append]
    exact ⟨⟨h1, by simp [Event.onMutex]⟩, h2⟩
  · cases hx : env.exits <;> cases ha : hs.assertEvaluates <;>
      cases hcode : env.exitCode.isSome <;>
      simp only [hz, ne_eq, not_false_eq_true, if_true, if_false,
        List.forall_mem_append, Bool.false_eq_true] <;>
      simp [Event.onMutex, hp] <;>
      exact ⟨h1, h2⟩

theorem ILaunchClientExecutable_off (isMutex : HANDLE → Bool) (hs : HeadSpin) (x : Externals)
    (g : Globals) (env : LaunchEnv) (exe args : String) (hp : isMutex env.hEvent = false) :
    ∀ e ∈ (ILaunchClientExecutable hs x g env exe args).trace, e.onMutex isMutex = false := by
  have h2 := ICreateProcess_off isMutex hs env.spawn exe args
  by_cases hne : plString.IsEmpty exe = false
  · by_cases hcl : IsClientExecutable x exe
    · rw [ILaunchClientExecutable_client hs x g env exe args hne hcl]
      cases hg : g.s_taskbar <;> cases hsig : env.eventSignalled <;>
        simp only [List.forall_mem_append, if_true, if_false, Bool.false_eq_true] <;>
        simp [Event.onMutex, hp] <;>
        exact h2
    · rw [ILaunchClientExecutable_other hs x g env exe args hne hcl]
      cases hg : g.s_taskbar <;>
        simp only [List.forall_mem_append, if_true, if_false, Bool.false_eq_true] <;>
        simp [Event.onMutex] <;>
        exact h2
  · have hne' : plString.IsEmpty exe = true := by simpa using hne
    cases hg : g.s_taskbar <;>
      simp [ILaunchClientExecutable, hne', IQuit, hg, Event.onMutex]

theorem netCall_off (isMutex : HANDLE → Bool) (hs : HeadSpin) (x : Externals) (g : Globals)
    (c : NetCall) (hc : ∀ h ∈ c.waited hs, isMutex h = false) :
    ∀ e ∈ (netCall hs x g c).trace, e.onMutex isMutex = false := by
  cases c with
  | error result msg =>
    cases hg : g.s_taskbar <;> simp [netCall, IOnNetError, IQuit, hg, Event.onMutex]
  | status status => exact ISetDownloadStatus_off isMutex g status
  | shard status => simp [netCall, ISetShardStatus, Event.onMutex]
  | install exe env =>
    exact IInstallRedist_off isMutex hs g env exe (hc _ (by simp [NetCall.waited]))
  | launch exe args env =>
    exact ILaunchClientExecutable_off isMutex hs x g env exe args
      (hc _ (by simp [NetCall.waited]))

theorem PumpNetCore_off (isMutex : HANDLE → Bool) (hs : HeadSpin) (x : Externals) (g : Globals)
    (cs : List NetCall) (hc : ∀ c ∈ cs, ∀ h ∈ c.waited hs, isMutex h = false) :
    ∀ e ∈ (PumpNetCore hs x g cs).trace, e.onMutex isMutex = false := by
  induction cs with
  | nil => simp [PumpNetCore]
  | cons c cs ih =>
    have hhead := netCall_off isMutex hs x g c (hc c (by simp))
    have htail := ih (fun c' hc' => hc c' (by simp [hc']))
    unfold PumpNetCore
    cases hr : (netCall hs x g c).result with
    | none => simpa [hr] using hhead
    | some u =>
      simp only [hr, List.forall_mem_append]
      exact ⟨hhead, htail⟩

theorem PatcherDialogProc_off (isMutex : HANDLE → Bool) (env : DialogEnv) (g : Globals)
    (uMsg wParam lParam : Nat) :
    ∀ e ∈ (PatcherDialogProc env g uMsg wParam lParam).2.2, e.onMutex isMutex = false := by
  unfold PatcherDialogProc
  by_cases ht : uMsg = env.s_taskbarCreated <;> cases hg : g.s_taskbar <;>
    cases hco : env.coCreateOk <;>
    simp only [ht, hg, hco, if_true, if_false] <;>
    split_ifs <;> simp [IQuit, Event.onMutex]

theorem deliver_off (isMutex : HANDLE → Bool) (env : DialogEnv) (g : Globals)
    (calls : List (Nat × Nat × Nat)) :
    ∀ e ∈ (deliver env g calls).2, e.onMutex isMutex = false := by
  induction calls generalizing g with
  | nil => simp [deliver]
  | cons c cs ih =>
    obtain ⟨uMsg, wParam, lParam⟩ := c
    simp only [deliver, List.forall_mem_append]
    exact ⟨PatcherDialogProc_off isMutex env g uMsg wParam lParam, ih _⟩

theorem drain_off (isMutex : HANDLE → Bool) (env : DialogEnv) (g : Globals) (msg : MSG)
    (ps : List Peeked) :
    ∀ e ∈ (drain env g msg ps).2.2, e.onMutex isMutex = false := by
  induction ps generalizing g msg with
  | nil => simp [drain, Event.onMutex]
  | cons p ps ih =>
    have hd := deliver_off isMutex env g p.delivered
    simp only [drain, dispatch, List.forall_mem_append]
    refine ⟨⟨by simp [Event.onMutex], ?_⟩, ih _ _⟩
    cases p.isDialogMessage <;> simp [Event.onMutex] <;> exact hd

theorem PumpMessages_off (isMutex : HANDLE → Bool) (hs : HeadSpin) (x : Externals)
    (env : DialogEnv) (its : List PumpIteration)
    (hc : ∀ it ∈ its, ∀ c ∈ it.netcore, ∀ h ∈ c.waited hs, isMutex h = false) :
    ∀ (g : Globals) (msg : MSG),
      ∀ e ∈ (PumpMessages hs x env g msg its).trace, e.onMutex isMutex = false := by
  induction its with
  | nil => intro g msg; simp [PumpMessages]
  | cons it its ih =>
    intro g msg
    have hd := drain_off isMutex env g msg it.peeked
    have hn := PumpNetCore_off isMutex hs x (drain env g msg it.peeked).1 it.netcore
      (hc it (by simp))
    have hrest := ih (fun it' hit' => hc it' (by simp [hit']))
      (drain env g msg it.peeked).1 (lastMessage msg it.peeked)
    rw [PumpMessages_cons]
    cases hr : (PumpNetCore hs x (drain env g msg it.peeked).1 it.netcore).result with
    | none =>
      simp only [List.forall_mem_append]
      exact ⟨⟨hd, by simp [Event.onMutex]⟩, hn⟩
    | some u =>
      by_cases h0 : (lastMessage msg it.peeked).message = WM_QUIT
      · simp only [h0, ne_eq, not_true_eq_false, if_false, List.forall_mem_append]
        exact ⟨⟨hd, by simp [Event.onMutex]⟩, hn⟩
      · simp only [h0, ne_eq, not_false_eq_true, if_true, List.forall_mem_append]
        exact ⟨⟨⟨hd, by simp [Event.onMutex]⟩, hn⟩, hrest⟩

theorem WinMain_no_ini (hs : HeadSpin) (x : Externals) (env : WinMainEnv)
    (hstale : env.stale = false) (hini : env.loadServerIni = false) :
    WinMain hs x env
      = { trace := startupCalls ++ [Event.launcher LauncherCall.LoadServerIni,
            Event.hsMessageBox "No server.ini file found.  Please check your URU installation."
              "Error"],
          result := some PLASMA_PHAILURE } := by
  unfold WinMain
  simp [WinMain_not_stale x env hstale, hini, startupCalls]

theorem WinMain_probed_running (hs : HeadSpin) (x : Externals) (env : WinMainEnv)
    (hstale : env.stale = false) (hini : env.loadServerIni = true)
    (hrun : (IsPatcherRunning x env.probe).1 = true) :
    WinMain hs x env
      = { trace := startupCalls ++ [Event.launcher LauncherCall.LoadServerIni,
            Event.CreateMutexW x.PatcherExecutable,
            Event.WaitForSingleObject env.probe.handle 0,
            Event.hsMessageBox (x.LongName ++ " is already running") "Error"],
          result := some PLASMA_OK } := by
  unfold WinMain
  simp only [WinMain_not_stale x env hstale, hini, hrun]
  simp [startupCalls, IsPatcherRunning, CreatePatcherMutex]

theorem replayMutex_startup (self : Nat) (isMutex : HANDLE → Bool) (m : MutexState) :
    replayMutex self isMutex startupCalls m = m := by
  apply replayMutex_off
  simp [startupCalls, Event.onMutex]

theorem ShowPatcherDialog_off (isMutex : HANDLE → Bool) (x : Externals) :
    ∀ e ∈ ShowPatcherDialog x, e.onMutex isMutex = false := by
  simp [ShowPatcherDialog, IShowMarquee, Event.onMutex]

/-- Without self-patch, and when the probe did not find the mutex abandoned,
the caller does not own the patcher mutex when `WinMain` returns, and the
mutex is in the state it was found in: nothing touched it (no `server.ini`),
or the probe timed out (already running), or the acquisition made by the wait
of the probe is undone by the `ReleaseMutex` after the pump.  The handles the
callbacks of the pump wait on are not handles of the mutex. -/
theorem WinMain_releases_mutex (hs : HeadSpin) (x : Externals) (env : WinMainEnv) (self : Nat)
    (isMutex : HANDLE → Bool) (m₀ : MutexState) (c : Nat)
    (hstale : env.stale = false)
    (hanswer : env.probe.waitResult = (m₀.tryWait self).1)
    (hfresh : m₀.heldBy self = false) (hnotab : m₀ ≠ MutexState.abandoned)
    (hprobe : isMutex env.probe.handle = true) (hlock : isMutex env.onePatcherMut = true)
    (hpump : ∀ it ∈ env.pump, ∀ c ∈ it.netcore, ∀ h ∈ c.waited hs, isMutex h = false)
    (hret : (WinMain hs x env).result = some c) :
    replayMutex self isMutex (WinMain hs x env).trace m₀ = m₀
    ∧ (replayMutex self isMutex (WinMain hs x env).trace m₀).heldBy self = false := by
  have key : replayMutex self isMutex (WinMain hs x env).trace m₀ = m₀ := by
    cases hini : env.loadServerIni with
    | false =>
      rw [WinMain_no_ini hs x env hstale hini]
      apply replayMutex_off
      simp [startupCalls, Event.onMutex]
    | true =>
      cases m₀ with
      | abandoned => exact absurd rfl hnotab
      | owned o n =>
        have hos : ¬ o = self := by simpa [MutexState.heldBy] using hfresh
        have hrun : (IsPatcherRunning x env.probe).1 = true := by
          simp [IsPatcherRunning, hanswer, MutexState.tryWait, hos, WAIT_TIMEOUT, WAIT_OBJECT_0]
        rw [WinMain_probed_running hs x env hstale hini hrun]
        rw [replayMutex_append, replayMutex_startup]
        simp [replayMutex, mutexStep, hprobe, MutexState.tryWait, hos]
      | free =>
        have hrun : (IsPatcherRunning x env.probe).1 = false := by
          simp [IsPatcherRunning, hanswer, MutexState.tryWait]
        have hpumped := PumpMessages_off isMutex hs x env.dialog env.pump hpump
          { s_taskbar := false } env.msg₀
        rw [WinMain_pumping hs x env hstale hini hrun] at hret ⊢
        cases hp : (PumpMessages hs x env.dialog { s_taskbar := false } env.msg₀
            env.pump).result with
        | none => simp [hp] at hret
        | some g' =>
          simp only [hp, Option.isSome_some, if_true]
          rw [replayMutex_append, replayMutex_append, replayMutex_append, replayMutex_append,
            replayMutex_startup,
            replayMutex_off self isMutex (ShowPatcherDialog x) _ (ShowPatcherDialog_off isMutex x),
            replayMutex_off self isMutex _ _ hpumped]
          simp [replayMutex, mutexStep, hprobe, hlock, MutexState.tryWait, MutexState.release]
  rw [key]
  exact ⟨rfl, hfresh⟩

/-- The lemma above, at the cancel run on a free mutex. -/
theorem WinMain_releases_mutex_example :
    replayMutex 1 sampleIsMutex (WinMain ⟨true⟩ sampleExternals cancelRunOnMutex).trace
        MutexState.free = MutexState.free :=
  (WinMain_releases_mutex ⟨true⟩ sampleExternals cancelRunOnMutex 1 sampleIsMutex MutexState.free
    0 rfl rfl rfl (by decide) rfl rfl
    (by
      intro it hit c hc h hh
      simp [cancelRunOnMutex, cancelRun] at hit
      rcases hit with rfl | rfl | rfl | rfl <;> simp at hc
      subst hc
      simp [NetCall.waited] at hh)
    (by decide)).1

/-- C13 fails on the code, on two of the paths it names.  Already running:
the mutex is abandoned, the wait of the probe answers `WAIT_ABANDONED` and
gives the caller (1) the mutex, `IsPatcherRunning` answers "running", and
`WinMain` returns 0 with the mutex owned and no `ReleaseMutex` made.
Self-patch exit: `WaitForOldPatcher` waits until the old patcher (7) lets go,
which gives the caller the mutex, and `WinMain` returns 0 with the mutex
owned and no `ReleaseMutex` made. -/
theorem WinMain_returns_owning_mutex :
    ((WinMain ⟨true⟩ sampleExternals abandonedRun).result = some 0
      ∧ (replayMutex 1 sampleIsMutex (WinMain ⟨true⟩ sampleExternals abandonedRun).trace
          MutexState.abandoned).heldBy 1 = true
      ∧ (WinMain ⟨true⟩ sampleExternals abandonedRun).trace.countP Event.isRelease = 0)
    ∧ ((WinMain ⟨true⟩ sampleExternals selfPatchRunOnMutex).result = some 0
      ∧ (replayMutex 1 sampleIsMutex (WinMain ⟨true⟩ sampleExternals selfPatchRunOnMutex).trace
          (MutexState.owned 7 1)).heldBy 1 = true
      ∧ (WinMain ⟨true⟩ sampleExternals selfPatchRunOnMutex).trace.countP Event.isRelease
          = 0) := by
  refine ⟨⟨?_, ?_, ?_⟩, ⟨?_, ?_, ?_⟩⟩ <;> decide

/-! ## The progress bar -/

/-- More fuel does not change what the scaling loop returns. -/
theorem scaleLoop_mono (fuel : Nat) : ∀ (t c : Nat) (r : Nat × Nat),
    scaleLoop fuel t c = some r → scaleLoop (fuel + 1) t c = some r := by
  induction fuel with
  | zero => intro t c r h; simp [scaleLoop] at h
  | succ n ih =>
    intro t c r h
    rw [scaleLoop] at h ⊢
    by_cases ht : t > INT32_MAX
    · simp only [ht, if_true] at h ⊢
      exact ih _ _ _ h
    · simp only [ht, if_false] at h ⊢
      exact h

/-- Any amount of extra fuel leaves the result of the scaling loop as it is. -/
theorem scaleLoop_add (fuel extra : Nat) (t c : Nat) (r : Nat × Nat)
    (h : scaleLoop fuel t c = some r) : scaleLoop (fuel + extra) t c = some r := by
  induction extra with
  | zero => exact h
  | succ n ih => exact scaleLoop_mono _ _ _ _ ih

/-- A value up to `INT32_MAX` survives the cast to `int32_t`. -/
theorem castInt32_small (x : Nat) (h : x ≤ INT32_MAX) : castInt32 x = (x : Int) := by
  unfold INT32_MAX at h
  unfold castInt32
  have h1 : x % 2 ^ 32 = x := Nat.mod_eq_of_lt (by omega)
  rw [h1]
  have h2 : x < 2 ^ 31 := by omega
  rw [if_pos h2]

/-- A value up to `INT32_MAX` reaches the message parameter unchanged. -/
theorem asParam_small (x : Nat) (h : x ≤ INT32_MAX) : asParam (castInt32 x) = x := by
  rw [castInt32_small x h]
  unfold INT32_MAX at h
  unfold asParam
  have h1 : ((x : Int) % 2 ^ 64) = (x : Int) := Int.emod_eq_of_lt (by omega) (by omega)
  rw [h1]; simp

/-- The scaling loop leaves after exactly `k` divisions when `k` is the first
exponent at which the total fits. -/
theorem scaleLoop_exact (k : Nat) : ∀ (t c : Nat),
    (∀ j, j < k → INT32_MAX < t / 1024 ^ j) → t / 1024 ^ k ≤ INT32_MAX →
    scaleLoop (k + 1) t c = some (t / 1024 ^ k, c / 1024 ^ k) := by
  induction k with
  | zero =>
    intro t c _ h
    have h0 : ¬ t > INT32_MAX := by simpa using h
    simp [scaleLoop, h0]
  | succ n ih =>
    intro t c hlt hle
    have h0 : t > INT32_MAX := by simpa using hlt 0 (Nat.succ_pos n)
    rw [scaleLoop, if_pos h0]
    have e : ∀ (x j : Nat), x / 1024 / 1024 ^ j = x / 1024 ^ (j + 1) := by
      intro x j; rw [Nat.div_div_eq_div_mul, pow_succ']
    rw [ih (t / 1024) (c / 1024) (fun j hj => by rw [e]; exact hlt (j + 1) (by omega))
      (by rw [e]; exact hle), e, e]

/-- A 64-bit total fits after four divisions by 1024. -/
theorem total_fits_at_four (t : Nat) (h64 : t < 2 ^ 64) : t / 1024 ^ 4 ≤ INT32_MAX := by
  unfold INT32_MAX
  have : t / 1024 ^ 4 < 2 ^ 24 := by
    rw [Nat.div_lt_iff_lt_mul (by norm_num)]
    calc t < 2 ^ 64 := h64
      _ = 2 ^ 24 * 1024 ^ 4 := by norm_num
  omega

/-- C21: for 64-bit byte counts with `curBytes ≤ totalBytes`, the scaling loop
of `IOnProgressTick` ends after `k ≤ 4` divisions by 1024, where `k` is the
least exponent with `totalBytes / 1024 ^ k ≤ INT32_MAX`; it yields
`totalBytes / 1024 ^ k` and `curBytes / 1024 ^ k`, these satisfy
`cur ≤ total ≤ INT32_MAX`, both casts to `int32_t` keep the value, and the two
messages posted to the progress bar carry exactly these numbers. -/
theorem IOnProgressTick_scaling (g : Globals) (ConvertFileSize : Nat → String)
    (status : String) (curBytes totalBytes : Nat)
    (hle : curBytes ≤ totalBytes) (h64 : totalBytes < 2 ^ 64) :
    ∃ k, k ≤ 4
      ∧ (∀ j, j < k → INT32_MAX < totalBytes / 1024 ^ j)
      ∧ scaleLoop (k + 1) totalBytes curBytes
          = some (totalBytes / 1024 ^ k, curBytes / 1024 ^ k)
      ∧ curBytes / 1024 ^ k ≤ totalBytes / 1024 ^ k
      ∧ totalBytes / 1024 ^ k ≤ INT32_MAX
      ∧ castInt32 (totalBytes / 1024 ^ k) = ((totalBytes / 1024 ^ k : Nat) : Int)
      ∧ castInt32 (curBytes / 1024 ^ k) = ((curBytes / 1024 ^ k : Nat) : Int)
      ∧ IOnProgressTick g ConvertFileSize curBytes totalBytes status
          = some (IShowMarquee false
              ++ [Event.SetDlgItemTextW DlgItem.IDC_DLSIZE
                    (ConvertFileSize curBytes ++ " / " ++ ConvertFileSize totalBytes),
                  Event.SetDlgItemTextW DlgItem.IDC_DLSPEED status]
              ++ (if g.s_taskbar then [Event.SetProgressValue curBytes totalBytes] else [])
              ++ [Event.PostMessageW (HWND.item DlgItem.IDC_PROGRESS) PBM_SETRANGE32 0
                 (totalBytes / 1024 ^ k),
               Event.PostMessageW (HWND.item DlgItem.IDC_PROGRESS) PBM_SETPOS
                 (curBytes / 1024 ^ k) 0]) := by
  have hex : ∃ k, totalBytes / 1024 ^ k ≤ INT32_MAX := ⟨4, total_fits_at_four _ h64⟩
  have hk4 : Nat.find hex ≤ 4 := Nat.find_min' hex (total_fits_at_four _ h64)
  have hfit : totalBytes / 1024 ^ Nat.find hex ≤ INT32_MAX := Nat.find_spec hex
  have hmin : ∀ j, j < Nat.find hex → INT32_MAX < totalBytes / 1024 ^ j :=
    fun j hj => Nat.lt_of_not_le (Nat.find_min hex hj)
  have hrun := scaleLoop_exact (Nat.find hex) totalBytes curBytes hmin hfit
  have hcur : curBytes / 1024 ^ Nat.find hex ≤ totalBytes / 1024 ^ Nat.find hex :=
    Nat.div_le_div_right hle
  refine ⟨Nat.find hex, hk4, hmin, hrun, hcur, hfit, castInt32_small _ hfit,
    castInt32_small _ (le_trans hcur hfit), ?_⟩
  have hfuel : scaleLoop scaleFuel totalBytes curBytes
      = some (totalBytes / 1024 ^ Nat.find hex, curBytes / 1024 ^ Nat.find hex) := by
    have h := scaleLoop_add (Nat.find hex + 1) (scaleFuel - (Nat.find hex + 1)) _ _ _ hrun
    have e : Nat.find hex + 1 + (scaleFuel - (Nat.find hex + 1)) = scaleFuel := by
      unfold scaleFuel; omega
    rwa [e] at h
  simp only [IOnProgressTick, hfuel, asParam_small _ hfit,
    asParam_small _ (le_trans hcur hfit)]

/-- C21 at a download of 5 TiB out of 6 TiB. -/
theorem IOnProgressTick_scaling_witness :
    (5497558138880 : Nat) ≤ 6597069766656 ∧ (6597069766656 : Nat) < 2 ^ 64
    ∧ ∃ k, k ≤ 4
      ∧ (∀ j, j < k → INT32_MAX < 6597069766656 / 1024 ^ j)
      ∧ scaleLoop (k + 1) 6597069766656 5497558138880
          = some (6597069766656 / 1024 ^ k, 5497558138880 / 1024 ^ k)
      ∧ 5497558138880 / 1024 ^ k ≤ 6597069766656 / 1024 ^ k
      ∧ 6597069766656 / 1024 ^ k ≤ INT32_MAX
      ∧ castInt32 (6597069766656 / 1024 ^ k) = ((6597069766656 / 1024 ^ k : Nat) : Int)
      ∧ castInt32 (5497558138880 / 1024 ^ k) = ((5497558138880 / 1024 ^ k : Nat) : Int)
      ∧ IOnProgressTick { s_taskbar := true } (fun n => toString n)
                5497558138880 6597069766656 "1 MiB/s"
          = some (IShowMarquee false
              ++ [Event.SetDlgItemTextW DlgItem.IDC_DLSIZE "5497558138880 / 6597069766656",
                  Event.SetDlgItemTextW DlgItem.IDC_DLSPEED "1 MiB/s"]
              ++ [Event.SetProgressValue 5497558138880 6597069766656]
              ++ [Event.PostMessageW (HWND.item DlgItem.IDC_PROGRESS) PBM_SETRANGE32 0
                 (6597069766656 / 1024 ^ k),
               Event.PostMessageW (HWND.item DlgItem.IDC_PROGRESS) PBM_SETPOS
                 (5497558138880 / 1024 ^ k) 0]) :=
  ⟨by decide, by decide,
    IOnProgressTick_scaling { s_taskbar := true } (fun n => toString n) "1 MiB/s"
      5497558138880 6597069766656 (by decide) (by decide)⟩

/-! ## The screenshot index -/

/-- Membership in a set after `insert`. -/
theorem mem_setInsert (x y : Nat) (l : List Nat) : y ∈ setInsert x l ↔ y = x ∨ y ∈ l := by
  induction l with
  | nil => simp [setInsert]
  | cons a as ih =>
    unfold setInsert
    by_cases h1 : x < a
    · simp [h1]
    · by_cases h2 : x = a
      · subst h2; simp
      · simp only [h1, h2, if_false, List.mem_cons, ih]
        constructor
        · rintro (h | h | h)
          · exact Or.inr (Or.inl h)
          · exact Or.inl h
          · exact Or.inr (Or.inr h)
        · rintro (h | h | h)
          · exact Or.inr (Or.inl h)
          · exact Or.inl h
          · exact Or.inr (Or.inr h)

/-- The set stays strictly ascending under `insert`. -/
theorem pairwise_setInsert (x : Nat) (l : List Nat) (h : l.Pairwise (· < ·)) :
    (setInsert x l).Pairwise (· < ·) := by
  induction l with
  | nil => simp [setInsert]
  | cons a as ih =>
    rw [List.pairwise_cons] at h
    unfold setInsert
    by_cases h1 : x < a
    · simp only [h1, if_true, List.pairwise_cons]
      refine ⟨?_, h.1, h.2⟩
      intro z hz
      rcases List.mem_cons.1 hz with rfl | hz
      · exact h1
      · exact lt_trans h1 (h.1 z hz)
    · by_cases h2 : x = a
      · subst h2
        simp only [lt_irrefl, if_false, if_true, List.pairwise_cons]
        exact ⟨h.1, h.2⟩
      · simp only [h1, h2, if_false, List.pairwise_cons]
        refine ⟨?_, ih h.2⟩
        intro z hz
        rcases (mem_setInsert x z as).1 hz with rfl | hz
        · omega
        · exact h.1 z hz

/-- What `indices` holds after the files are listed: the parsed values, in
strictly ascending order. -/
theorem collectIndices_spec (parsed : List Nat) :
    (collectIndices parsed).Pairwise (· < ·)
      ∧ ∀ y, y ∈ collectIndices parsed ↔ y ∈ parsed := by
  unfold collectIndices
  have key : ∀ (p acc : List Nat), acc.Pairwise (· < ·) →
      (p.foldl (fun indices idx => setInsert idx indices) acc).Pairwise (· < ·)
        ∧ ∀ y, y ∈ p.foldl (fun indices idx => setInsert idx indices) acc ↔ y ∈ acc ∨ y ∈ p := by
    intro p
    induction p with
    | nil => intro acc h; simp [h]
    | cons a as ih =>
      intro acc h
      rw [List.foldl_cons]
      obtain ⟨h1, h2⟩ := ih (setInsert a acc) (pairwise_setInsert a acc h)
      refine ⟨h1, fun y => ?_⟩
      rw [h2, mem_setInsert, List.mem_cons]
      constructor
      · rintro ((h | h) | h)
        · exact Or.inr (Or.inl h)
        · exact Or.inl h
        · exact Or.inr (Or.inr h)
      · rintro (h | h | h)
        · exact Or.inl (Or.inr h)
        · exact Or.inl (Or.inl h)
        · exact Or.inr h
  obtain ⟨h1, h2⟩ := key parsed [] List.Pairwise.nil
  exact ⟨h1, fun y => by simp [h2]⟩

/-- The scan from `num` over an ascending list of values from `num` on stops at
the first value from `num` on that the list does not hold. -/
theorem scanIndices_spec (l : List Nat) : ∀ (num : Nat),
    l.Pairwise (· < ·) → (∀ x ∈ l, num ≤ x) →
    (∃ n, num ≤ n ∧ n < 2 ^ 32 ∧ n ∉ l) →
    num ≤ scanIndices l num ∧ scanIndices l num ∉ l
      ∧ ∀ n, num ≤ n → n < scanIndices l num → n ∈ l := by
  induction l with
  | nil =>
    intro num _ _ _
    simp only [scanIndices]
    exact ⟨le_refl _, List.not_mem_nil _, fun n h1 h2 => absurd h1 (by omega)⟩
  | cons i rest ih =>
    intro num hs hge hfree
    rw [List.pairwise_cons] at hs
    unfold scanIndices
    by_cases hi : i = num
    · subst hi
      obtain ⟨n, hn1, hn2, hn3⟩ := hfree
      have hni : n ≠ i := fun e => hn3 (by simp [e])
      have hmod : (i + 1) % 2 ^ 32 = i + 1 := Nat.mod_eq_of_lt (by omega)
      simp only [ne_eq, not_true, if_false, hmod]
      obtain ⟨h1, h2, h3⟩ := ih (i + 1) hs.2 (fun x hx => hs.1 x hx)
        ⟨n, by omega, hn2, fun h => hn3 (List.mem_cons_of_mem _ h)⟩
      refine ⟨by omega, ?_, ?_⟩
      · intro h
        rcases List.mem_cons.1 h with h | h
        · omega
        · exact h2 h
      · intro m hm1 hm2
        by_cases hmi : m = i
        · simp [hmi]
        · exact List.mem_cons_of_mem _ (h3 m (by omega) hm2)
    · simp only [ne_eq, hi, not_false_eq_true, if_true]
      have hlt : num < i := lt_of_le_of_ne (hge i (by simp)) (Ne.symm hi)
      refine ⟨le_refl _, ?_, fun n h1 h2 => absurd h1 (by omega)⟩
      intro h
      rcases List.mem_cons.1 h with h | h
      · omega
      · have := hs.1 num h
        omega

/-- C24: the index `num` chosen for a new screenshot is the smallest natural
number that no existing screenshot file carries: it is not among the parsed
indices and every smaller number is.  In particular it is 0 when there is no
file and `n` when the files carry exactly the indices below `n`.  (The indices
are `uint32_t` values, and one such value is free.) -/
theorem screenshotIndex_is_least_free (parsed : List Nat)
    (hfree : ∃ n, n < 2 ^ 32 ∧ n ∉ parsed) :
    screenshotIndex parsed ∉ parsed
      ∧ (∀ n, n < screenshotIndex parsed → n ∈ parsed)
      ∧ (∀ n, n ∉ parsed → screenshotIndex parsed ≤ n)
      ∧ (parsed = [] → screenshotIndex parsed = 0)
      ∧ (∀ n, (∀ x, x ∈ parsed ↔ x < n) → screenshotIndex parsed = n) := by
  obtain ⟨hs, hm⟩ := collectIndices_spec parsed
  obtain ⟨n, hn1, hn2⟩ := hfree
  obtain ⟨_, h2, h3⟩ := scanIndices_spec (collectIndices parsed) 0 hs (fun x _ => Nat.zero_le x)
    ⟨n, Nat.zero_le n, hn1, fun h => hn2 ((hm n).1 h)⟩
  have a1 : screenshotIndex parsed ∉ parsed := fun h => h2 ((hm _).2 h)
  have a2 : ∀ n, n < screenshotIndex parsed → n ∈ parsed :=
    fun n h => (hm n).1 (h3 n (Nat.zero_le n) h)
  have a3 : ∀ n, n ∉ parsed → screenshotIndex parsed ≤ n :=
    fun n h => Nat.le_of_not_lt (fun hlt => h (a2 n hlt))
  refine ⟨a1, a2, a3, ?_, ?_⟩
  · intro he
    have := a3 0 (by simp [he])
    omega
  · intro m hmm
    have h1 : screenshotIndex parsed ≤ m := a3 m (fun h => absurd ((hmm m).1 h) (lt_irrefl m))
    have h2 : ¬ screenshotIndex parsed < m := fun h => a1 ((hmm _).2 h)
    omega

/-- C24 at the files with indices 2, 0, 1, 5 and 0 again: the index chosen
is 3. -/
theorem screenshotIndex_is_least_free_witness :
    (∃ n, n < 2 ^ 32 ∧ n ∉ [2, 0, 1, 5, 0])
    ∧ screenshotIndex [2, 0, 1, 5, 0] = 3
    ∧ screenshotIndex [2, 0, 1, 5, 0] ∉ [2, 0, 1, 5, 0]
      ∧ (∀ n, n < screenshotIndex [2, 0, 1, 5, 0] → n ∈ [2, 0, 1, 5, 0])
      ∧ (∀ n, n ∉ [2, 0, 1, 5, 0] → screenshotIndex [2, 0, 1, 5, 0] ≤ n)
      ∧ (([2, 0, 1, 5, 0] : List Nat) = [] → screenshotIndex [2, 0, 1, 5, 0] = 0)
      ∧ (∀ n, (∀ x, x ∈ [2, 0, 1, 5, 0] ↔ x < n) → screenshotIndex [2, 0, 1, 5, 0] = n) :=
  ⟨⟨3, by decide, by decide⟩, by decide,
    screenshotIndex_is_least_free [2, 0, 1, 5, 0] ⟨3, by decide, by decide⟩⟩

/-! ## Char arrays -/

/-- No byte of a C string is NUL. -/
theorem cstr_ne_zero (buf : List Nat) : ∀ b ∈ cstr buf, b ≠ 0 := by
  intro b hb
  have h := List.mem_takeWhile_imp hb
  simpa using h

/-- A text without NUL, followed by NUL, is the C string of the array. -/
theorem cstr_append_zero (t r : List Nat) (ht : ∀ b ∈ t, b ≠ 0) : cstr (t ++ 0 :: r) = t := by
  induction t with
  | nil => simp [cstr]
  | cons a as ih =>
    have ha : a ≠ 0 := ht a (by simp)
    have h := ih (fun b hb => ht b (List.mem_cons_of_mem _ hb))
    simp only [cstr, List.cons_append, List.takeWhile_cons] at h ⊢
    simp [ha, h]

/-- An array that holds a NUL is its C string, the NUL, and the bytes after. -/
theorem split_at_nul (buf : List Nat) (h : 0 ∈ buf) : ∃ r, buf = cstr buf ++ 0 :: r := by
  induction buf with
  | nil => simp at h
  | cons a as ih =>
    by_cases ha : a = 0
    · subst ha; exact ⟨as, by simp [cstr]⟩
    · have h' : 0 ∈ as := by
        rcases List.mem_cons.1 h with h | h
        · exact absurd h.symm ha
        · exact h
      obtain ⟨r, hr⟩ := ih h'
      refine ⟨r, ?_⟩
      have e : cstr (a :: as) = a :: cstr as := by simp [cstr, List.takeWhile_cons, ha]
      rw [e, List.cons_append, ← hr]

/-- The call `strlen` on an array that holds a NUL. -/
theorem strlen_of_mem (buf : List Nat) (h : 0 ∈ buf) : strlen buf = some (cstr buf).length := by
  simp [strlen, h]

/-- The C string is shorter than an array that holds a NUL. -/
theorem cstr_length_lt (buf : List Nat) (h : 0 ∈ buf) : (cstr buf).length < buf.length := by
  obtain ⟨r, hr⟩ := split_at_nul buf h
  have := congrArg List.length hr
  simp at this
  omega

/-- The loop of Backspace and Delete, started on a byte that is followed by a
text and its NUL, moves the text and the NUL one place down. -/
theorem shiftLeft_text (t : List Nat) : ∀ (a : Nat) (r : List Nat), (∀ b ∈ t, b ≠ 0) →
    shiftLeft (a :: (t ++ 0 :: r)) = some (t ++ 0 :: 0 :: r) := by
  induction t with
  | nil => intro a r _; simp [shiftLeft]
  | cons b bs ih =>
    intro a r ht
    have hb : b ≠ 0 := ht b (by simp)
    have h := ih b r (fun x hx => ht x (List.mem_cons_of_mem _ hx))
    rw [List.cons_append, shiftLeft, if_pos hb, h]
    simp

/-- The loop of the character branch moves `mid` and keeps the first byte. -/
theorem shiftRight_text (k : Nat) : ∀ (pre mid post : List Nat) (a : Nat), mid.length = k →
    shiftRight pre.length k (pre ++ mid ++ a :: post)
      = some (pre ++ (mid ++ [a]).headD 0 :: mid ++ post) := by
  induction k with
  | zero =>
    intro pre mid post a hk
    have : mid = [] := List.length_eq_zero.1 hk
    subst this
    simp [shiftRight]
  | succ n ih =>
    intro pre mid post a hk
    have hne : mid ≠ [] := by intro e; simp [e] at hk
    obtain ⟨m', x, rfl⟩ : ∃ m' x, mid = m' ++ [x] :=
      ⟨mid.dropLast, mid.getLast hne, (List.dropLast_append_getLast hne).symm⟩
    have hm' : m'.length = n := by simpa using hk
    have hlen : pre.length + n + 1 < (pre ++ (m' ++ [x]) ++ a :: post).length := by
      simp [hm']; omega
    rw [shiftRight, if_pos hlen]
    have hget : (pre ++ (m' ++ [x]) ++ a :: post).getD (pre.length + n) 0 = x := by
      have e : pre ++ (m' ++ [x]) ++ a :: post = (pre ++ m') ++ x :: (a :: post) := by simp
      rw [e, List.getD_eq_getElem?_getD, List.getElem?_append_right (by simp [hm'])]
      simp [hm']
    have hset : (pre ++ (m' ++ [x]) ++ a :: post).set (pre.length + n + 1) x
        = pre ++ m' ++ x :: (x :: post) := by
      have e : pre ++ (m' ++ [x]) ++ a :: post = (pre ++ m' ++ [x]) ++ a :: post := by simp
      rw [e, List.set_append_right _ _ (by simp [hm']; omega)]
      have e2 : pre.length + n + 1 - (pre ++ m' ++ [x]).length = 0 := by simp [hm']; omega
      rw [e2]
      simp
    rw [hget, hset, ih pre m' (x :: post) x hm']
    cases m' with
    | nil => simp
    | cons y ys => simp

/-- The first loop of the Enter branch, on the C string. -/
theorem cstr_skipBlanks (buf : List Nat) :
    cstr (skipBlanks buf) = (cstr buf).dropWhile (fun b => b = 32 ∨ b = 9) := by
  induction buf with
  | nil => simp [skipBlanks, cstr]
  | cons a as ih =>
    unfold skipBlanks
    by_cases h : a = 32 ∨ a = 9
    · have ha : a ≠ 0 := by rcases h with h | h <;> omega
      rw [if_pos h, ih]
      have e : cstr (a :: as) = a :: cstr as := by simp [cstr, List.takeWhile_cons, ha]
      rw [e, List.dropWhile_cons]
      simp [h]
    · rw [if_neg h]
      by_cases ha : a = 0
      · subst ha; simp [cstr]
      · have e : cstr (a :: as) = a :: cstr as := by simp [cstr, List.takeWhile_cons, ha]
        rw [e, List.dropWhile_cons]
        simp [h]

/-- The first loop of the Enter branch stops inside an array that holds a NUL. -/
theorem mem_skipBlanks (buf : List Nat) (h : 0 ∈ buf) : 0 ∈ skipBlanks buf := by
  induction buf with
  | nil => simp at h
  | cons a as ih =>
    unfold skipBlanks
    by_cases hb : a = 32 ∨ a = 9
    · rw [if_pos hb]
      rcases List.mem_cons.1 h with h | h
      · rcases hb with hb | hb <;> omega
      · exact ih h
    · rw [if_neg hb]; exact h

/-- The second loop of the Enter branch writes the C string of `src` and a NUL
at `i`. -/
theorem copyDown_text (src : List Nat) : ∀ (line : List Nat) (i : Nat), 0 ∈ src →
    i + (cstr src).length < line.length →
    copyDown line src i
      = some (line.take i ++ cstr src ++ 0 :: line.drop (i + (cstr src).length + 1),
              i + (cstr src).length) := by
  induction src with
  | nil => intro line i h; simp at h
  | cons b bs ih =>
    intro line i h hlen
    by_cases hb : b = 0
    · subst hb
      have e : cstr (0 :: bs) = [] := by simp [cstr]
      rw [e] at hlen ⊢
      simp only [copyDown, ne_eq, not_true, if_false, List.length_nil, Nat.add_zero,
        List.append_nil]
      rw [List.set_eq_take_append_cons_drop]
      simp at hlen
      simp [hlen]
    · have e : cstr (b :: bs) = b :: cstr bs := by simp [cstr, List.takeWhile_cons, hb]
      have h' : 0 ∈ bs := by
        rcases List.mem_cons.1 h with h | h
        · exact absurd h.symm hb
        · exact h
      rw [e] at hlen ⊢
      simp only [List.length_cons] at hlen
      rw [copyDown, if_pos hb, ih (line.set i b) (i + 1) h' (by simp; omega)]
      have hi : i < line.length := by omega
      have e1 : (line.set i b).take (i + 1) = line.take i ++ [b] := by
        rw [List.set_eq_take_append_cons_drop, if_pos hi]
        rw [List.take_append_eq_append_take]
        simp [List.length_take, Nat.min_eq_left (Nat.le_of_lt hi)]
      have e2 : (line.set i b).drop (i + 1 + (cstr bs).length + 1)
          = line.drop (i + ((cstr bs).length + 1) + 1) := by
        rw [List.drop_set_of_lt _ _ (by omega)]
        congr 1; omega
      rw [e1, e2]
      simp
      omega
/-! ## The line editor: typing and deleting -/

/-- The tooltip update goes through when the working line holds a NUL and its
text fits `tmpStr`; it only records a call. -/
theorem IUpdateTooltip_ok (K : Konstants) (s : pfConsole) (h : 0 ∈ s.fWorkingLine)
    (hfit : (cstr s.fWorkingLine).length < K.kWorkingLineSize) :
    IUpdateTooltip K s = some (s.call (ConsoleCall.IUpdateTooltip (cstr s.fWorkingLine))) := by
  simp [IUpdateTooltip, strcpy, putText, h, hfit]

/-- The character branch on a line `pre ++ suf` with the cursor after `pre`,
when there is room: the character is put between `pre` and `suf`. -/
theorem onChar_inserts (K : Konstants) (E : ConsoleEnv) (s : pfConsole) (key : Nat)
    (pre suf r : List Nat) (r₀ : Nat)
    (hline : s.fWorkingLine = pre ++ suf ++ 0 :: r₀ :: r)
    (hpre : ∀ b ∈ pre, b ≠ 0) (hsuf : ∀ b ∈ suf, b ≠ 0)
    (hcur : s.fWorkingCursor = pre.length)
    (hroom : pre.length + suf.length + 2 < K.kMaxCharsWide)
    (hwide : K.kMaxCharsWide ≤ K.kWorkingLineSize)
    (hkey : 0 < key ∧ key < 256)
    (hhelp : ¬ (s.fPythonMode = false ∧ key = 63 ∧ s.fWorkingCursor = 0))
    (hpy : ¬ (s.fHelpMode = false ∧ key = 92 ∧ s.fWorkingCursor = 0)) :
    onChar K E s key
      = some (({ s.resetFind with fWorkingLine := pre ++ key :: suf ++ 0 :: r,
                                  fWorkingCursor := pre.length + 1 } : pfConsole).call
               (ConsoleCall.IUpdateTooltip (pre ++ key :: suf))) := by
  have hall : ∀ b ∈ pre ++ suf, b ≠ 0 := by
    intro b hb
    rcases List.mem_append.1 hb with hb | hb
    · exact hpre b hb
    · exact hsuf b hb
  have hcs : cstr s.fWorkingLine = pre ++ suf := by rw [hline]; exact cstr_append_zero _ _ hall
  have hmem : 0 ∈ s.fWorkingLine := by rw [hline]; simp
  have hlen : strlen s.fWorkingLine = some (pre.length + suf.length) := by
    rw [strlen_of_mem _ hmem, hcs]; simp
  have hshift : shiftRight s.fWorkingCursor (pre.length + suf.length + 1 - s.fWorkingCursor)
      s.fWorkingLine = some (pre ++ (suf ++ [0]).headD 0 :: suf ++ 0 :: r) := by
    have e : s.fWorkingLine = pre ++ (suf ++ [0]) ++ r₀ :: r := by rw [hline]; simp
    have hk : pre.length + suf.length + 1 - pre.length = (suf ++ [0]).length := by
      simp; omega
    rw [hcur, e, hk, shiftRight_text _ pre (suf ++ [0]) r r₀ rfl]
    cases suf <;> simp
  have hset : setAt (pre ++ (suf ++ [0]).headD 0 :: suf ++ 0 :: r) s.fWorkingCursor (key % 256)
      = some (pre ++ key :: suf ++ 0 :: r) := by
    have hk : key % 256 = key := Nat.mod_eq_of_lt hkey.2
    rw [hcur, hk]
    simp [setAt]
  have hall₁ : ∀ b ∈ pre ++ key :: suf, b ≠ 0 := by
    intro b hb
    rcases List.mem_append.1 hb with hb | hb
    · exact hpre b hb
    · rcases List.mem_cons.1 hb with hb | hb
      · omega
      · exact hsuf b hb
  have hcs₁ : cstr (pre ++ key :: suf ++ 0 :: r) = pre ++ key :: suf := by
    have e : pre ++ key :: suf ++ 0 :: r = (pre ++ key :: suf) ++ 0 :: r := by simp
    rw [e]; exact cstr_append_zero _ _ hall₁
  have htip := IUpdateTooltip_ok K
    ({ s.resetFind with fWorkingLine := pre ++ key :: suf ++ 0 :: r,
                        fWorkingCursor := pre.length + 1 } : pfConsole)
    (by simp) (by simp only [hcs₁]; simp; omega)
  simp only [hcs₁] at htip
  have h1 : ¬ ((!s.fPythonMode) = true ∧ key = 63 ∧ s.fWorkingCursor = 0) := by
    intro h; exact hhelp ⟨by simpa using h.1, h.2⟩
  have h2 : ¬ ((!s.fHelpMode) = true ∧ key = 92 ∧ s.fWorkingCursor = 0) := by
    intro h; exact hpy ⟨by simpa using h.1, h.2⟩
  have h3 : (pre.length + suf.length + 2 < K.kMaxCharsWide ∨ K.kMaxCharsWide < 2) ∧ key ≠ 0 :=
    ⟨Or.inl hroom, by omega⟩
  unfold onChar
  rw [if_neg h1, if_neg h2]
  simp only [hlen, if_pos h3, hshift, hset]
  rw [← hcur] at htip ⊢
  exact htip

/-- The Backspace branch with the cursor after `pre ++ [k]`: the byte `k` is
taken out. -/
theorem onBackspace_deletes (K : Konstants) (s : pfConsole) (k : Nat)
    (pre suf r : List Nat)
    (hline : s.fWorkingLine = pre ++ k :: suf ++ 0 :: r)
    (hpre : ∀ b ∈ pre, b ≠ 0) (hsuf : ∀ b ∈ suf, b ≠ 0)
    (hcur : s.fWorkingCursor = pre.length + 1)
    (hfit : pre.length + suf.length < K.kWorkingLineSize) :
    onBackspace K s
      = some (({ s.resetFind with fWorkingLine := pre ++ suf ++ 0 :: 0 :: r,
                                  fWorkingCursor := pre.length } : pfConsole).call
               (ConsoleCall.IUpdateTooltip (pre ++ suf))) := by
  have hall : ∀ b ∈ pre ++ suf, b ≠ 0 := by
    intro b hb
    rcases List.mem_append.1 hb with hb | hb
    · exact hpre b hb
    · exact hsuf b hb
  have hcs : cstr (pre ++ suf ++ 0 :: 0 :: r) = pre ++ suf := cstr_append_zero _ _ hall
  have hshift : shiftLeftAt s.fWorkingLine (s.fWorkingCursor - 1)
      = some (pre ++ suf ++ 0 :: 0 :: r) := by
    have e : s.fWorkingLine = pre ++ (k :: (suf ++ 0 :: r)) := by rw [hline]; simp
    have hc : s.fWorkingCursor - 1 = pre.length := by omega
    rw [shiftLeftAt, hc, e, List.drop_left, List.take_left, shiftLeft_text suf k r hsuf]
    simp
  have htip := IUpdateTooltip_ok K
    ({ s.resetFind with fWorkingLine := pre ++ suf ++ 0 :: 0 :: r,
                        fWorkingCursor := pre.length } : pfConsole)
    (by simp) (by simp only [hcs]; simp; omega)
  simp only [hcs] at htip
  have hpos : s.fWorkingCursor > 0 := by omega
  have hc : s.fWorkingCursor - 1 = pre.length := by omega
  unfold onBackspace
  rw [if_pos hpos]
  simp only [hshift]
  rw [hc]
  exact htip

/-! ## The line editor: the cursor invariant and Delete -/

set_option maxRecDepth 100000 in
/-- C22 fails on two inputs.  After three spaces are typed into the fresh
console the cursor is within the line (3 of 3); Enter then strips the line to
the empty text and returns through the blank-line exit, which leaves the
cursor at 3.  And a typed character whose low byte is zero (256) puts a NUL at
the cursor and moves the cursor past it. -/
theorem enter_on_blanks_leaves_cursor :
    (handleKeys sampleKonstants sampleConsoleEnv (Init sampleKonstants) (typed "   ")).map
        (fun s => (s.view, decide (CursorInLine s))) = some ((ascii "   ", 3), true)
    ∧ (handleKeys sampleKonstants sampleConsoleEnv (Init sampleKonstants)
          (typed "   " ++ [keyPress plKeyDef.KEY_ENTER])).map
        (fun s => (s.view, decide (CursorInLine s))) = some (([], 3), false)
    ∧ (IHandleKey sampleKonstants sampleConsoleEnv (Init sampleKonstants) (charPress 256)).map
        (fun s => (s.view, decide (CursorInLine s))) = some (([], 1), false) := by
  decide

set_option maxRecDepth 100000 in
/-- C23 fails after Escape: with `hello` typed into the fresh console, Escape
leaves the empty text with the cursor at its end (0), and the bytes `ello`
after the terminator; Delete then makes `ello` the working line. -/
theorem delete_after_escape_restores_tail :
    (handleKeys sampleKonstants sampleConsoleEnv (Init sampleKonstants)
          (typed "hello" ++ [keyPress plKeyDef.KEY_ESCAPE])).map
        (fun s => (s.view, s.fWorkingLine.take 6)) = some (([], 0), 0 :: ascii "ello" ++ [0])
    ∧ (handleKeys sampleKonstants sampleConsoleEnv (Init sampleKonstants)
          (typed "hello" ++ [keyPress plKeyDef.KEY_ESCAPE, keyPress plKeyDef.KEY_DELETE])).map
        pfConsole.view = some (ascii "ello", 0) := by
  decide

/-- What Delete does at the end of the line: the C string that follows the
terminator is appended to the text, and the cursor stays.  The line is left
as it is exactly when the byte after the terminator is NUL. -/
theorem onDelete_at_end (K : Konstants) (s : pfConsole) (text tail r : List Nat)
    (hline : s.fWorkingLine = text ++ 0 :: (tail ++ 0 :: r))
    (htext : ∀ b ∈ text, b ≠ 0) (htail : ∀ b ∈ tail, b ≠ 0)
    (hcur : s.fWorkingCursor = text.length)
    (hfit : text.length + tail.length < K.kWorkingLineSize) :
    ∃ s', onDelete K s = some s' ∧ cstr s.fWorkingLine = text
      ∧ s'.view = (text ++ tail, text.length) := by
  have hall : ∀ b ∈ text ++ tail, b ≠ 0 := by
    intro b hb
    rcases List.mem_append.1 hb with hb | hb
    · exact htext b hb
    · exact htail b hb
  have hcs : cstr (text ++ (tail ++ 0 :: 0 :: r)) = text ++ tail := by
    have e : text ++ (tail ++ 0 :: 0 :: r) = (text ++ tail) ++ 0 :: 0 :: r := by simp
    rw [e]; exact cstr_append_zero _ _ hall
  have hshift : shiftLeftAt s.fWorkingLine s.fWorkingCursor
      = some (text ++ (tail ++ 0 :: 0 :: r)) := by
    rw [shiftLeftAt, hcur, hline, List.drop_left, List.take_left, shiftLeft_text tail 0 r htail]
    rfl
  have htip := IUpdateTooltip_ok K
    ({ s.resetFind with fWorkingLine := text ++ (tail ++ 0 :: 0 :: r) } : pfConsole)
    (by simp) (by simp only [hcs]; simp; omega)
  refine ⟨?wit, ?run, ?txt, ?vw⟩
  case run =>
    unfold onDelete
    rw [hshift]
    exact htip
  case txt => rw [hline]; exact cstr_append_zero _ _ htext
  case vw =>
    show (cstr (text ++ (tail ++ 0 :: 0 :: r)), s.fWorkingCursor) = _
    rw [hcs, hcur]

/-- C25: on a working line shorter than `kMaxCharsWide - 2` with the cursor
within the text, a printable character key that starts neither help nor
Python mode is inserted at the cursor (text before the cursor, the key, text
after the cursor; cursor one further), and a Backspace key press right after
gives back the text and the cursor as they were.  The working line is
`kWorkingLineSize` wide and holds a NUL, and `kMaxCharsWide` is at most
`kWorkingLineSize`. -/
theorem type_then_backspace (K : Konstants) (E : ConsoleEnv) (s : pfConsole)
    (key code : Nat)
    (hsize : s.fWorkingLine.length = K.kWorkingLineSize)
    (hwide : K.kMaxCharsWide ≤ K.kWorkingLineSize)
    (hnul : 0 ∈ s.fWorkingLine)
    (hlen : (cstr s.fWorkingLine).length + 2 < K.kMaxCharsWide)
    (hcur : s.fWorkingCursor ≤ (cstr s.fWorkingLine).length)
    (hkey : 32 ≤ key ∧ key < 256)
    (hhelp : ¬ (s.fPythonMode = false ∧ key = 63 ∧ s.fWorkingCursor = 0))
    (hpy : ¬ (s.fHelpMode = false ∧ key = 92 ∧ s.fWorkingCursor = 0)) :
    ∃ s₁ s₂,
      IHandleKey K E s { keyDown := true, keyChar := key, keyCode := plKeyDef.other code }
        = some s₁
      ∧ cstr s₁.fWorkingLine
          = (cstr s.fWorkingLine).take s.fWorkingCursor
              ++ key :: (cstr s.fWorkingLine).drop s.fWorkingCursor
      ∧ s₁.fWorkingCursor = s.fWorkingCursor + 1
      ∧ IHandleKey K E s₁ (keyPress plKeyDef.KEY_BACKSPACE) = some s₂
      ∧ cstr s₂.fWorkingLine = cstr s.fWorkingLine
      ∧ s₂.fWorkingCursor = s.fWorkingCursor := by
  obtain ⟨r, hr⟩ := split_at_nul _ hnul
  have hne := cstr_ne_zero s.fWorkingLine
  have hsplit : (cstr s.fWorkingLine).take s.fWorkingCursor
      ++ (cstr s.fWorkingLine).drop s.fWorkingCursor = cstr s.fWorkingLine :=
    List.take_append_drop _ _
  have hpl : ((cstr s.fWorkingLine).take s.fWorkingCursor).length = s.fWorkingCursor := by
    rw [List.length_take]; omega
  have hsl : ((cstr s.fWorkingLine).drop s.fWorkingCursor).length
      = (cstr s.fWorkingLine).length - s.fWorkingCursor := List.length_drop _ _
  have hpre : ∀ b ∈ (cstr s.fWorkingLine).take s.fWorkingCursor, b ≠ 0 :=
    fun b hb => hne b (List.mem_of_mem_take hb)
  have hsuf : ∀ b ∈ (cstr s.fWorkingLine).drop s.fWorkingCursor, b ≠ 0 :=
    fun b hb => hne b (List.mem_of_mem_drop hb)
  have hrlen : r.length ≠ 0 := by
    have := congrArg List.length hr
    simp at this
    omega
  obtain ⟨r₀, r', rfl⟩ : ∃ r₀ r', r = r₀ :: r' := by
    cases r with
    | nil => simp at hrlen
    | cons a as => exact ⟨a, as, rfl⟩
  have hline : s.fWorkingLine = (cstr s.fWorkingLine).take s.fWorkingCursor
      ++ (cstr s.fWorkingLine).drop s.fWorkingCursor ++ 0 :: r₀ :: r' := by
    rw [hsplit]; exact hr
  have h1 := onChar_inserts K E s key _ _ r' r₀ hline hpre hsuf hpl.symm
    (by rw [hpl, hsl]; omega) hwide ⟨by omega, hkey.2⟩ hhelp hpy
  have h2 := onBackspace_deletes K
    (({ s.resetFind with
          fWorkingLine := (cstr s.fWorkingLine).take s.fWorkingCursor
            ++ key :: (cstr s.fWorkingLine).drop s.fWorkingCursor ++ 0 :: r',
          fWorkingCursor := ((cstr s.fWorkingLine).take s.fWorkingCursor).length + 1 }
        : pfConsole).call
      (ConsoleCall.IUpdateTooltip ((cstr s.fWorkingLine).take s.fWorkingCursor
        ++ key :: (cstr s.fWorkingLine).drop s.fWorkingCursor)))
    key ((cstr s.fWorkingLine).take s.fWorkingCursor)
    ((cstr s.fWorkingLine).drop s.fWorkingCursor) r' rfl hpre hsuf rfl
    (by rw [hpl, hsl]; omega)
  have hA : IHandleKey K E s { keyDown := true, keyChar := key, keyCode := plKeyDef.other code }
      = onChar K E s key := by
    have hf : ¬ ((!true) = true ∨ (key > 0 ∧ key < 32)) := by
      simp; omega
    have hk0 : key ≠ 0 := by omega
    simp only [IHandleKey, if_neg hf, ne_eq, hk0, not_false_eq_true, if_true]
  have hB : ∀ t, IHandleKey K E t (keyPress plKeyDef.KEY_BACKSPACE) = onBackspace K t := by
    intro t
    have hf : ¬ ((!(keyPress plKeyDef.KEY_BACKSPACE).keyDown) = true
        ∨ ((keyPress plKeyDef.KEY_BACKSPACE).keyChar > 0
            ∧ (keyPress plKeyDef.KEY_BACKSPACE).keyChar < 32)) := by
      simp [keyPress]
    simp only [IHandleKey, if_neg hf]
    rfl
  refine ⟨_, _, hA.trans h1, ?_, ?_, (hB _).trans h2, ?_, ?_⟩
  · show cstr (_ ++ key :: _ ++ 0 :: r') = _
    have e : (cstr s.fWorkingLine).take s.fWorkingCursor
        ++ key :: (cstr s.fWorkingLine).drop s.fWorkingCursor ++ 0 :: r'
        = ((cstr s.fWorkingLine).take s.fWorkingCursor
            ++ key :: (cstr s.fWorkingLine).drop s.fWorkingCursor) ++ 0 :: r' := by simp
    rw [e]
    apply cstr_append_zero
    intro b hb
    rcases List.mem_append.1 hb with hb | hb
    · exact hpre b hb
    · rcases List.mem_cons.1 hb with hb | hb
      · omega
      · exact hsuf b hb
  · show _ + 1 = _ + 1
    rw [hpl]
  · show cstr (_ ++ _ ++ 0 :: 0 :: r') = _
    rw [hsplit]
    exact cstr_append_zero _ _ hne
  · show ((cstr s.fWorkingLine).take s.fWorkingCursor).length = _
    exact hpl

/-- C25 on the text `ac` with the cursor after `a`: typing `b` gives `abc`
with the cursor after `b`, and Backspace gives back `ac` with the cursor
after `a`. -/
theorem type_then_backspace_witness :
    sampleEdit.view = (ascii "ac", 1)
    ∧ (cstr sampleEdit.fWorkingLine).length + 2 < smallKonstants.kMaxCharsWide
    ∧ ∃ s₁ s₂,
      IHandleKey smallKonstants sampleConsoleEnv sampleEdit
          { keyDown := true, keyChar := 98, keyCode := plKeyDef.other 0 } = some s₁
      ∧ cstr s₁.fWorkingLine
          = (cstr sampleEdit.fWorkingLine).take sampleEdit.fWorkingCursor
              ++ 98 :: (cstr sampleEdit.fWorkingLine).drop sampleEdit.fWorkingCursor
      ∧ s₁.fWorkingCursor = sampleEdit.fWorkingCursor + 1
      ∧ IHandleKey smallKonstants sampleConsoleEnv s₁ (keyPress plKeyDef.KEY_BACKSPACE) = some s₂
      ∧ cstr s₂.fWorkingLine = cstr sampleEdit.fWorkingLine
      ∧ s₂.fWorkingCursor = sampleEdit.fWorkingCursor :=
  ⟨by decide, by decide,
    type_then_backspace smallKonstants sampleConsoleEnv sampleEdit 98 0
      (by decide) (by decide) (by decide) (by decide) (by decide) (by decide) (by decide)
      (by decide)⟩
/-! ## The line editor: Enter and the history -/

/-- The call `strcpy` when the source holds a NUL and its text fits. -/
theorem strcpy_ok (dst src : List Nat) (h : 0 ∈ src) (hfit : (cstr src).length < dst.length) :
    strcpy dst src = some (cstr src ++ 0 :: dst.drop ((cstr src).length + 1)) := by
  simp [strcpy, putText, h, hfit]

/-- Reading back the history that was just replaced. -/
theorem fHistory_setHistory (s : pfConsole) (m : Bool) (h : History) :
    (s.setHistory m h).fHistory m = h := by
  cases m <;> rfl

/-- Replacing a history leaves the Python mode flag alone. -/
theorem fPythonMode_setHistory (s : pfConsole) (m : Bool) (h : History) :
    (s.setHistory m h).fPythonMode = s.fPythonMode := by
  cases m <;> rfl

/-- Replacing a history leaves the working line alone. -/
theorem fWorkingLine_setHistory (s : pfConsole) (m : Bool) (h : History) :
    (s.setHistory m h).fWorkingLine = s.fWorkingLine := by
  cases m <;> rfl

/-- Replacing a history leaves the multi-line counter alone. -/
theorem fPythonMultiLines_setHistory (s : pfConsole) (m : Bool) (h : History) :
    (s.setHistory m h).fPythonMultiLines = s.fPythonMultiLines := by
  cases m <;> rfl

/-- Replacing a history leaves the help mode flag alone. -/
theorem fHelpMode_setHistory (s : pfConsole) (m : Bool) (h : History) :
    (s.setHistory m h).fHelpMode = s.fHelpMode := by
  cases m <;> rfl

/-- States with the same two histories have the same history of each mode. -/
theorem fHistory_congr (s t : pfConsole) (h₀ : t.fHistory₀ = s.fHistory₀)
    (h₁ : t.fHistory₁ = s.fHistory₁) (m : Bool) : t.fHistory m = s.fHistory m := by
  cases m
  · exact h₀
  · exact h₁

/-- In a well-formed history `biglines` can be built from up to
`kNumHistoryItems` lines, and each line adds at most `kMaxCharsWide` bytes. -/
theorem bigLines_ok (K : Konstants) (h : History) (hw : h.WellFormed K) :
    ∀ i, i ≤ K.kNumHistoryItems →
      ∃ big, bigLines K h i = some big ∧ big.length ≤ i * K.kMaxCharsWide := by
  obtain ⟨hlen, hrows, hcur⟩ := hw
  intro i
  induction i with
  | zero => intro _; exact ⟨[], rfl, by simp⟩
  | succ n ih =>
    intro hn
    obtain ⟨rest, hrest, hrl⟩ := ih (by omega)
    have hidx : ∃ j : Nat, j < K.kNumHistoryItems ∧
        (if (h.fCursor : Int) - ((n + 1 : Nat) : Int) < 0
          then (h.fCursor : Int) - ((n + 1 : Nat) : Int) + (K.kNumHistoryItems : Int)
          else (h.fCursor : Int) - ((n + 1 : Nat) : Int)) = (j : Int) := by
      by_cases hneg : (h.fCursor : Int) - ((n + 1 : Nat) : Int) < 0
      · refine ⟨h.fCursor + K.kNumHistoryItems - (n + 1), by omega, ?_⟩
        rw [if_pos hneg]; omega
      · refine ⟨h.fCursor - (n + 1), by omega, ?_⟩
        rw [if_neg hneg]; omega
    obtain ⟨j, hj, hje⟩ := hidx
    have hjl : j < h.fData.length := by rw [hlen]; exact hj
    have hrow := hrows (h.fData.get ⟨j, hjl⟩) (List.get_mem _ _ _)
    have hget : h.fData.get? j = some (h.fData.get ⟨j, hjl⟩) := List.get?_eq_get hjl
    have hcl := cstr_length_lt _ hrow.2
    refine ⟨cstr (h.fData.get ⟨j, hjl⟩) ++ 10 :: rest, ?_, ?_⟩
    · simp only [bigLines, hje]
      have hnn : ¬ ((j : Int) < 0) := by omega
      simp only [hnn, if_false, Int.toNat_ofNat, hget, strlen_of_mem _ hrow.2, hrest]
    · simp only [List.length_append, List.length_cons]
      rw [Nat.succ_mul]
      omega

/-- The help part of the execution returns and keeps the editor. -/
theorem executeHelp_ok (E : ConsoleEnv) (s : pfConsole) (c₀ : Nat) (hE : E.InBounds)
    (hnul : 0 ∈ s.fWorkingLine) :
    ∃ s', executeHelp E s c₀ = some s' ∧ KeepsEditor s s' := by
  unfold executeHelp
  by_cases h0 : c₀ = 0
  · rw [if_pos h0]; exact ⟨_, rfl, rfl, rfl, rfl, rfl⟩
  · rw [if_neg h0, strlen_of_mem _ hnul]
    dsimp only
    by_cases h1 : stricmp ((cstr s.fWorkingLine).map Char.ofNat) "commands".data = 0
    · rw [if_pos h1]; exact ⟨_, rfl, rfl, rfl, rfl, rfl⟩
    · rw [if_neg h1, if_pos (hE s.fWorkingLine).1]
      by_cases h2 : (E.PrintCmdHelp s.fWorkingLine).1 = true
      · rw [if_pos h2]; exact ⟨_, rfl, rfl, rfl, rfl, (hE s.fWorkingLine).1⟩
      · rw [if_neg h2]; exact ⟨_, rfl, rfl, rfl, rfl, (hE s.fWorkingLine).1⟩

/-- The command part of the execution returns and keeps the editor. -/
theorem executeCommand_ok (E : ConsoleEnv) (s : pfConsole) (hE : E.InBounds) :
    ∃ s', executeCommand E s = some s' ∧ KeepsEditor s s' := by
  unfold executeCommand
  rw [if_pos (hE s.fWorkingLine).2]
  by_cases h1 : (E.RunCommand s.fWorkingLine).1 = true
  · rw [if_pos h1]; exact ⟨_, rfl, rfl, rfl, rfl, (hE s.fWorkingLine).2⟩
  · rw [if_neg h1]
    by_cases h2 : E.GetErrorMsg.head?.getD 0 ≠ 0
    · rw [if_pos h2]; exact ⟨_, rfl, rfl, rfl, rfl, (hE s.fWorkingLine).2⟩
    · rw [if_neg h2]; exact ⟨_, rfl, rfl, rfl, rfl, (hE s.fWorkingLine).2⟩

/-- The evaluation of the saved Python lines returns, keeps the editor and
the working line. -/
theorem evalMultiLines_ok (K : Konstants) (E : ConsoleEnv) (s : pfConsole)
    (hw : (s.fHistory s.fPythonMode).WellFormed K)
    (hm : s.fPythonMultiLines ≤ K.kNumHistoryItems) :
    ∃ s', evalMultiLines K E s = some s' ∧ KeepsEditor s s'
      ∧ s'.fWorkingLine = s.fWorkingLine := by
  obtain ⟨big, hbig, hlen⟩ := bigLines_ok K _ hw _ hm
  have hN : 0 < K.kNumHistoryItems := Nat.lt_of_le_of_lt (Nat.zero_le _) hw.2.2
  have hfit : big.length < K.kNumHistoryItems * (K.kMaxCharsWide + 1) := by
    have h1 : s.fPythonMultiLines * K.kMaxCharsWide ≤ K.kNumHistoryItems * K.kMaxCharsWide :=
      Nat.mul_le_mul_right _ hm
    rw [Nat.mul_succ]
    omega
  unfold evalMultiLines
  rw [hbig]
  dsimp only
  rw [if_pos hfit]
  exact ⟨_, rfl, ⟨rfl, rfl, rfl, rfl⟩, rfl⟩

/-- The Python multi-line part of the execution returns, keeps the editor and
the working line. -/
theorem executeMultiLine_ok (K : Konstants) (E : ConsoleEnv) (s : pfConsole) (c₀ : Nat)
    (hw : (s.fHistory s.fPythonMode).WellFormed K)
    (hm : s.fPythonMultiLines < K.kNumHistoryItems) :
    ∃ s', executeMultiLine K E s c₀ = some s' ∧ KeepsEditor s s'
      ∧ s'.fWorkingLine = s.fWorkingLine := by
  unfold executeMultiLine
  by_cases h0 : c₀ ≠ 0
  · rw [if_pos h0]
    by_cases h1 : s.fPythonMultiLines + 1 ≥ K.kNumHistoryItems
    · rw [if_pos h1]
      exact evalMultiLines_ok K E _ hw (by show s.fPythonMultiLines + 1 ≤ _; omega)
    · rw [if_neg h1]; exact ⟨_, rfl, ⟨rfl, rfl, rfl, rfl⟩, rfl⟩
  · rw [if_neg h0]
    have h1 : ¬ s.fPythonMultiLines ≥ K.kNumHistoryItems := by omega
    rw [if_neg h1]
    exact evalMultiLines_ok K E s hw (by omega)

/-- The Python single-line part of the execution returns, keeps the editor
and the working line. -/
theorem executeSingleLine_ok (E : ConsoleEnv) (s : pfConsole) (c₀ eol : Nat)
    (heol : eol - 1 < s.fWorkingLine.length) :
    ∃ s', executeSingleLine E s c₀ eol = some s' ∧ KeepsEditor s s'
      ∧ s'.fWorkingLine = s.fWorkingLine := by
  unfold executeSingleLine
  by_cases h0 : c₀ ≠ 0
  · rw [if_pos h0, List.get?_eq_get heol]
    dsimp only
    by_cases h1 : s.fWorkingLine.get ⟨eol - 1, heol⟩ = 58
    · rw [if_pos h1]; exact ⟨_, rfl, ⟨rfl, rfl, rfl, rfl⟩, rfl⟩
    · rw [if_neg h1]; exact ⟨_, rfl, ⟨rfl, rfl, rfl, rfl⟩, rfl⟩
  · rw [if_neg h0]; exact ⟨_, rfl, ⟨rfl, rfl, rfl, rfl⟩, rfl⟩

/-- The execution of a working line returns and keeps the editor, when the
engine stays inside the line, the history of the mode is well formed and
fewer than `kNumHistoryItems` Python lines are pending. -/
theorem execute_ok (K : Konstants) (E : ConsoleEnv) (s : pfConsole) (eol : Nat)
    (hE : E.InBounds) (hnul : 0 ∈ s.fWorkingLine)
    (hw : (s.fHistory s.fPythonMode).WellFormed K)
    (hm : s.fPythonMultiLines < K.kNumHistoryItems)
    (heol : eol - 1 < s.fWorkingLine.length) :
    ∃ s', execute K E s eol = some s' ∧ KeepsEditor s s' := by
  unfold execute
  cases hc : s.fWorkingLine.head? with
  | none =>
    have : s.fWorkingLine = [] := List.head?_eq_none_iff.1 hc
    rw [this] at hnul
    simp at hnul
  | some c₀ =>
    dsimp only
    by_cases hh : s.fHelpMode = true
    · rw [if_pos hh]; exact executeHelp_ok E s c₀ hE hnul
    · rw [if_neg hh]
      by_cases hp : s.fPythonMode = true
      · rw [if_pos hp]
        have key : ∃ s', (if s.fPythonMultiLines > 0 then executeMultiLine K E s c₀
            else executeSingleLine E s c₀ eol) = some s' ∧ KeepsEditor s s'
            ∧ s'.fWorkingLine = s.fWorkingLine := by
          by_cases hmm : s.fPythonMultiLines > 0
          · rw [if_pos hmm]; exact executeMultiLine_ok K E s c₀ hw hm
          · rw [if_neg hmm]; exact executeSingleLine_ok E s c₀ eol heol
        obtain ⟨s', h1, h2, h3⟩ := key
        rw [h1]
        dsimp only
        rw [h3, strlen_of_mem _ hnul]
        exact ⟨s', rfl, h2⟩
      · rw [if_neg hp]; exact executeCommand_ok E s hE

/-- The first byte of an array whose C string is not empty: it is the first
byte of the C string, and not NUL. -/
theorem head_of_cstr (buf : List Nat) (h : cstr buf ≠ []) :
    ∃ c, buf.head? = some c ∧ c ≠ 0 := by
  cases buf with
  | nil => simp [cstr] at h
  | cons a as =>
    refine ⟨a, rfl, ?_⟩
    intro ha
    subst ha
    simp [cstr] at h

/-- The line Enter works on after the cleaning step: its text is the saved
line, it holds a NUL, it is as long as before, and `eol` points into it. -/
theorem cleaned_ok (s : pfConsole) (hnul : 0 ∈ s.fWorkingLine) :
    ∃ line eol,
      (if s.fPythonMultiLines = 0 then copyDown s.fWorkingLine (skipBlanks s.fWorkingLine) 0
        else some (s.fWorkingLine, 0)) = some (line, eol)
      ∧ cstr line = savedLine s ∧ 0 ∈ line ∧ line.length = s.fWorkingLine.length
      ∧ eol - 1 < line.length := by
  have hL := cstr_length_lt _ hnul
  by_cases hm : s.fPythonMultiLines = 0
  · have hsk := cstr_skipBlanks s.fWorkingLine
    have hle : (cstr (skipBlanks s.fWorkingLine)).length ≤ (cstr s.fWorkingLine).length := by
      rw [hsk]; exact (List.dropWhile_suffix _).length_le
    have hcopy := copyDown_text (skipBlanks s.fWorkingLine) s.fWorkingLine 0
      (mem_skipBlanks _ hnul) (by omega)
    have hsaved : savedLine s = cstr (skipBlanks s.fWorkingLine) := by
      rw [savedLine, if_pos hm, hsk]
    refine ⟨_, _, by rw [if_pos hm]; exact hcopy, ?_, ?_, ?_, ?_⟩
    · rw [hsaved]
      simp only [List.take_zero, List.nil_append]
      exact cstr_append_zero _ _ (cstr_ne_zero _)
    · simp
    · simp only [List.take_zero, List.nil_append, List.length_append, List.length_cons,
        List.length_drop]
      omega
    · simp only [List.take_zero, List.nil_append, List.length_append, List.length_cons,
        List.length_drop]
      omega
  · refine ⟨s.fWorkingLine, 0, by rw [if_neg hm], ?_, hnul, rfl, by omega⟩
    rw [savedLine, if_neg hm]

/-- The history after a line was saved at `fCursor`. -/
theorem saveHistory_ok (K : Konstants) (s : pfConsole) (hnul : 0 ∈ s.fWorkingLine)
    (hw : (s.fHistory s.fPythonMode).WellFormed K)
    (hfit : (cstr s.fWorkingLine).length < K.kMaxCharsWide) :
    ∃ s' row,
      saveHistory K s = some s'
      ∧ s'.fPythonMode = s.fPythonMode ∧ s'.fWorkingLine = s.fWorkingLine
      ∧ s'.fPythonMultiLines = s.fPythonMultiLines
      ∧ (s'.fHistory s.fPythonMode).WellFormed K
      ∧ (s'.fHistory s.fPythonMode).fData.get? (s.fHistory s.fPythonMode).fCursor
          = some (cstr s.fWorkingLine ++ 0 :: row)
      ∧ (s'.fHistory s.fPythonMode).fCursor
          = ((s.fHistory s.fPythonMode).fCursor + 1) % K.kNumHistoryItems
      ∧ (s'.fHistory s.fPythonMode).fRecallCursor = (s'.fHistory s.fPythonMode).fCursor := by
  obtain ⟨hlen, hrows, hcur⟩ := hw
  have hcl : (s.fHistory s.fPythonMode).fCursor < (s.fHistory s.fPythonMode).fData.length := by
    rw [hlen]; exact hcur
  have hget := List.get?_eq_get hcl
  have hrow := hrows _ (List.get_mem _ _ hcl)
  have hcopy := strcpy_ok ((s.fHistory s.fPythonMode).fData.get
    ⟨(s.fHistory s.fPythonMode).fCursor, hcl⟩) s.fWorkingLine hnul (by rw [hrow.1]; exact hfit)
  have hnext : (if (s.fHistory s.fPythonMode).fCursor < K.kNumHistoryItems - 1
      then (s.fHistory s.fPythonMode).fCursor + 1 else 0)
      = ((s.fHistory s.fPythonMode).fCursor + 1) % K.kNumHistoryItems := by
    by_cases h : (s.fHistory s.fPythonMode).fCursor < K.kNumHistoryItems - 1
    · rw [if_pos h, Nat.mod_eq_of_lt (by omega)]
    · rw [if_neg h]
      have e : (s.fHistory s.fPythonMode).fCursor + 1 = K.kNumHistoryItems := by omega
      rw [e, Nat.mod_self]
  have hsave : saveHistory K s = some (s.setHistory s.fPythonMode
      { fData := (s.fHistory s.fPythonMode).fData.set (s.fHistory s.fPythonMode).fCursor
          (cstr s.fWorkingLine ++ 0 :: ((s.fHistory s.fPythonMode).fData.get
            ⟨(s.fHistory s.fPythonMode).fCursor, hcl⟩).drop ((cstr s.fWorkingLine).length + 1)),
        fCursor :=
          if (s.fHistory s.fPythonMode).fCursor < K.kNumHistoryItems - 1
          then (s.fHistory s.fPythonMode).fCursor + 1 else 0,
        fRecallCursor :=
          if (s.fHistory s.fPythonMode).fCursor < K.kNumHistoryItems - 1
          then (s.fHistory s.fPythonMode).fCursor + 1 else 0 }) := by
    unfold saveHistory; rw [hget]; dsimp only; rw [hcopy]
  refine ⟨_, ((s.fHistory s.fPythonMode).fData.get
      ⟨(s.fHistory s.fPythonMode).fCursor, hcl⟩).drop ((cstr s.fWorkingLine).length + 1), hsave,
    fPythonMode_setHistory _ _ _, fWorkingLine_setHistory _ _ _,
    fPythonMultiLines_setHistory _ _ _, ?_, ?_, ?_, ?_⟩
  · rw [fHistory_setHistory]
    refine ⟨by simp [hlen], ?_, ?_⟩
    · intro r hr
      rcases List.mem_or_eq_of_mem_set hr with hr | hr
      · exact hrows r hr
      · subst hr
        refine ⟨?_, by simp⟩
        simp only [List.length_append, List.length_cons, List.length_drop, hrow.1]
        omega
    · show (if _ then _ else _) < _
      rw [hnext]
      exact Nat.mod_lt _ (by omega)
  · rw [fHistory_setHistory]
    show ((s.fHistory s.fPythonMode).fData.set _ _).get? _ = _
    rw [List.get?_eq_getElem?, List.getElem?_set_self hcl]
  · rw [fHistory_setHistory]
    exact hnext
  · rw [fHistory_setHistory]

/-- The statement `fWorkingLine[ fWorkingCursor = 0 ] = 0;` followed by the
reset of the search and the tooltip update, on a working line that is not of
size zero and fits `tmpStr`. -/
theorem clear_ok (K : Konstants) (s : pfConsole) (hpos : 0 < s.fWorkingLine.length)
    (hsize : s.fWorkingLine.length ≤ K.kWorkingLineSize) :
    ∃ s', (match clearLine s with
            | none => none
            | some s₃ => IUpdateTooltip K s₃.resetFind) = some s'
      ∧ s'.fHistory₀ = s.fHistory₀ ∧ s'.fHistory₁ = s.fHistory₁
      ∧ s'.fPythonMode = s.fPythonMode
      ∧ s'.fWorkingLine.length = s.fWorkingLine.length
      ∧ cstr s'.fWorkingLine = [] ∧ s'.fWorkingCursor = 0 := by
  have hset : setAt s.fWorkingLine 0 0 = some (s.fWorkingLine.set 0 0) := by
    simp [setAt, hpos]
  have hform : ∃ t, s.fWorkingLine.set 0 0 = 0 :: t := by
    cases h : s.fWorkingLine with
    | nil => rw [h] at hpos; simp at hpos
    | cons a as => exact ⟨as, rfl⟩
  obtain ⟨t, ht⟩ := hform
  have hcs : cstr (s.fWorkingLine.set 0 0) = [] := by rw [ht]; simp [cstr]
  have htip := IUpdateTooltip_ok K
    (({ s with fWorkingLine := s.fWorkingLine.set 0 0, fWorkingCursor := 0 }
      : pfConsole).resetFind)
    (by show 0 ∈ s.fWorkingLine.set 0 0; rw [ht]; simp)
    (by show (cstr (s.fWorkingLine.set 0 0)).length < _; rw [hcs]; simp; omega)
  refine ⟨(({ s with fWorkingLine := s.fWorkingLine.set 0 0, fWorkingCursor := 0 }
      : pfConsole).resetFind).call
        (ConsoleCall.IUpdateTooltip (cstr (s.fWorkingLine.set 0 0))),
    by simp only [clearLine, hset]; exact htip, rfl, rfl, rfl, ?_, hcs, rfl⟩
  show (s.fWorkingLine.set 0 0).length = _
  simp

/-- The Enter branch on a line that has something to save: it returns, the
saved line is in the history of the mode at the old `fCursor`, and `fCursor`
has moved on by one modulo `kNumHistoryItems`, `fRecallCursor` with it. -/
theorem onEnter_saves (K : Konstants) (E : ConsoleEnv) (s : pfConsole)
    (hE : E.InBounds) (hsize : s.fWorkingLine.length = K.kWorkingLineSize)
    (hnul : 0 ∈ s.fWorkingLine)
    (hw : (s.fHistory s.fPythonMode).WellFormed K)
    (hm : s.fPythonMultiLines < K.kNumHistoryItems)
    (hne : savedLine s ≠ []) (hfit : (savedLine s).length < K.kMaxCharsWide) :
    ∃ s₁ row,
      onEnter K E s = some s₁
      ∧ s₁.fPythonMode = s.fPythonMode
      ∧ s₁.fWorkingLine.length = s.fWorkingLine.length
      ∧ (s₁.fHistory s.fPythonMode).fData.length = K.kNumHistoryItems
      ∧ (s₁.fHistory s.fPythonMode).fData.get? (s.fHistory s.fPythonMode).fCursor
          = some (savedLine s ++ 0 :: row)
      ∧ (s₁.fHistory s.fPythonMode).fCursor
          = ((s.fHistory s.fPythonMode).fCursor + 1) % K.kNumHistoryItems
      ∧ (s₁.fHistory s.fPythonMode).fRecallCursor = (s₁.fHistory s.fPythonMode).fCursor := by
  obtain ⟨line, eol, hclean, hcs, hl0, hll, heol⟩ := cleaned_ok s hnul
  obtain ⟨c₀, hc, hc0⟩ := head_of_cstr line (by rw [hcs]; exact hne)
  obtain ⟨s₂, row, hsave, hpm, hwl, hml, hw₂, hget, hcur, hrc⟩ :=
    saveHistory_ok K ({ s with fWorkingLine := line } : pfConsole) hl0 hw
      (by show (cstr line).length < _; rw [hcs]; exact hfit)
  obtain ⟨s₃, hex, hk₀, hk₁, hkp, hkl⟩ := execute_ok K E s₂ eol hE (by rw [hwl]; exact hl0)
    (by rw [hpm]; exact hw₂) (by rw [hml]; exact hm) (by rw [hwl]; exact heol)
  have hlen₃ : s₃.fWorkingLine.length = s.fWorkingLine.length := by
    rw [hkl, hwl]; exact hll
  have hpos : 0 < s.fWorkingLine.length := Nat.lt_of_le_of_lt (Nat.zero_le _) (cstr_length_lt _ hnul)
  obtain ⟨s₄, hclear, hc₀, hc₁, hcp, hcl, _, _⟩ := clear_ok K s₃ (by omega) (by omega)
  have hhist : s₄.fHistory s.fPythonMode
      = s₂.fHistory (({ s with fWorkingLine := line } : pfConsole).fPythonMode) :=
    (fHistory_congr s₃ s₄ hc₀ hc₁ _).trans (fHistory_congr s₂ s₃ hk₀ hk₁ _)
  have hblank : ¬ (c₀ = 0 ∧ (!s.fHelpMode) = true ∧ (!s.fPythonMode) = true) :=
    fun h => hc0 h.1
  refine ⟨s₄, row, ?_, ?_, ?_, ?_, ?_, ?_, ?_⟩
  · unfold onEnter
    rw [hclean]
    dsimp only
    rw [hc]
    dsimp only
    rw [if_neg hblank, if_pos hc0, hsave]
    dsimp only
    rw [hex]
    exact hclear
  · rw [hcp, hkp, hpm]
  · rw [hcl, hlen₃]
  · rw [hhist]; exact hw₂.1
  · rw [hhist, ← hcs]; exact hget
  · rw [hhist]; exact hcur
  · rw [hhist]; exact hrc

/-- The Up branch when the line before `fRecallCursor` (the last line of the
ring when `fRecallCursor` is 0) holds the text `text`, not empty: the text
becomes the working line and the cursor is put at its end. -/
theorem onUp_recalls (K : Konstants) (s : pfConsole) (text row : List Nat)
    (hget : (s.fHistory s.fPythonMode).fData.get?
        (if (s.fHistory s.fPythonMode).fRecallCursor > 0
          then (s.fHistory s.fPythonMode).fRecallCursor - 1 else K.kNumHistoryItems - 1)
      = some (text ++ 0 :: row))
    (htext : ∀ b ∈ text, b ≠ 0) (hne : text ≠ [])
    (hfit : text.length < s.fWorkingLine.length)
    (hsize : s.fWorkingLine.length ≤ K.kWorkingLineSize) :
    ∃ s₂, onUp K s = some s₂ ∧ cstr s₂.fWorkingLine = text
      ∧ s₂.fWorkingCursor = text.length := by
  have hcs : cstr (text ++ 0 :: row) = text := cstr_append_zero _ _ htext
  obtain ⟨c, hc, hc0⟩ := head_of_cstr (text ++ 0 :: row) (by rw [hcs]; exact hne)
  have hcopy := strcpy_ok s.fWorkingLine (text ++ 0 :: row) (by simp) (by rw [hcs]; exact hfit)
  rw [hcs] at hcopy
  have hcs₂ : cstr (text ++ 0 :: s.fWorkingLine.drop (text.length + 1)) = text :=
    cstr_append_zero _ _ htext
  have hlen : strlen (text ++ 0 :: s.fWorkingLine.drop (text.length + 1)) = some text.length := by
    rw [strlen_of_mem _ (by simp), hcs₂]
  have htip := IUpdateTooltip_ok K
    ({ ((s.setHistory s.fPythonMode
          { (s.fHistory s.fPythonMode) with
            fRecallCursor :=
              if (s.fHistory s.fPythonMode).fRecallCursor > 0
              then (s.fHistory s.fPythonMode).fRecallCursor - 1
              else K.kNumHistoryItems - 1 }).resetFind) with
        fWorkingLine := text ++ 0 :: s.fWorkingLine.drop (text.length + 1),
        fWorkingCursor := text.length } : pfConsole)
    (by simp) (by simp only [hcs₂]; omega)
  refine ⟨?wit, ?run, ?txt, ?cur⟩
  case run =>
    unfold onUp
    dsimp only
    rw [hget]
    dsimp only
    rw [hc]
    dsimp only
    rw [if_pos hc0, hcopy]
    dsimp only
    rw [hlen]
    exact htip
  case txt => exact hcs₂
  case cur => rfl

/-- No byte of the saved line is NUL, and it is no longer than the text of
the working line. -/
theorem savedLine_spec (s : pfConsole) :
    (∀ b ∈ savedLine s, b ≠ 0) ∧ (savedLine s).length ≤ (cstr s.fWorkingLine).length := by
  unfold savedLine
  by_cases hm : s.fPythonMultiLines = 0
  · rw [if_pos hm]
    exact ⟨fun b hb => cstr_ne_zero _ b ((List.dropWhile_suffix _).subset hb),
      (List.dropWhile_suffix _).length_le⟩
  · rw [if_neg hm]
    exact ⟨cstr_ne_zero _, le_refl _⟩

/-- The key-down event of a key without character reaches the branch of its
key code. -/
theorem IHandleKey_keyPress (K : Konstants) (E : ConsoleEnv) (s : pfConsole) (code : plKeyDef) :
    IHandleKey K E s (keyPress code)
      = (match code with
          | plKeyDef.KEY_ESCAPE => onEscape K s
          | plKeyDef.KEY_TAB => onTab K E s
          | plKeyDef.KEY_UP => onUp K s
          | plKeyDef.KEY_DOWN => onDown K s
          | plKeyDef.KEY_LEFT => onLeft s
          | plKeyDef.KEY_RIGHT => onRight s
          | plKeyDef.KEY_BACKSPACE => onBackspace K s
          | plKeyDef.KEY_DELETE => onDelete K s
          | plKeyDef.KEY_ENTER => onEnter K E s
          | plKeyDef.KEY_END => onEnd s
          | plKeyDef.KEY_HOME => onHome s
          | plKeyDef.other _ => some s) := by
  cases code <;> simp [IHandleKey, keyPress]

/-- C26 (amended): on a well-formed console state whose working line has
something to save, Enter stores the saved line (the text of the working line,
stripped of leading spaces and tabs unless Python multi-line mode is on, in
which case it is stored as typed) in the history of the current mode at
`fCursor`, and moves `fCursor` on by one modulo `kNumHistoryItems`, with
`fRecallCursor` equal to it and both below `kNumHistoryItems`; an Up key right
after makes the saved line the working line, with the cursor at its end. -/
theorem enter_then_up (K : Konstants) (E : ConsoleEnv) (s : pfConsole)
    (hE : E.InBounds) (hsize : s.fWorkingLine.length = K.kWorkingLineSize)
    (hnul : 0 ∈ s.fWorkingLine)
    (hw : (s.fHistory s.fPythonMode).WellFormed K)
    (hm : s.fPythonMultiLines < K.kNumHistoryItems)
    (hne : savedLine s ≠ []) (hfit : (savedLine s).length < K.kMaxCharsWide) :
    ∃ s₁ s₂ row,
      IHandleKey K E s (keyPress plKeyDef.KEY_ENTER) = some s₁
      ∧ s₁.fPythonMode = s.fPythonMode
      ∧ (s₁.fHistory s.fPythonMode).fData.get? (s.fHistory s.fPythonMode).fCursor = some row
      ∧ cstr row = savedLine s
      ∧ (s₁.fHistory s.fPythonMode).fCursor
          = ((s.fHistory s.fPythonMode).fCursor + 1) % K.kNumHistoryItems
      ∧ (s₁.fHistory s.fPythonMode).fRecallCursor = (s₁.fHistory s.fPythonMode).fCursor
      ∧ (s₁.fHistory s.fPythonMode).fCursor < K.kNumHistoryItems
      ∧ IHandleKey K E s₁ (keyPress plKeyDef.KEY_UP) = some s₂
      ∧ cstr s₂.fWorkingLine = savedLine s
      ∧ s₂.fWorkingCursor = (savedLine s).length := by
  obtain ⟨hsz, hsl⟩ := savedLine_spec s
  obtain ⟨s₁, r, hrun, hpm, hll, hdl, hget, hcur, hrc⟩ :=
    onEnter_saves K E s hE hsize hnul hw hm hne hfit
  have hc := hw.2.2
  have hidx : (if (s₁.fHistory s₁.fPythonMode).fRecallCursor > 0
      then (s₁.fHistory s₁.fPythonMode).fRecallCursor - 1 else K.kNumHistoryItems - 1)
      = (s.fHistory s.fPythonMode).fCursor := by
    rw [hpm, hrc, hcur]
    by_cases h : (s.fHistory s.fPythonMode).fCursor + 1 < K.kNumHistoryItems
    · rw [Nat.mod_eq_of_lt h, if_pos (by omega)]; omega
    · have e : (s.fHistory s.fPythonMode).fCursor + 1 = K.kNumHistoryItems := by omega
      rw [e, Nat.mod_self, if_neg (by omega)]; omega
  have hcl := cstr_length_lt _ hnul
  obtain ⟨s₂, hup, htxt, hcu⟩ := onUp_recalls K s₁ (savedLine s) r
    (by rw [hidx, hpm]; exact hget) hsz hne (by omega) (by omega)
  refine ⟨s₁, s₂, savedLine s ++ 0 :: r, ?_, hpm, hget, cstr_append_zero _ _ hsz, hcur, hrc,
    ?_, ?_, htxt, hcu⟩
  · rw [IHandleKey_keyPress]; exact hrun
  · rw [hcur]; exact Nat.mod_lt _ (by omega)
  · rw [IHandleKey_keyPress]; exact hup

set_option maxRecDepth 100000 in
/-- C26 fails in Python multi-line mode.  After a backslash, `if x:` and
Enter the console is in Python multi-line mode; the line `  y` (two leading
spaces), which is `y` without them, is then stored by Enter with its indent,
in line 1 of the Python history, and Up brings back `  y` with the cursor
at 3. -/
theorem enter_multi_line_keeps_indent :
    (handleKeys sampleKonstants sampleConsoleEnv (Init sampleKonstants) indentedKeys).map
        (fun s => (s.view, s.fPythonMode, s.fPythonMultiLines, (s.fHistory true).fCursor))
      = some ((ascii "  y", 3), true, 1, 1)
    ∧ (ascii "  y").dropWhile (fun b => b = 32 ∨ b = 9) = ascii "y"
    ∧ ((handleKeys sampleKonstants sampleConsoleEnv (Init sampleKonstants)
          (indentedKeys ++ [keyPress plKeyDef.KEY_ENTER])).bind
        (fun s => (s.fHistory true).fData.get? 1)).map cstr = some (ascii "  y")
    ∧ (handleKeys sampleKonstants sampleConsoleEnv (Init sampleKonstants)
          (indentedKeys ++ [keyPress plKeyDef.KEY_ENTER, keyPress plKeyDef.KEY_UP])).map
        pfConsole.view = some (ascii "  y", 3) := by
  decide

/-- C26 (amended) on a state in Python multi-line mode with the working line
`  x`: the line is saved and recalled with its indent. -/
theorem enter_then_up_witness :
    sampleConsoleEnv.InBounds
    ∧ savedLine sampleIndented = ascii "  x"
    ∧ ∃ s₁ s₂ row,
      IHandleKey smallKonstants sampleConsoleEnv sampleIndented (keyPress plKeyDef.KEY_ENTER)
        = some s₁
      ∧ s₁.fPythonMode = sampleIndented.fPythonMode
      ∧ (s₁.fHistory sampleIndented.fPythonMode).fData.get?
          (sampleIndented.fHistory sampleIndented.fPythonMode).fCursor = some row
      ∧ cstr row = savedLine sampleIndented
      ∧ (s₁.fHistory sampleIndented.fPythonMode).fCursor
          = ((sampleIndented.fHistory sampleIndented.fPythonMode).fCursor + 1)
              % smallKonstants.kNumHistoryItems
      ∧ (s₁.fHistory sampleIndented.fPythonMode).fRecallCursor
          = (s₁.fHistory sampleIndented.fPythonMode).fCursor
      ∧ (s₁.fHistory sampleIndented.fPythonMode).fCursor < smallKonstants.kNumHistoryItems
      ∧ IHandleKey smallKonstants sampleConsoleEnv s₁ (keyPress plKeyDef.KEY_UP) = some s₂
      ∧ cstr s₂.fWorkingLine = savedLine sampleIndented
      ∧ s₂.fWorkingCursor = (savedLine sampleIndented).length :=
  ⟨fun _ => ⟨rfl, rfl⟩, by decide,
    enter_then_up smallKonstants sampleConsoleEnv sampleIndented (fun _ => ⟨rfl, rfl⟩)
      (by decide) (by decide) (by decide) (by decide) (by decide) (by decide)⟩


/-! ## The cursor invariant on the other paths -/

/-- The tooltip update changes neither the working line nor the cursor. -/
theorem IUpdateTooltip_keeps (K : Konstants) (s s' : pfConsole)
    (h : IUpdateTooltip K s = some s') (hs : CursorInLine s) : CursorInLine s' := by
  unfold IUpdateTooltip at h
  split at h
  · exact Option.noConfusion h
  · have e := Option.some.inj h
    subst e
    exact hs

/-- A working line with the cursor within it holds a NUL. -/
theorem CursorInLine.mem (s : pfConsole) (h : CursorInLine s) : 0 ∈ s.fWorkingLine := by
  obtain ⟨n, hn, _⟩ := h
  unfold strlen at hn
  by_contra hc
  rw [if_neg hc] at hn
  exact Option.noConfusion hn

/-- The cursor within the line, in terms of the C string. -/
theorem CursorInLine.le (s : pfConsole) (h : CursorInLine s) :
    s.fWorkingCursor ≤ (cstr s.fWorkingLine).length := by
  have hm := CursorInLine.mem s h
  obtain ⟨n, hn, hc⟩ := h
  rw [strlen_of_mem _ hm] at hn
  rw [Option.some.inj hn]
  exact hc

/-- A state whose line holds a NUL and whose cursor is within the text. -/
theorem CursorInLine.intro (s : pfConsole) (hm : 0 ∈ s.fWorkingLine)
    (hc : s.fWorkingCursor ≤ (cstr s.fWorkingLine).length) : CursorInLine s :=
  ⟨_, strlen_of_mem _ hm, hc⟩

/-- The cursor is within the line when it was just set to `strlen`. -/
theorem CursorInLine.of_strlen (s : pfConsole) (n : Nat) (h : strlen s.fWorkingLine = some n)
    (hc : s.fWorkingCursor ≤ n) : CursorInLine s := ⟨n, h, hc⟩

/-- After `fWorkingLine[ fWorkingCursor = 0 ] = 0;` the cursor is within the
line. -/
theorem clearLine_keeps (s s' : pfConsole) (h : clearLine s = some s') : CursorInLine s' := by
  unfold clearLine setAt at h
  by_cases hpos : 0 < s.fWorkingLine.length
  · rw [if_pos hpos] at h
    have e := Option.some.inj h
    subst e
    obtain ⟨a, as, hl⟩ : ∃ a as, s.fWorkingLine = a :: as := by
      cases hh : s.fWorkingLine with
      | nil => rw [hh] at hpos; simp at hpos
      | cons a as => exact ⟨a, as, rfl⟩
    apply CursorInLine.intro
    · show 0 ∈ s.fWorkingLine.set 0 0
      rw [hl]; simp
    · exact Nat.zero_le _
  · rw [if_neg hpos] at h
    exact Option.noConfusion h

/-- When the loop of Backspace and Delete returns, the bytes after its start
were a text and a NUL, and they have moved one place down. -/
theorem shiftLeft_some (l : List Nat) : ∀ (a : Nat) (r : List Nat),
    shiftLeft (a :: l) = some r →
    ∃ t rest, l = t ++ 0 :: rest ∧ (∀ b ∈ t, b ≠ 0) ∧ r = t ++ 0 :: 0 :: rest := by
  induction l with
  | nil => intro a r h; simp [shiftLeft] at h
  | cons b bs ih =>
    intro a r h
    rw [shiftLeft] at h
    by_cases hb : b ≠ 0
    · rw [if_pos hb] at h
      cases hrec : shiftLeft (b :: bs) with
      | none => rw [hrec] at h; simp at h
      | some r' =>
        rw [hrec] at h
        obtain ⟨t, rest, h1, h2, h3⟩ := ih b r' hrec
        refine ⟨b :: t, rest, by rw [h1]; rfl, ?_, ?_⟩
        · intro x hx
          rcases List.mem_cons.1 hx with hx | hx
          · rw [hx]; exact hb
          · exact h2 x hx
        · have e := Option.some.inj h
          rw [← e, h3]; rfl
    · rw [if_neg hb] at h
      have hb0 : b = 0 := by omega
      subst hb0
      exact ⟨[], bs, rfl, by simp, (Option.some.inj h).symm⟩

/-- After the loop of Backspace and Delete, started within the text or at its
end, the start is still within the text. -/
theorem shiftLeftAt_keeps (line line' : List Nat) (c : Nat) (hm : 0 ∈ line)
    (hc : c ≤ (cstr line).length) (h : shiftLeftAt line c = some line') :
    0 ∈ line' ∧ c ≤ (cstr line').length := by
  unfold shiftLeftAt at h
  cases hs : shiftLeft (line.drop c) with
  | none => rw [hs] at h; simp at h
  | some r =>
    rw [hs] at h
    have e : line' = line.take c ++ r := (Option.some.inj h).symm
    obtain ⟨tl, htl⟩ := split_at_nul line hm
    have hdrop : ∃ a l, line.drop c = a :: l := by
      cases hd : line.drop c with
      | nil => rw [hd] at hs; simp [shiftLeft] at hs
      | cons a l => exact ⟨a, l, rfl⟩
    obtain ⟨a, l, hd⟩ := hdrop
    rw [hd] at hs
    obtain ⟨t, rest, _, h2, h3⟩ := shiftLeft_some l a r hs
    have htake : line.take c = (cstr line).take c := by
      rw [htl, List.take_append_of_le_length hc]
      congr 1
      rw [← htl]
    have hall : ∀ b ∈ (cstr line).take c ++ t, b ≠ 0 := by
      intro b hb
      rcases List.mem_append.1 hb with hb | hb
      · exact cstr_ne_zero _ b (List.mem_of_mem_take hb)
      · exact h2 b hb
    have hform : line' = ((cstr line).take c ++ t) ++ 0 :: 0 :: rest := by
      rw [e, htake, h3]; simp
    refine ⟨by rw [hform]; simp, ?_⟩
    rw [hform, cstr_append_zero _ _ hall]
    simp only [List.length_append, List.length_take]
    omega

/-- Escape leaves the cursor within the line. -/
theorem onEscape_keeps (K : Konstants) (s s' : pfConsole) (h : onEscape K s = some s') :
    CursorInLine s' := by
  unfold onEscape at h
  cases hc : clearLine s with
  | none => rw [hc] at h; exact Option.noConfusion h
  | some s₁ =>
    rw [hc] at h
    exact IUpdateTooltip_keeps K _ s' h (clearLine_keeps s s₁ hc)

/-- Left leaves the cursor within the line. -/
theorem onLeft_keeps (s s' : pfConsole) (hs : CursorInLine s) (h : onLeft s = some s') :
    CursorInLine s' := by
  unfold onLeft at h
  obtain ⟨n, hn, hc⟩ := hs
  split at h
  · have e := Option.some.inj h
    subst e
    exact ⟨n, hn, by show s.fWorkingCursor - 1 ≤ n; omega⟩
  · have e := Option.some.inj h
    subst e
    exact ⟨n, hn, hc⟩

/-- Right leaves the cursor within the line. -/
theorem onRight_keeps (s s' : pfConsole) (hs : CursorInLine s) (h : onRight s = some s') :
    CursorInLine s' := by
  unfold onRight at h
  obtain ⟨n, hn, hc⟩ := hs
  rw [hn] at h
  dsimp only at h
  split at h
  · have e := Option.some.inj h
    subst e
    exact ⟨n, hn, by show s.fWorkingCursor + 1 ≤ n; omega⟩
  · have e := Option.some.inj h
    subst e
    exact ⟨n, hn, hc⟩

/-- End leaves the cursor within the line. -/
theorem onEnd_keeps (s s' : pfConsole) (h : onEnd s = some s') : CursorInLine s' := by
  unfold onEnd at h
  cases hn : strlen s.fWorkingLine with
  | none => rw [hn] at h; exact Option.noConfusion h
  | some n =>
    rw [hn] at h
    have e := Option.some.inj h
    subst e
    exact ⟨n, hn, le_refl _⟩

/-- Home leaves the cursor within the line. -/
theorem onHome_keeps (s s' : pfConsole) (hs : CursorInLine s) (h : onHome s = some s') :
    CursorInLine s' := by
  unfold onHome at h
  obtain ⟨n, hn, _⟩ := hs
  have e := Option.some.inj h
  subst e
  exact ⟨n, hn, Nat.zero_le _⟩

/-- Backspace leaves the cursor within the line. -/
theorem onBackspace_keeps (K : Konstants) (s s' : pfConsole) (hs : CursorInLine s)
    (h : onBackspace K s = some s') : CursorInLine s' := by
  unfold onBackspace at h
  split at h
  · cases hsh : shiftLeftAt s.fWorkingLine (s.fWorkingCursor - 1) with
    | none => rw [hsh] at h; exact Option.noConfusion h
    | some line =>
      rw [hsh] at h
      have hle := CursorInLine.le s hs
      obtain ⟨h1, h2⟩ := shiftLeftAt_keeps _ _ _ (CursorInLine.mem s hs) (by omega) hsh
      exact IUpdateTooltip_keeps K _ s' h (CursorInLine.intro _ h1 h2)
  · split at h
    · exact IUpdateTooltip_keeps K _ s' h hs
    · exact IUpdateTooltip_keeps K _ s' h hs

/-- Delete leaves the cursor within the line. -/
theorem onDelete_keeps (K : Konstants) (s s' : pfConsole) (hs : CursorInLine s)
    (h : onDelete K s = some s') : CursorInLine s' := by
  unfold onDelete at h
  cases hsh : shiftLeftAt s.fWorkingLine s.fWorkingCursor with
  | none => rw [hsh] at h; exact Option.noConfusion h
  | some line =>
    rw [hsh] at h
    obtain ⟨h1, h2⟩ := shiftLeftAt_keeps _ _ _ (CursorInLine.mem s hs) (CursorInLine.le s hs) hsh
    exact IUpdateTooltip_keeps K _ s' h (CursorInLine.intro _ h1 h2)

/-- Up leaves the cursor within the line. -/
theorem onUp_keeps (K : Konstants) (s s' : pfConsole) (hs : CursorInLine s)
    (h : onUp K s = some s') : CursorInLine s' := by
  unfold onUp at h
  dsimp only at h
  split at h
  · exact Option.noConfusion h
  · split at h
    · exact Option.noConfusion h
    · split at h
      · split at h
        · exact Option.noConfusion h
        · split at h
          · exact Option.noConfusion h
          · rename_i line _ n hn
            exact IUpdateTooltip_keeps K _ s' h ⟨n, hn, le_refl _⟩
      · have e := Option.some.inj h
        subst e
        exact hs

/-- Down leaves the cursor within the line. -/
theorem onDown_keeps (K : Konstants) (s s' : pfConsole) (hs : CursorInLine s)
    (h : onDown K s = some s') : CursorInLine s' := by
  unfold onDown at h
  dsimp only at h
  split at h
  · split at h
    · exact Option.noConfusion h
    · split at h
      · exact Option.noConfusion h
      · rename_i n hn
        exact IUpdateTooltip_keeps K _ s' h ⟨n, hn, le_refl _⟩
  · have e := Option.some.inj h
    subst e
    exact hs

/-- After `strcat(&fWorkingLine[fWorkingCursor], text)` with the start within
the line, the text has grown by `text`. -/
theorem strcatAt_keeps (line line' text : List Nat) (c : Nat) (hm : 0 ∈ line)
    (hc : c ≤ (cstr line).length) (htext : ∀ b ∈ text, b ≠ 0)
    (h : strcatAt line c text = some line') :
    0 ∈ line' ∧ c + text.length ≤ (cstr line').length := by
  obtain ⟨tl, htl⟩ := split_at_nul line hm
  have hT := cstr_ne_zero line
  generalize cstr line = T at htl hT hc
  subst htl
  have hdrop : (T ++ 0 :: tl).drop c = T.drop c ++ 0 :: tl := List.drop_append_of_le_length hc
  have hcd : cstr ((T ++ 0 :: tl).drop c) = T.drop c := by
    rw [hdrop]
    exact cstr_append_zero _ _ (fun b hb => hT b (List.mem_of_mem_drop hb))
  have hlen : strlen ((T ++ 0 :: tl).drop c) = some (T.length - c) := by
    rw [strlen_of_mem _ (by rw [hdrop]; simp), hcd, List.length_drop]
  unfold strcatAt at h
  rw [hlen] at h
  dsimp only at h
  have hcn : c + (T.length - c) = T.length := by omega
  rw [hcn] at h
  split at h
  · have e := (Option.some.inj h).symm
    rw [List.take_left] at e
    have hall : ∀ b ∈ T ++ text, b ≠ 0 := by
      intro b hb
      rcases List.mem_append.1 hb with hb | hb
      · exact hT b hb
      · exact htext b hb
    refine ⟨by rw [e]; simp, ?_⟩
    rw [e, cstr_append_zero _ _ hall]
    simp only [List.length_append]
    omega
  · exact Option.noConfusion h

/-- After the loop of the character branch and the store of a byte that is not
NUL at the cursor, the cursor plus one is within the line. -/
theorem insert_keeps (line shifted line' : List Nat) (c k : Nat) (hm : 0 ∈ line)
    (hc : c ≤ (cstr line).length) (hk : k ≠ 0)
    (h₁ : shiftRight c ((cstr line).length + 1 - c) line = some shifted)
    (h₂ : setAt shifted c k = some line') :
    0 ∈ line' ∧ c + 1 ≤ (cstr line').length := by
  obtain ⟨tl, htl⟩ := split_at_nul line hm
  have hT := cstr_ne_zero line
  generalize cstr line = T at htl hT hc h₁
  subst htl
  have hpl : (T.take c).length = c := by rw [List.length_take]; omega
  have hsplit : T.take c ++ T.drop c = T := List.take_append_drop _ _
  cases tl with
  | nil =>
    obtain ⟨j, hj⟩ : ∃ j, T.length + 1 - c = j + 1 := ⟨T.length - c, by omega⟩
    rw [hj, shiftRight] at h₁
    have hnot : ¬ (c + j + 1 < (T ++ [0]).length) := by simp; omega
    rw [if_neg hnot] at h₁
    exact Option.noConfusion h₁
  | cons r₀ r =>
    have e : T ++ 0 :: r₀ :: r = T.take c ++ (T.drop c ++ [0]) ++ r₀ :: r := by
      conv_lhs => rw [← hsplit]
      simp only [List.append_assoc, List.singleton_append]
    have hkk : T.length + 1 - c = (T.drop c ++ [0]).length := by
      simp; omega
    have hsh := shiftRight_text _ (T.take c) (T.drop c ++ [0]) r r₀ rfl
    rw [hpl, ← e, ← hkk, h₁] at hsh
    have es := Option.some.inj hsh
    rw [es] at h₂
    unfold setAt at h₂
    split at h₂
    · have e₂ := (Option.some.inj h₂).symm
      have hset : (T.take c ++ ((T.drop c ++ [0]) ++ [r₀]).headD 0 :: (T.drop c ++ [0]) ++ r).set
            c k
          = (T.take c ++ k :: T.drop c) ++ 0 :: r := by
        have e₃ : T.take c ++ ((T.drop c ++ [0]) ++ [r₀]).headD 0 :: (T.drop c ++ [0]) ++ r
            = T.take c ++ (((T.drop c ++ [0]) ++ [r₀]).headD 0 :: ((T.drop c ++ [0]) ++ r)) := by
          simp
        rw [e₃, List.set_append_right _ _ (by omega)]
        have e₄ : c - (T.take c).length = 0 := by omega
        rw [e₄]
        simp
      rw [hset] at e₂
      have hall : ∀ b ∈ T.take c ++ k :: T.drop c, b ≠ 0 := by
        intro b hb
        rcases List.mem_append.1 hb with hb | hb
        · exact hT b (List.mem_of_mem_take hb)
        · rcases List.mem_cons.1 hb with hb | hb
          · rw [hb]; exact hk
          · exact hT b (List.mem_of_mem_drop hb)
      refine ⟨by rw [e₂]; simp, ?_⟩
      rw [e₂, cstr_append_zero _ _ hall]
      simp only [List.length_append, List.length_cons, List.length_take, List.length_drop]
      omega
    · exact Option.noConfusion h₂

/-- Tab leaves the cursor within the line. -/
theorem onTab_keeps (K : Konstants) (E : ConsoleEnv) (s s' : pfConsole) (hs : CursorInLine s)
    (h : onTab K E s = some s') : CursorInLine s' := by
  unfold onTab at h
  by_cases hp : s.fPythonMode = true
  · rw [if_pos hp] at h
    split at h
    · exact Option.noConfusion h
    · split at h
      · split at h
        · exact Option.noConfusion h
        · rename_i line hcat
          have e := Option.some.inj h
          subst e
          obtain ⟨h1, h2⟩ := strcatAt_keeps _ _ _ _ (CursorInLine.mem s hs) (CursorInLine.le s hs)
            (by intro b hb; simp at hb; omega) hcat
          exact CursorInLine.intro _ h1 h2
      · have e := Option.some.inj h
        subst e
        exact hs
  · rw [if_neg hp] at h
    dsimp only at h
    split at h
    · exact Option.noConfusion h
    · split at h
      · exact Option.noConfusion h
      · split at h
        · exact Option.noConfusion h
        · split at h
          · exact Option.noConfusion h
          · rename_i n hn
            exact IUpdateTooltip_keeps K _ s' h ⟨n, hn, le_refl _⟩

/-- The character branch leaves the cursor within the line, when the
character is not cut to a NUL byte. -/
theorem onChar_keeps (K : Konstants) (E : ConsoleEnv) (s s' : pfConsole) (key : Nat)
    (hs : CursorInLine s) (hkey : key % 256 ≠ 0) (h : onChar K E s key = some s') :
    CursorInLine s' := by
  unfold onChar at h
  split at h
  · have e := Option.some.inj h
    subst e
    exact hs
  · split at h
    · dsimp only at h
      split at h
      · have e := Option.some.inj h
        subst e
        exact hs
      · have e := Option.some.inj h
        subst e
        exact hs
    · have hm := CursorInLine.mem s hs
      rw [strlen_of_mem _ hm] at h
      dsimp only at h
      split at h
      · split at h
        · exact Option.noConfusion h
        · split at h
          · exact Option.noConfusion h
          · rename_i x₁ shifted hsh x₂ line hset
            obtain ⟨h1, h2⟩ := insert_keeps _ _ _ _ _ hm (CursorInLine.le s hs) hkey hsh hset
            exact IUpdateTooltip_keeps K _ s' h (CursorInLine.intro _ h1 h2)
      · have e := Option.some.inj h
        subst e
        exact hs

/-- Enter leaves the cursor within the line, except through the blank-line
exit with the cursor not at 0. -/
theorem onEnter_keeps (K : Konstants) (E : ConsoleEnv) (s s' : pfConsole) (hs : CursorInLine s)
    (hblank : ¬ (s.fHelpMode = false ∧ s.fPythonMode = false ∧ savedLine s = []
      ∧ 0 < s.fWorkingCursor))
    (h : onEnter K E s = some s') : CursorInLine s' := by
  obtain ⟨line, eol, hclean, hcs, hl0, _, _⟩ := cleaned_ok s (CursorInLine.mem s hs)
  unfold onEnter at h
  rw [hclean] at h
  dsimp only at h
  split at h
  · exact Option.noConfusion h
  · rename_i c₀ hc₀
    split at h
    · rename_i hb
      have e := Option.some.inj h
      subst e
      have hempty : cstr line = [] := by
        cases line with
        | nil => rfl
        | cons a as =>
          have : a = c₀ := by simpa using hc₀
          rw [this, hb.1]
          simp [cstr]
      have hcur : s.fWorkingCursor = 0 := by
        by_contra hne
        exact hblank ⟨by simpa using hb.2.1, by simpa using hb.2.2, by rw [← hcs]; exact hempty,
          by omega⟩
      apply CursorInLine.intro
      · exact hl0
      · show s.fWorkingCursor ≤ _
        omega
    · split at h
      · exact Option.noConfusion h
      · split at h
        · exact Option.noConfusion h
        · split at h
          · exact Option.noConfusion h
          · rename_i s₃ hclear
            exact IUpdateTooltip_keeps K _ s' h (clearLine_keeps _ s₃ hclear)

/-- Apart from two paths, `IHandleKey` keeps the cursor within the working
line: the blank-line exit of Enter taken with the cursor not at 0, and a
character that `char(key)` cuts to a NUL byte. -/
theorem IHandleKey_keeps_cursor (K : Konstants) (E : ConsoleEnv) (s s' : pfConsole)
    (msg : plKeyEventMsg) (hs : CursorInLine s)
    (hblank : ¬ (msg.keyCode = plKeyDef.KEY_ENTER ∧ s.fHelpMode = false
      ∧ s.fPythonMode = false ∧ savedLine s = [] ∧ 0 < s.fWorkingCursor))
    (hbyte : msg.keyChar ≠ 0 → msg.keyChar % 256 ≠ 0)
    (h : IHandleKey K E s msg = some s') : CursorInLine s' := by
  unfold IHandleKey at h
  split at h
  · have e := Option.some.inj h
    subst e
    exact hs
  · split at h
    · exact onEscape_keeps K s s' h
    · exact onTab_keeps K E s s' hs h
    · exact onUp_keeps K s s' hs h
    · exact onDown_keeps K s s' hs h
    · exact onLeft_keeps s s' hs h
    · exact onRight_keeps s s' hs h
    · exact onBackspace_keeps K s s' hs h
    · exact onDelete_keeps K s s' hs h
    · rename_i hcode
      exact onEnter_keeps K E s s' hs (fun hb => hblank ⟨hcode, hb⟩) h
    · exact onEnd_keeps s s' h
    · exact onHome_keeps s s' hs h
    · split at h
      · rename_i hk
        exact onChar_keeps K E s s' _ hs (hbyte hk) h
      · have e := Option.some.inj h
        subst e
        exact hs

/-- The guard of Tab in Python mode, `strlen(fWorkingLine) <
kWorkingLineSize+2`, never stops the `strcat`: with a working line of 12
bytes, five Tab keys fill it up to the text of 10 spaces, and the sixth writes
past the end of the array. -/
theorem python_tab_leaves_the_array :
    (handleKeys smallKonstants sampleConsoleEnv (Init smallKonstants)
        (typed "\\" ++ List.replicate 5 (keyPress plKeyDef.KEY_TAB))).map pfConsole.view
      = some (List.replicate 10 32, 10)
    ∧ handleKeys smallKonstants sampleConsoleEnv (Init smallKonstants)
        (typed "\\" ++ List.replicate 6 (keyPress plKeyDef.KEY_TAB)) = none := by
  decide

/-! ### Where the exit of the pump fails -/

/-- C14 fails when the quit message is not the last message of its turn.  In
this run the cancel click is dispatched in the second turn, and the dialog
procedure posts the quit request with exit code 0.  The third turn retrieves
that `WM_QUIT`, the `WM_QUIT` of `PostQuitMessage`, and then a timer tick.  At
the end of this turn, after its poll of the net core, `PumpMessages` has not
returned; it polls on through the turns that follow, in which the queue is
empty, and `WinMain` has returned no exit code when the run as described
ends.  Without the timer tick (`cancelRun`) the same run ends with exit
code 0. -/
theorem cancel_quit_overwritten_by_later_message :
    (Event.IsDialogMessageW cancelClick.msg
        ∈ (PumpMessages ⟨true⟩ sampleExternals sampleDialog ⟨false⟩ cancelLostRun.msg₀
            (cancelLostRun.pump.take 2)).trace
      ∧ Event.PostMessageW HWND.dialog WM_QUIT 0 0
        ∈ (PumpMessages ⟨true⟩ sampleExternals sampleDialog ⟨false⟩ cancelLostRun.msg₀
            (cancelLostRun.pump.take 2)).trace)
    ∧ (retrieved ((cancelLostRun.pump.drop 2).take 1)).map (fun m => m.message)
        = [WM_QUIT, WM_QUIT, 275]
    ∧ ((PumpMessages ⟨true⟩ sampleExternals sampleDialog ⟨false⟩ cancelLostRun.msg₀
            (cancelLostRun.pump.take 3)).result = none
      ∧ (PumpMessages ⟨true⟩ sampleExternals sampleDialog ⟨false⟩ cancelLostRun.msg₀
            (cancelLostRun.pump.take 3)).trace.getLast?
          = some (Event.launcher LauncherCall.PumpNetCore))
    ∧ ((PumpMessages ⟨true⟩ sampleExternals sampleDialog ⟨false⟩ cancelLostRun.msg₀
            cancelLostRun.pump).result = none
      ∧ (PumpMessages ⟨true⟩ sampleExternals sampleDialog ⟨false⟩ cancelLostRun.msg₀
            cancelLostRun.pump).trace.count (Event.launcher LauncherCall.PumpNetCore) = 5
      ∧ (WinMain ⟨true⟩ sampleExternals cancelLostRun).result = none)
    ∧ (WinMain ⟨true⟩ sampleExternals cancelRun).result = some 0 := by
  refine ⟨⟨?_, ?_⟩, ?_, ⟨?_, ?_⟩, ⟨?_, ?_, ?_⟩, ?_⟩ <;> decide

end Plasma
